import Mathlib

/-!
Verification development for the SoW document-assembly workflow engine
(`backend/services/sow_workflow_service.py` and
`backend/services/knowledge_access_service.py`).

The Python code is shallowly embedded:
* JSON-like dynamic values become the inductive `Json` (numbers as `Rat`);
* Python truthiness, `or`, `dict.get`, indexing, iteration and the raised
  exceptions (`AttributeError`, `TypeError`, `IndexError`, plus the service's
  own `ValidationError` / `StateTransitionError`) are modelled explicitly,
  with fallible steps in `Except PyError`;
* the external collaborators (completion service, retrieval agent, object
  storage, hashing, clock, uuid) are oracle functions bundled in `Env`;
* the in-place mutation of a `SOWCase` is modelled by returning the updated
  case from each stage handler.
-/

namespace SowSpec

/-- Dynamic JSON-like values: the payloads the Python code passes around.
Numbers are modelled as rationals (covers the ints and the `0.5` / `0.4`
literals appearing in the sources; no claim depends on float rounding). -/
inductive Json where
  | null : Json
  | bool (b : Bool) : Json
  | num (q : Rat) : Json
  | str (s : String) : Json
  | arr (xs : List Json) : Json
  | obj (kvs : List (String × Json)) : Json
deriving Repr

mutual

def Json.decEq : (a b : Json) → Decidable (a = b)
  | .null, .null => .isTrue rfl
  | .bool x, .bool y =>
      if h : x = y then .isTrue (h ▸ rfl) else .isFalse fun e => h (by cases e; rfl)
  | .num x, .num y =>
      if h : x = y then .isTrue (h ▸ rfl) else .isFalse fun e => h (by cases e; rfl)
  | .str x, .str y =>
      if h : x = y then .isTrue (h ▸ rfl) else .isFalse fun e => h (by cases e; rfl)
  | .arr x, .arr y =>
      match Json.decEqList x y with
      | .isTrue h => .isTrue (h ▸ rfl)
      | .isFalse h => .isFalse fun e => h (by cases e; rfl)
  | .obj x, .obj y =>
      match Json.decEqKvs x y with
      | .isTrue h => .isTrue (h ▸ rfl)
      | .isFalse h => .isFalse fun e => h (by cases e; rfl)
  | .null, .bool _ | .null, .num _ | .null, .str _ | .null, .arr _ | .null, .obj _
  | .bool _, .null | .bool _, .num _ | .bool _, .str _ | .bool _, .arr _ | .bool _, .obj _
  | .num _, .null | .num _, .bool _ | .num _, .str _ | .num _, .arr _ | .num _, .obj _
  | .str _, .null | .str _, .bool _ | .str _, .num _ | .str _, .arr _ | .str _, .obj _
  | .arr _, .null | .arr _, .bool _ | .arr _, .num _ | .arr _, .str _ | .arr _, .obj _
  | .obj _, .null | .obj _, .bool _ | .obj _, .num _ | .obj _, .str _ | .obj _, .arr _ =>
      .isFalse nofun

def Json.decEqList : (a b : List Json) → Decidable (a = b)
  | [], [] => .isTrue rfl
  | x :: xs, y :: ys =>
      match Json.decEq x y, Json.decEqList xs ys with
      | .isTrue h1, .isTrue h2 => .isTrue (by rw [h1, h2])
      | .isFalse h1, _ => .isFalse fun e => h1 (by cases e; rfl)
      | _, .isFalse h2 => .isFalse fun e => h2 (by cases e; rfl)
  | [], _ :: _ => .isFalse nofun
  | _ :: _, [] => .isFalse nofun

def Json.decEqKvs : (a b : List (String × Json)) → Decidable (a = b)
  | [], [] => .isTrue rfl
  | (k1, v1) :: xs, (k2, v2) :: ys =>
      if hk : k1 = k2 then
        match Json.decEq v1 v2, Json.decEqKvs xs ys with
        | .isTrue h1, .isTrue h2 => .isTrue (by rw [hk, h1, h2])
        | .isFalse h1, _ => .isFalse fun e => h1 (by cases e; rfl)
        | _, .isFalse h2 => .isFalse fun e => h2 (by cases e; rfl)
      else .isFalse fun e => hk (by cases e; rfl)
  | [], _ :: _ => .isFalse nofun
  | _ :: _, [] => .isFalse nofun

end

instance : DecidableEq Json := Json.decEq

/-- Python exceptions that the embedded code can raise.  `WorkflowError`'s two
subclasses keep their message; the builtin exceptions' messages are irrelevant
to every claim and are dropped. -/
inductive PyError where
  | validationError (msg : String)
  | stateTransitionError (msg : String)
  | attributeError
  | typeError
  | indexError
  | keyError
deriving DecidableEq, Repr

namespace Json

/-- Python truthiness of a value (`bool(x)`). -/
def truthy : Json → Bool
  | .null => false
  | .bool b => b
  | .num q => q ≠ 0
  | .str s => s ≠ ""
  | .arr xs => !xs.isEmpty
  | .obj kvs => !kvs.isEmpty

/-- `x or y` in Python. -/
def pyOr (a b : Json) : Json := if a.truthy then a else b

/-- Lookup in an association list representing a Python dict
(first match; construction keeps keys unique). -/
def lookupKey : List (String × Json) → String → Option Json
  | [], _ => none
  | (k, v) :: rest, key => if k = key then some v else lookupKey rest key

/-- `d[k] = v` on a dict: replace in place if the key exists (Python dicts
keep the original insertion position), else append. -/
def setKey : List (String × Json) → String → Json → List (String × Json)
  | [], key, v => [(key, v)]
  | (k, w) :: rest, key, v =>
      if k = key then (key, v) :: rest else (k, w) :: setKey rest key v

/-- `{**a, **b}`: entries of `a` in order with `b`'s values overriding,
then `b`'s new keys appended in order. -/
def mergeKvs (a b : List (String × Json)) : List (String × Json) :=
  b.foldl (fun acc (kv : String × Json) => setKey acc kv.1 kv.2) a

/-- `x.get(k)` — raises `AttributeError` when `x` is not a dict,
returns `None` for a missing key. -/
def attrGet : Json → String → Except PyError Json
  | .obj kvs, key => .ok ((lookupKey kvs key).getD .null)
  | _, _ => .error .attributeError

/-- `x.get(k, default)` — raises `AttributeError` when `x` is not a dict. -/
def attrGetD (j : Json) (key : String) (dflt : Json) : Except PyError Json :=
  match j with
  | .obj kvs => .ok ((lookupKey kvs key).getD dflt)
  | _ => .error .attributeError

/-- `k in x` for a dict `x` (raises `TypeError` otherwise; the sources only
use it on dicts). -/
def hasKey : Json → String → Bool
  | .obj kvs, key => (lookupKey kvs key).isSome
  | _, _ => false

/-- `x.items()` — raises `AttributeError` when `x` is not a dict. -/
def items : Json → Except PyError (List (String × Json))
  | .obj kvs => .ok kvs
  | _ => .error .attributeError

/-- `list(x.keys())` — raises `AttributeError` when `x` is not a dict. -/
def keys : Json → Except PyError (List String)
  | .obj kvs => .ok (kvs.map Prod.fst)
  | _ => .error .attributeError

/-- `x.values()` — raises `AttributeError` when `x` is not a dict. -/
def values : Json → Except PyError (List Json)
  | .obj kvs => .ok (kvs.map Prod.snd)
  | _ => .error .attributeError

def isObj : Json → Bool
  | .obj _ => true
  | _ => false

def isStr : Json → Bool
  | .str _ => true
  | _ => false

def isArr : Json → Bool
  | .arr _ => true
  | _ => false

/-- `iter(x)`: lists yield elements, strings yield 1-character strings,
dicts yield their keys; other values raise `TypeError`. -/
def pyIter : Json → Except PyError (List Json)
  | .arr xs => .ok xs
  | .str s => .ok (s.toList.map fun c => .str (String.singleton c))
  | .obj kvs => .ok (kvs.map fun kv => .str kv.1)
  | _ => .error .typeError

end Json

/-- `str(x)`.  Renders the Python `repr`-style text for containers; the
workflow only ever feeds the result of `str` on strings onward, so only the
string case is load-bearing. -/
def pyStr : Json → String
  | .null => "None"
  | .bool true => "True"
  | .bool false => "False"
  | .num q => if q.den = 1 then toString q.num else toString q
  | .str s => s
  | .arr xs => "[list of " ++ toString xs.length ++ " items]"
  | .obj kvs => "[dict of " ++ toString kvs.length ++ " items]"

/-- `float(x)`: numbers and booleans convert; `None` and other shapes raise
`TypeError` (this is what makes a score-less citation crash the
normalisation in `retrieve_section_clauses`). -/
def pyFloat (j : Json) : Except PyError Rat :=
  match j with
  | .num q => .ok q
  | .bool b => .ok (if b then 1 else 0)
  | _ => .error .typeError

/-- Python whitespace (the ASCII part of `\s` / `str.strip()`). -/
def isPyWs (c : Char) : Bool :=
  c = ' ' ∨ c = '\t' ∨ c = '\n' ∨ c = '\r' ∨ c = '\x0b' ∨ c = '\x0c'

/-- `s.strip()`. -/
def pyStrip (s : String) : String :=
  ⟨(s.toList.dropWhile isPyWs).reverse.dropWhile isPyWs |>.reverse⟩

/-- `s.split()` — split on whitespace runs, discarding empty pieces. -/
def pySplitWs (s : String) : List String :=
  ((s.toList.splitOnP isPyWs).map List.asString).filter (· ≠ "")

/-- `sub in s` (substring containment). -/
def strContains (s sub : String) : Bool :=
  (s.toList.tails.any fun t => sub.toList.isPrefixOf t)

/-- `s.split(sep, maxsplit)`: at most `maxsplit` splits, scanning left to
right (`sep` is non-empty at every use site; fuel-based structural recursion
so that the kernel can evaluate it). -/
def pySplitLimit (s sep : String) (maxsplit : Nat) : List String :=
  go (s.length + 1) s.toList sep.toList maxsplit [] []
where
  go : Nat → List Char → List Char → Nat → List Char → List String → List String
    | 0, l, _, _, cur, acc => (acc ++ [(cur.reverse ++ l).asString])
    | _ + 1, [], _, _, cur, acc => (acc ++ [cur.reverse.asString])
    | fuel + 1, c :: rest, sepl, n, cur, acc =>
        if sepl ≠ [] ∧ n > 0 ∧ sepl.isPrefixOf (c :: rest) then
          go fuel ((c :: rest).drop sepl.length) sepl (n - 1) []
            (acc ++ [cur.reverse.asString])
        else
          go fuel rest sepl n (c :: cur) acc

/-- Split on a (non-empty) separator without a split bound,
`s.split(sep)` / `String.splitOn` (structural). -/
def sSplitOn (s sep : String) : List String :=
  pySplitLimit s sep (s.length + 1)

/-- `str.startswith` on the character lists (structural). -/
def sStartsWith (s p : String) : Bool :=
  p.toList.isPrefixOf s.toList

/-- Non-overlapping left-to-right replacement, `s.replace(pat, rep)`
(structural; `pat` non-empty at every use site). -/
def sReplace (s pat rep : String) : String :=
  go (s.length + 1) s.toList |>.asString
where
  go : Nat → List Char → List Char
    | 0, l => l
    | _ + 1, [] => []
    | fuel + 1, c :: rest =>
        if pat ≠ "" ∧ pat.toList.isPrefixOf (c :: rest) then
          rep.toList ++ go fuel ((c :: rest).drop pat.length)
        else c :: go fuel rest

/-- `s.lower()` (ASCII; the sources compare ASCII service names and phrases). -/
def pyLower (s : String) : String := ⟨s.toList.map Char.toLower⟩

/-- `int(x)` for the values that reach it in the sources: numbers truncate
toward zero, booleans coerce, digit strings parse; everything else raises. -/
def pyInt (j : Json) : Except PyError Int :=
  match j with
  | .num q => .ok (if q ≥ 0 then q.floor else q.ceil)
  | .bool b => .ok (if b then 1 else 0)
  | .str s =>
      let t := pyStrip s
      let core := if sStartsWith t "-" then t.drop 1 else t
      if core.length > 0 ∧ core.toList.all Char.isDigit then
        let n : Int := core.toList.foldl (fun acc c => acc * 10 + (c.toNat - '0'.toNat : Nat)) 0
        .ok (if sStartsWith t "-" then -n else n)
      else .error .typeError
  | _ => .error .typeError

/-- `s.title()`: a letter that follows a non-letter is uppercased, every other
letter lowercased. -/
def pyTitle (s : String) : String :=
  ⟨(s.toList.foldl
      (fun (st : List Char × Bool) c =>
        if c.isAlpha then
          ((if st.2 then c.toUpper else c.toLower) :: st.1, true)
        else (c :: st.1, false))
      ([], false)).1.reverse⟩

/-- Python list indexing with negative indices; out of range raises. -/
def pyIdx (l : List Json) (i : Int) : Except PyError Json :=
  let j := if i ≥ 0 then i else i + l.length
  if h : 0 ≤ j ∧ j.toNat < l.length then
    .ok (l.get ⟨j.toNat, h.2⟩)
  else .error .indexError

/-- `l[:k]` (slice from the start; a negative bound counts from the end). -/
def pySliceTo (l : List Json) (k : Int) : List Json :=
  if k ≥ 0 then l.take k.toNat else l.take ((k + l.length).toNat)

/-- Whether `hash(x)` works: lists and dicts are unhashable. -/
def pyHashable : Json → Bool
  | .arr _ => false
  | .obj _ => false
  | _ => true

/-- `set(l)`: raises `TypeError` on an unhashable element.  The set is kept
as the list itself — the sources only test membership of hashable values,
where list membership agrees with set membership. -/
def pySet (l : List Json) : Except PyError (List Json) :=
  if l.all pyHashable then .ok l else .error .typeError

/-- The opening brace character, `chr(123)`. -/
def lbrace : Char := Char.ofNat 123

/-- The closing brace character, `chr(125)`. -/
def rbrace : Char := Char.ofNat 125

/-! ### `json.loads` / `json.dumps`

A recursive-descent parser and serializer adequate for the JSON the services
exchange (objects, arrays, strings with the standard escapes, decimal
numbers, booleans, null). -/

namespace JsonUtil

/-- JSON whitespace. -/
def jws (c : Char) : Bool := c = ' ' ∨ c = '\t' ∨ c = '\n' ∨ c = '\r'

def skipWs (l : List Char) : List Char := l.dropWhile jws

/-- Parse the body of a JSON string (after the opening quote). -/
def parseStringBody : List Char → Option (List Char × List Char)
  | [] => none
  | '"' :: rest => some ([], rest)
  | '\\' :: e :: rest =>
      let dec : Option Char :=
        if e = '"' then some '"'
        else if e = '\\' then some '\\'
        else if e = '/' then some '/'
        else if e = 'b' then some '\x08'
        else if e = 'f' then some '\x0c'
        else if e = 'n' then some '\n'
        else if e = 'r' then some '\r'
        else if e = 't' then some '\t'
        else none
      match dec with
      | none => none
      | some c =>
          match parseStringBody rest with
          | some (body, rem) => some (c :: body, rem)
          | none => none
  | c :: rest =>
      match parseStringBody rest with
      | some (body, rem) => some (c :: body, rem)
      | none => none

def digitsToNat (l : List Char) : Nat :=
  l.foldl (fun acc c => acc * 10 + (c.toNat - '0'.toNat)) 0

/-- Parse a JSON number. -/
def parseNumber (l : List Char) : Option (Rat × List Char) :=
  let (neg, l1) := if l.headD ' ' = '-' then (true, l.tail) else (false, l)
  let intDigits := l1.takeWhile Char.isDigit
  let l2 := l1.drop intDigits.length
  if intDigits.isEmpty then none else
  let (fracDigits, l3) :=
    if l2.headD ' ' = '.' then
      let fd := (l2.tail).takeWhile Char.isDigit
      (fd, (l2.tail).drop fd.length)
    else ([], l2)
  if l2.headD ' ' = '.' ∧ fracDigits.isEmpty then none else
  let (expVal, l4) :=
    if l3.headD ' ' = 'e' ∨ l3.headD ' ' = 'E' then
      let t := l3.tail
      let (eneg, t1) :=
        if t.headD ' ' = '-' then (true, t.tail)
        else if t.headD ' ' = '+' then (false, t.tail)
        else (false, t)
      let ed := t1.takeWhile Char.isDigit
      ((if eneg then -(digitsToNat ed : Int) else (digitsToNat ed : Int)),
        t1.drop ed.length)
    else ((0 : Int), l3)
  let base : Rat :=
    (digitsToNat intDigits : Rat) +
      (digitsToNat fracDigits : Rat) / ((10 : Rat) ^ fracDigits.length)
  let scaled : Rat :=
    if expVal ≥ 0 then base * (10 : Rat) ^ expVal.toNat
    else base / ((10 : Rat) ^ (-expVal).toNat)
  some ((if neg then -scaled else scaled), l4)

mutual

def parseValue (fuel : Nat) (l : List Char) : Option (Json × List Char) :=
  match fuel with
  | 0 => none
  | fuel + 1 =>
    match skipWs l with
    | [] => none
    | c :: rest =>
        if c = '"' then
          match parseStringBody rest with
          | some (body, rem) => some (.str body.asString, rem)
          | none => none
        else if c = lbrace then parseObjItems fuel rest true []
        else if c = '[' then parseArrItems fuel rest true []
        else if c = 'n' then
          if ['u', 'l', 'l'].isPrefixOf rest then some (.null, rest.drop 3) else none
        else if c = 't' then
          if ['r', 'u', 'e'].isPrefixOf rest then some (.bool true, rest.drop 3) else none
        else if c = 'f' then
          if ['a', 'l', 's', 'e'].isPrefixOf rest then some (.bool false, rest.drop 4) else none
        else
          match parseNumber (c :: rest) with
          | some (q, rem) => some (.num q, rem)
          | none => none

def parseArrItems (fuel : Nat) (l : List Char) (first : Bool) (acc : List Json) :
    Option (Json × List Char) :=
  match fuel with
  | 0 => none
  | fuel + 1 =>
    match skipWs l with
    | [] => none
    | c :: rest =>
        if c = ']' ∧ first then some (.arr acc.reverse, rest)
        else
          let l' := if first then c :: rest else
            (if c = ',' then rest else [])
          if ¬ first ∧ c ≠ ',' then
            if c = ']' then some (.arr acc.reverse, rest) else none
          else
            match parseValue fuel l' with
            | some (v, rem) => parseArrItems fuel rem false (v :: acc)
            | none => none

def parseObjItems (fuel : Nat) (l : List Char) (first : Bool)
    (acc : List (String × Json)) : Option (Json × List Char) :=
  match fuel with
  | 0 => none
  | fuel + 1 =>
    match skipWs l with
    | [] => none
    | c :: rest =>
        if c = rbrace ∧ first then some (.obj acc.reverse, rest)
        else if ¬ first ∧ c ≠ ',' then
          if c = rbrace then some (.obj acc.reverse, rest) else none
        else
          let l' := if first then c :: rest else rest
          match skipWs l' with
          | '"' :: krest =>
              match parseStringBody krest with
              | some (kbody, krem) =>
                  match skipWs krem with
                  | ':' :: vrest =>
                      match parseValue fuel vrest with
                      | some (v, rem) =>
                          parseObjItems fuel rem false ((kbody.asString, v) :: acc)
                      | none => none
                  | _ => none
              | none => none
          | _ => none

end

/-- `json.loads`, returning `none` where Python raises. -/
def jsonLoads (s : String) : Option Json :=
  match parseValue (s.length + 1) s.toList with
  | some (v, rem) => if (skipWs rem).isEmpty then some v else none
  | none => none

def dumpStringBody (s : String) : String :=
  s.toList.foldl
    (fun acc c =>
      if c = '"' then acc ++ "\\\""
      else if c = '\\' then acc ++ "\\\\"
      else if c = '\n' then acc ++ "\\n"
      else if c = '\r' then acc ++ "\\r"
      else if c = '\t' then acc ++ "\\t"
      else acc.push c)
    ""

mutual

/-- `json.dumps` (default separators).  Non-integral rationals print as
fractions; the sources only serialize integers, `0.5`-style literals and
strings, and no claim depends on the decimal rendering. -/
def jsonDumps : Json → String
  | .null => "null"
  | .bool true => "true"
  | .bool false => "false"
  | .num q => if q.den = 1 then toString q.num else toString q
  | .str s => "\"" ++ dumpStringBody s ++ "\""
  | .arr xs => "[" ++ jsonDumpsList xs ++ "]"
  | .obj kvs =>
      (String.singleton lbrace) ++ jsonDumpsKvs kvs ++ (String.singleton rbrace)

def jsonDumpsList : List Json → String
  | [] => ""
  | [x] => jsonDumps x
  | x :: rest => jsonDumps x ++ ", " ++ jsonDumpsList rest

def jsonDumpsKvs : List (String × Json) → String
  | [] => ""
  | [(k, v)] => "\"" ++ dumpStringBody k ++ "\": " ++ jsonDumps v
  | (k, v) :: rest =>
      "\"" ++ dumpStringBody k ++ "\": " ++ jsonDumps v ++ ", " ++ jsonDumpsKvs rest

end

end JsonUtil

/-! ### Regular-expression helpers

Each `re` use in the sources is a fixed pattern; each is implemented directly
as a scanner with the same match semantics (leftmost, non-overlapping,
ordered alternation). -/

/-- Index of the first occurrence of `pat` in `l`, as (before, after). -/
def splitFirst (l pat : List Char) : Option (List Char × List Char) :=
  go l []
where
  go : List Char → List Char → Option (List Char × List Char)
    | [], _ => none
    | c :: rest, seen =>
        if pat.isPrefixOf (c :: rest) then
          some (seen.reverse, (c :: rest).drop pat.length)
        else go rest (c :: seen)

/-- ``re.findall(r"```(?:json)?\s*(.*?)\s*```", raw, re.DOTALL)``: the fenced
code blocks, an optional `json` tag dropped and surrounding whitespace
stripped by the `\s*` anchors. -/
def findFencedBlocks (s : String) : List String :=
  go (s.length + 1) s.toList
where
  fence : List Char := ['`', '`', '`']
  go : Nat → List Char → List String
    | 0, _ => []
    | fuel + 1, l =>
        match splitFirst l fence with
        | none => []
        | some (_, afterOpen) =>
            match splitFirst afterOpen fence with
            | none => []
            | some (mid, afterClose) =>
                let mid := if ['j', 's', 'o', 'n'].isPrefixOf mid then mid.drop 4 else mid
                pyStrip mid.asString :: go fuel afterClose

/-- ``re.findall(r"(\{[\s\S]*?\}|\[[\s\S]*?\])", answer_text)``: each match
runs from a `{` (resp. `[`) to the nearest following `}` (resp. `]`). -/
def findBracketSnippets (s : String) : List String :=
  go (s.length + 1) s.toList
where
  go : Nat → List Char → List String
    | 0, _ => []
    | fuel + 1, l =>
        match l with
        | [] => []
        | c :: rest =>
            if c = lbrace then
              match splitFirst rest [rbrace] with
              | some (mid, after) =>
                  (c :: (mid ++ [rbrace])).asString :: go fuel after
              | none => go fuel rest
            else if c = '[' then
              match splitFirst rest [']'] with
              | some (mid, after) => (c :: (mid ++ [']'])).asString :: go fuel after
              | none => go fuel rest
            else go fuel rest

/-- One alternation step of
``re.findall(r"OCI [A-Za-z ]+|Object Storage|Data Science|AI Services", v)``
at the current position: the matched text and the remainder. -/
def serviceMatchAt (l : List Char) : Option (List Char × List Char) :=
  if ['O', 'C', 'I', ' '].isPrefixOf l then
    let rest := l.drop 4
    let body := rest.takeWhile fun c => c.isAlpha ∨ c = ' '
    if body.isEmpty then tryLiterals l else
      some (['O', 'C', 'I', ' '] ++ body, rest.drop body.length)
  else tryLiterals l
where
  tryLiterals (l : List Char) : Option (List Char × List Char) :=
    let lits := ["Object Storage", "Data Science", "AI Services"]
    lits.findSome? fun lit =>
      if lit.toList.isPrefixOf l then some (lit.toList, l.drop lit.length) else none

/-- The full scan of the service-name pattern (non-overlapping, left to
right, advancing one character past failed positions). -/
def findServiceNames (s : String) : List String :=
  go (s.length + 1) s.toList
where
  go : Nat → List Char → List String
    | 0, _ => []
    | fuel + 1, l =>
        match l with
        | [] => []
        | c :: rest =>
            match serviceMatchAt (c :: rest) with
            | some (m, after) => m.asString :: go fuel after
            | none => go fuel rest

/-- ``re.fullmatch(r"\{\{\s*<root>\.([a-zA-Z0-9_]+)\s*\}\}", value)``: the
captured identifier, when the whole string matches. -/
def templateFullmatch (root value : String) : Option String :=
  let l := value.toList
  if l.take 2 = [lbrace, lbrace] then
    let l := (l.drop 2).dropWhile isPyWs
    if (root ++ ".").toList.isPrefixOf l then
      let l := l.drop (root.length + 1)
      let ident := l.takeWhile fun c => c.isAlphanum ∨ c = '_'
      if ident.isEmpty then none
      else
        let l := (l.drop ident.length).dropWhile isPyWs
        if l = [rbrace, rbrace] then some ident.asString else none
    else none
  else none

/-- External collaborators, modelled as oracles.
`llm` is `OCIGenAIService.generate_text_content(prompt, response_format)` and
`ragChat` is `OCIRAGService.chat(message, session_id)`; `none` means the call
raised.  `osFetch` is `KnowledgeAccessService.fetch_object_storage_json`
(whose `try` already swallows every failure into `None`), and `osAvailable`
tells whether `_get_object_storage_client` produced a client.  `hash` is
`hashlib.sha256(·).hexdigest()`, `nowIso` the clock and `caseUuid` the uuid
source. -/
structure Env where
  nowIso : String
  caseUuid : String
  llm : String → Json → Option String
  ragChat : String → Json → Option Json
  osAvailable : Bool
  osFetch : String → Option (List (String × Json))
  hash : String → String

namespace KnowledgeAccessService

def MIN_CANDIDATE_TEXT_LEN : Nat := 40

/-- `KnowledgeAccessService._strip_front_matter`. -/
def strip_front_matter (text : String) : String :=
  let stripped := pyStrip text
  let stripped :=
    if sStartsWith stripped "---" then
      match pySplitLimit stripped "---" 2 with
      | [_, _, p2] => pyStrip p2
      | _ => stripped
    else stripped
  -- `re.sub(r"\s+", " ", stripped).strip()`
  String.intercalate " " (pySplitWs stripped)

/-- One iteration of the citation loop of
`extract_candidates_from_agent_response`: from the citation (with its
1-based `enumerate` index) and the `seen` set, the updated `seen` set and the
produced candidate, if any. -/
def processCitation (env : Env) (min_text_len : Nat) (idx : Nat) (seen : List String)
    (citation : Json) : Except PyError (List String × Option Json) := do
  let citation_obj : List (String × Json) :=
    match citation with
    | .obj kvs => kvs
    | _ => [("raw", .str (pyStr citation))]
  let source_location :=
    Json.pyOr ((Json.lookupKey citation_obj "source_location").getD .null) (.obj [])
  let url ← source_location.attrGet "url"
  let s1 := pyStrip (pyStr (Json.pyOr url (.str "")))
  let s2 := pyStrip (pyStr (Json.pyOr
    ((Json.lookupKey citation_obj "source_uri").getD .null) (.str "")))
  let s3 := pyStrip (pyStr (Json.pyOr
    (Json.pyOr ((Json.lookupKey citation_obj "doc_id").getD .null)
      ((Json.lookupKey citation_obj "documentId").getD .null)) (.str "")))
  let source_uri := if s1 ≠ "" then s1 else if s2 ≠ "" then s2 else s3
  let chunk_id := pyStrip (pyStr (Json.pyOr
    (Json.pyOr ((Json.lookupKey citation_obj "chunkId").getD .null)
      ((Json.lookupKey citation_obj "chunk_id").getD .null)) (.str "")))
  let clause_id :=
    if chunk_id ≠ "" then chunk_id
    else if source_uri ≠ "" then (env.hash source_uri).take 16
    else "citation-" ++ toString idx
  let dedupe_key := clause_id ++ "|" ++ source_uri
  if seen.contains dedupe_key then
    return (seen, none)
  let metadata : List (String × Json) :=
    match Json.lookupKey citation_obj "metadata" with
    | some (.obj kvs) => kvs
    | _ => []
  let source_text := pyStrip (pyStr (Json.pyOr
    ((Json.lookupKey citation_obj "source_text").getD .null) (.str "")))
  let used_source_text := source_text ≠ ""
  let (text, fetched_metadata) :=
    if source_text = "" ∧ source_uri ≠ "" ∧ env.osAvailable then
      match env.osFetch source_uri with
      | some payload =>
          (pyStrip (pyStr (Json.pyOr
              (Json.pyOr ((Json.lookupKey payload "text").getD .null)
                ((Json.lookupKey payload "clause").getD .null)) (.str ""))),
            match Json.lookupKey payload "metadata" with
            | some (.obj kvs) => kvs
            | _ => [])
      | none => (source_text, [])
    else (source_text, [])
  let text := strip_front_matter text
  if text.length < min_text_len then
    return (seen, none)
  let merged_metadata := Json.mergeKvs fetched_metadata metadata
  let customized_url_source := Json.pyOr
    ((Json.lookupKey merged_metadata "customized_url_source").getD .null)
    ((Json.lookupKey citation_obj "customized_url_source").getD .null)
  let merged_metadata :=
    if customized_url_source.truthy then
      Json.setKey merged_metadata "customized_url_source" customized_url_source
    else merged_metadata
  let candidate : Json := .obj
    [("clause_id", .str clause_id),
     ("chunk_id", .str clause_id),
     ("source_uri", .str source_uri),
     ("document_id", Json.pyOr ((Json.lookupKey citation_obj "doc_id").getD .null)
        ((Json.lookupKey citation_obj "documentId").getD .null)),
     ("title", (Json.lookupKey citation_obj "title").getD .null),
     ("clause_text", .str text),
     ("text", .str text),
     ("metadata", .obj merged_metadata),
     ("score", Json.pyOr ((Json.lookupKey citation_obj "score").getD .null)
        ((Json.lookupKey citation_obj "similarity_score").getD .null)),
     ("retrieval_source",
        .str (if used_source_text then "citation_source_text" else "object_storage_fetch"))]
  return (dedupe_key :: seen, some candidate)

/-- The `for idx, citation in enumerate(citations, start=1)` loop of
`extract_candidates_from_agent_response`. -/
def citationLoop (env : Env) (min_text_len : Nat) :
    List Json → Nat → List String → Except PyError (List Json)
  | [], _, _ => .ok []
  | citation :: rest, idx, seen => do
      let (seen', cand?) ← processCitation env min_text_len idx seen citation
      let tail ← citationLoop env min_text_len rest (idx + 1) seen'
      pure (match cand? with
            | some c => c :: tail
            | none => tail)

/-- `extract_candidates_from_agent_response`: deterministic extraction of
clause candidates from the response's citations. -/
def extract_candidates_from_agent_response (env : Env) (resp : Json)
    (min_text_len : Nat) : Except PyError (List Json) := do
  let citationsJ := Json.pyOr
    (← (Json.pyOr resp (.obj [])).attrGetD "citations" (.arr [])) (.arr [])
  let citations ← citationsJ.pyIter
  citationLoop env min_text_len citations 1 []

/-- `KnowledgeAccessService._safe_json_loads`. -/
def safe_json_loads (raw : String) : Option Json := JsonUtil.jsonLoads raw

/-- `KnowledgeAccessService._extract_candidates_from_parsed`. -/
def extract_candidates_from_parsed : Option Json → Option Json
  | some (.obj kvs) =>
      match Json.lookupKey kvs "candidates" with
      | some v => some (Json.pyOr v (.arr []))
      | none => none
  | some (.arr xs) =>
      let dict_entries := xs.filter Json.isObj
      if dict_entries.isEmpty then none else some (.arr dict_entries)
  | _ => none

/-- `KnowledgeAccessService._parse_candidates_from_answer`: direct JSON
parse, then fenced blocks, then brace/bracket snippets mentioning
`candidates` (or starting with `[`). -/
def parse_candidates_from_answer (answer_text : String) : Option Json :=
  match extract_candidates_from_parsed (safe_json_loads (pyStrip answer_text)) with
  | some ex => some ex
  | none =>
    match (findFencedBlocks answer_text).findSome? (fun block =>
        extract_candidates_from_parsed (safe_json_loads (pyStrip block))) with
    | some ex => some ex
    | none =>
        (findBracketSnippets answer_text).findSome? fun snippet =>
          if ¬ strContains snippet "candidates" ∧ ¬ sStartsWith (pyStrip snippet) "[" then
            none
          else extract_candidates_from_parsed (safe_json_loads (pyStrip snippet))

def FILTER_DIMENSIONS : List String :=
  ["section", "clause_type", "tags", "risk_level", "industry", "region",
   "deployment_model", "architecture_type", "compliance", "architecture_pattern",
   "service_family", "cloud_provider", "data_isolation_model"]

/-- `KnowledgeAccessService.build_retrieval_query`. -/
def build_retrieval_query (section_name : String) (filters : List (String × Json))
    (intake : Json) (relax_tags : Bool) : Except PyError (List (String × Json)) := do
  let query := Json.mergeKvs [("section", .str section_name)] filters
  let setdef := fun (q : List (String × Json)) (key : String) (v : Json) =>
    if (Json.lookupKey q key).isSome then q else q ++ [(key, v)]
  let query := setdef query "industry" (← intake.attrGet "industry")
  let query := setdef query "region" (← intake.attrGet "region")
  let query := setdef query "deployment_model" (← intake.attrGet "deployment_model")
  let query := setdef query "architecture_type" (← intake.attrGet "architecture_pattern")
  let query := setdef query "compliance"
    (Json.pyOr (← intake.attrGet "regulatory_context") (← intake.attrGet "compliance"))
  let query := setdef query "cloud_provider" (← intake.attrGet "cloud_provider")
  let query := setdef query "data_isolation_model" (← intake.attrGet "data_isolation_model")
  let normalized := FILTER_DIMENSIONS.foldl
    (fun (acc : List (String × Json)) key =>
      let value := (Json.lookupKey query key).getD .null
      if relax_tags ∧ key = "tags" then acc
      else if value = .null ∨ value = .str "" ∨ value = .arr [] then acc
      else acc ++ [(key, value)])
    []
  let normalized :=
    if (Json.lookupKey normalized "section").isSome then normalized
    else normalized ++ [("section", .str section_name)]
  return normalized

/-- `KnowledgeAccessService._build_prompt`. -/
def build_prompt (retrieval_query : List (String × Json)) (top_k : Int) : String :=
  "Retrieve SoW clauses from the knowledge base using only the structured retrieval query. " ++
  "Do NOT use any freeform intake text. " ++
  "Return strict JSON only (no markdown, no prose) with top-level key 'candidates'. " ++
  "Each candidate object MUST include: chunk_id, source_uri, score, clause_text, and metadata " ++
  String.singleton lbrace ++ "section, tags, risk_level" ++ String.singleton rbrace ++ ".\n" ++
  "Rules: " ++
  "(1) Respect every filter in retrieval_query. " ++
  "(2) clause_text MUST be non-empty and contain the clause body. " ++
  "(3) If no match exists, return " ++ String.singleton lbrace ++ "\"candidates\": []" ++
  String.singleton rbrace ++ ". " ++
  "(4) Do not invent source_uri values.\n" ++
  "TopK: " ++ toString top_k ++ "\n" ++
  "retrieval_query: " ++ JsonUtil.jsonDumps (.obj retrieval_query) ++ "\n" ++
  "Output schema example: " ++ String.singleton lbrace ++
  "\"candidates\":[" ++ String.singleton lbrace ++
  "\"chunk_id\":\"...\",\"source_uri\":\"...\",\"score\":0.91,\"clause_text\":\"...\"," ++
  "\"metadata\":" ++ String.singleton lbrace ++
  "\"section\":\"Architecture\",\"tags\":[\"oci\"],\"risk_level\":[\"medium\"]" ++
  String.singleton rbrace ++ String.singleton rbrace ++ "]" ++ String.singleton rbrace

/-- `KnowledgeAccessService._build_relaxed_prompt`. -/
def build_relaxed_prompt (retrieval_query : List (String × Json)) (top_k : Int) : String :=
  "Retrieve SoW clauses from the knowledge base for the structured retrieval query. " ++
  "Use only filter metadata and do not use freeform intake text. " ++
  "If strict JSON is not possible, still return best-effort candidates as JSON. " ++
  "Include clause_text whenever available and include citations/URIs if clause text is missing.\n" ++
  "TopK: " ++ toString top_k ++ "\n" ++
  "retrieval_query: " ++ JsonUtil.jsonDumps (.obj retrieval_query) ++ "\n" ++
  "Do not answer with uncertainty text; always emit candidates array (possibly empty). " ++
  "Output JSON with key candidates."

/-- Normalisation loop at the end of `retrieve_section_clauses` (on
`candidates[:top_k]`).  Note `float(candidate.get("score", 0.5))` raises
`TypeError` when the candidate carries a non-numeric (e.g. `None`) score. -/
def normalizeCandidates (section_name : String) (filters : List (String × Json)) :
    List Json → Nat → Except PyError (List Json)
  | [], _ => .ok []
  | candidate :: rest, idx => do
      let metadata := Json.pyOr (← candidate.attrGet "metadata") (.obj [])
      let chunk_id := Json.pyOr (← candidate.attrGet "chunk_id")
        (.str (pyLower section_name ++ "-kb-" ++ toString idx))
      let source_uri := Json.pyOr (← candidate.attrGet "source_uri") (.str "unknown://source")
      let score ← pyFloat (← candidate.attrGetD "score" (.num (1 / 2)))
      let clause_text := Json.pyOr (Json.pyOr (Json.pyOr
        (Json.pyOr (← candidate.attrGet "clause_text") (← candidate.attrGet "text"))
        (← candidate.attrGet "content")) (← candidate.attrGet "summary")) (.str "")
      let tags := Json.pyOr (← metadata.attrGet "tags")
        ((Json.lookupKey filters "tags").getD (.arr []))
      let risk_level := Json.pyOr (← metadata.attrGet "risk_level")
        ((Json.lookupKey filters "risk_level").getD (.arr [.str "medium"]))
      let normalized : Json := .obj
        [("chunk_id", chunk_id),
         ("source_uri", source_uri),
         ("score", .num score),
         ("clause_text", clause_text),
         ("metadata", .obj
            [("section", .str section_name), ("tags", tags), ("risk_level", risk_level)])]
      let restNorm ← normalizeCandidates section_name filters rest (idx + 1)
      return normalized :: restNorm

/-- `KnowledgeAccessService.retrieve_section_clauses`.  The mutable
`self._session_id` is threaded explicitly (`session` in / updated session
out); the `_last_retrieval_diagnostics` bookkeeping is only read back by an
endpoint outside this core and is not modelled. -/
def retrieve_section_clauses (env : Env) (section_name : String)
    (filters : List (String × Json)) (intake : Json) (top_k : Int)
    (allow_relaxed_retry : Bool) (reuse_session : Bool) (session : Json) :
    Except PyError (List Json × Json) := do
  let retrieval_query ← build_retrieval_query section_name filters intake false
  let prompt := build_prompt retrieval_query top_k
  let session_id := if reuse_session then session else .null
  match env.ragChat prompt session_id with
  | none => return ([], session)   -- `except Exception: ... return []`
  | some response => do
    let session_id := Json.pyOr (← response.attrGet "session_id") session_id
    let serviceSession := if reuse_session then session_id else session
    let candidates ← extract_candidates_from_agent_response env response MIN_CANDIDATE_TEXT_LEN
    -- one relaxed retry when the strict prompt yields no usable candidate
    let (candidates, session_id, serviceSession) ←
      if candidates.isEmpty ∧ allow_relaxed_retry then do
        let relaxed_query ← build_retrieval_query section_name filters intake true
        let retry_prompt := build_relaxed_prompt relaxed_query top_k
        match env.ragChat retry_prompt session_id with
        | none => pure (candidates, session_id, serviceSession)
        | some retry_response =>
            match retry_response.attrGet "session_id" with
            | .error _ => pure (candidates, session_id, serviceSession)
            | .ok sid2 =>
                let session_id2 := Json.pyOr sid2 session_id
                let serviceSession2 := if reuse_session then session_id2 else serviceSession
                match extract_candidates_from_agent_response env retry_response
                    MIN_CANDIDATE_TEXT_LEN with
                | .error _ => pure (candidates, session_id2, serviceSession2)
                | .ok cands2 => pure (cands2, session_id2, serviceSession2)
      else pure (candidates, session_id, serviceSession)
    let normalized ← normalizeCandidates section_name filters (pySliceTo candidates top_k) 1
    return (normalized, serviceSession)

end KnowledgeAccessService

/-! ### The workflow data model (`sow_workflow_service.py`) -/

inductive WorkflowStage where
  | INIT | EXTRACTED | PLAN_READY | RETRIEVED | RERANKED
  | ASSEMBLED | DRAFTED | VALIDATED | REVIEWED | APPROVED
deriving DecidableEq, Repr

/-- `WorkflowStage.value` (the `str` payload of the str-mixin enum). -/
def WorkflowStage.value : WorkflowStage → String
  | .INIT => "INIT"
  | .EXTRACTED => "EXTRACTED"
  | .PLAN_READY => "PLAN_READY"
  | .RETRIEVED => "RETRIEVED"
  | .RERANKED => "RERANKED"
  | .ASSEMBLED => "ASSEMBLED"
  | .DRAFTED => "DRAFTED"
  | .VALIDATED => "VALIDATED"
  | .REVIEWED => "REVIEWED"
  | .APPROVED => "APPROVED"

/-- `FallbackPolicy`.  The counts go through `int(...)` at construction, so
they are integers; `relaxation_order` comes from `list(...)` over caller
data, so its elements are arbitrary values. -/
structure FallbackPolicy where
  min_clauses : Int := 3
  relaxation_order : List Json :=
    [.str "tags", .str "industry", .str "region", .str "risk_level"]
  max_retries : Int := 3
deriving DecidableEq, Repr

/-- `SectionDefinition` after `_normalize_section_definition` /
`_payload_to_section_definition`.  `required_fields`, `min_content` and
`output_schema` keep caller-supplied JSON shapes (the sources validate them
only at use time). -/
structure SectionDefinition where
  name : String
  intent : String
  category : String := "clause"
  clause_filters : List (String × Json) := []
  required_fields : List Json := []
  min_content : Json := .obj []
  fallback_policy : FallbackPolicy := {}
  output_schema : Json := .obj []
deriving DecidableEq, Repr

/-- One entry of `_retrieve_with_fallback`'s `attempts` diagnostics:
`{"attempt": i, "filters_used": query, "returned_count": n}`. -/
structure RetrievalAttempt where
  attempt : Nat
  filters_used : List (String × Json)
  returned_count : Nat
deriving DecidableEq, Repr

/-- `_retrieve_with_fallback`'s diagnostics value. -/
structure RetrievalDiag where
  attempts : List RetrievalAttempt
  final_count : Nat
  relaxed_dimensions : List Json
deriving DecidableEq, Repr

/-- Per-section rerank diagnostics recorded by `run_assemble`. -/
structure RerankDiag where
  pre_rerank_count : Nat
  post_rerank_count : Nat
  top_m : Nat
deriving DecidableEq, Repr

/-- One per-section entry of the `assembly_blueprint` built by
`run_assemble`.  `fallback_policy` is `none` when the section was missing
from the plan (Python stores `{}` then). -/
structure BlueprintEntry where
  section_intent : String
  category : String
  order : List Json
  primary_clause_ids : List Json
  primary_clauses : List Json
  reranked_clauses : List Json
  output_schema : Json
  required_fields : List Json
  min_content : Json
  fallback_policy : Option FallbackPolicy
  clause_filters : List (String × Json)
deriving DecidableEq, Repr

/-- One entry of `_write_with_validation_retry`'s `attempts` diagnostics.
The Boolean is the dict's `"pass"` flag. -/
structure WriteAttempt where
  attempt : Nat
  writer_mode : String
  passed : Bool
  reasons : List String
  retrieval_retry : Option RetrievalDiag
deriving DecidableEq, Repr

/-- `_write_with_validation_retry`'s diagnostics value. -/
structure WriteDiag where
  attempts : List WriteAttempt
deriving DecidableEq, Repr

structure SectionWriteDiag where
  writer_mode : String
  validation : WriteDiag
deriving DecidableEq, Repr

structure TokenUsage where
  writer_calls : Nat
  estimated_prompt_chars : Nat
deriving DecidableEq, Repr

/-- The `run_diag` value stored with the DRAFTED artifact. -/
structure WriteRunDiag where
  extracted_context : Json
  sections : List (String × SectionWriteDiag)
  token_usage : TokenUsage
deriving DecidableEq, Repr

/-- One structured section of the draft. -/
structure DraftSection where
  name : String
  intent : String
  category : String
  writer_mode : String
  structured_content : Json
  draft_markdown : String
  source_mapping : List Json
deriving DecidableEq, Repr

/-- A finding of `run_validate` (`sectionName` embeds the dict key
`"section"`, which is a Lean keyword). -/
structure ValidationFinding where
  sectionName : String
  reasons : List String
deriving DecidableEq, Repr

/-- A finding of `run_review` (`ftype` / `sectionName` embed the dict keys
`"type"` / `"section"`). -/
structure ReviewFinding where
  severity : String
  ftype : String
  sectionName : String
  evidence : String
  recommendation : String
deriving DecidableEq, Repr

/-- Stage-specific artifact payloads.  Each constructor carries the fields
the corresponding handler stores in its payload dict (`sections_json` of the
draft is derivable from `structured_sections` and is reconstructed where
read). -/
inductive Payload where
  | extracted (extracted_context : Json)
  | plan (sections : List SectionDefinition) (structured_context : Json)
      (risk_checks : Json)
  | retrieved (retrieval_set : List (String × List Json))
      (diagnostics : List (String × RetrievalDiag))
      (requested_sections : List Json) (returned_sections : List String)
      (top_k : Int)
  | reranked (retrieval_set : List (String × List Json))
      (diagnostics : List (String × RerankDiag))
  | assembled (blueprint : List (String × BlueprintEntry))
  | drafted (structured_sections : List DraftSection) (markdown : String)
      (diagnostics : WriteRunDiag)
  | validated (status : String) (findings : List ValidationFinding)
  | reviewed (status : String) (findings : List ReviewFinding)
deriving DecidableEq, Repr

/-- `WorkflowArtifact`. -/
structure WorkflowArtifact where
  stage : WorkflowStage
  version : Nat
  created_at : String
  payload : Payload
deriving DecidableEq, Repr

/-- `SOWCase`.  `intake` is the dict stored at creation (extraction later
inserts the `structured_context` key in place, as the Python does);
`artifacts` is the stage → artifact-list dict as an association list in
insertion order. -/
structure SOWCase where
  case_id : String
  created_at : String
  intake : List (String × Json)
  stage : WorkflowStage
  artifacts : List (WorkflowStage × List WorkflowArtifact)
deriving DecidableEq, Repr

/-- First-match association-list lookup (the Python dict read). -/
def alookup {κ α : Type} [DecidableEq κ] : List (κ × α) → κ → Option α
  | [], _ => none
  | (k, v) :: rest, key => if k = key then some v else alookup rest key

/-- `case.artifacts.get(stage, [])`. -/
def SOWCase.artifactsGet (c : SOWCase) (s : WorkflowStage) : List WorkflowArtifact :=
  (alookup c.artifacts s).getD []

namespace PromptTemplates

/-- `PromptTemplates.CONTEXT_EXTRACTION_PROMPT.format(intake_json=...)`. -/
def CONTEXT_EXTRACTION_PROMPT (intake_json : String) : String :=
  "You are the EXTRACT stage for a deterministic SoW pipeline.\n" ++
  "Return strict JSON only with keys:\n" ++
  "- deployment_model\n- architecture_pattern\n- data_isolation_model\n" ++
  "- cloud_provider\n- ai_services_used (array)\n- data_flow_direction\n" ++
  "- regulatory_context (array)\n- industry\n- region\n- allowed_services (array)\n" ++
  "Rules:\n1) Do not include markdown or commentary.\n" ++
  "2) Unknown values must be null (or empty array for array fields).\n" ++
  "3) allowed_services must be derived from intake and ai_services_used.\n" ++
  "Intake JSON: " ++ intake_json

/-- `PromptTemplates.CLAUSE_ASSEMBLY_PROMPT.format(...)`. -/
def CLAUSE_ASSEMBLY_PROMPT (section_name section_intent section_schema
    structured_context retrieved_clauses : String) : String :=
  "WRITER MODE: CLAUSE_ASSEMBLY\nYou are in WRITE stage.\n" ++
  "Primary and only content source: retrieved_clauses.\n" ++
  "Rules:\n1) Use ONLY retrieved clauses as building blocks.\n" ++
  "2) Rephrase for coherence if needed.\n" ++
  "3) Do NOT introduce new obligations, services, or commitments.\n" ++
  "4) Output strict JSON exactly matching section_schema.\n" ++
  "Section: " ++ section_name ++ "\nIntent: " ++ section_intent ++
  "\nSection Schema: " ++ section_schema ++
  "\nStructured Context: " ++ structured_context ++
  "\nRetrieved Clauses: " ++ retrieved_clauses

/-- `PromptTemplates.TECHNICAL_SYNTHESIS_PROMPT.format(...)`. -/
def TECHNICAL_SYNTHESIS_PROMPT (section_name section_intent section_schema
    structured_context retrieved_clauses : String) : String :=
  "WRITER MODE: TECHNICAL_SYNTHESIS\nYou are in WRITE stage.\n" ++
  "Primary source: extracted structured context and allowed_services.\n" ++
  "Secondary source: retrieved clauses for constraints and standard wording.\n" ++
  "Rules:\n1) Do NOT introduce services outside allowed_services.\n" ++
  "2) Do NOT contradict extracted context constraints.\n" ++
  "3) architecture_pattern must match extracted_context.architecture_pattern.\n" ++
  "4) Output strict JSON exactly matching section_schema.\n" ++
  "Section: " ++ section_name ++ "\nIntent: " ++ section_intent ++
  "\nSection Schema: " ++ section_schema ++
  "\nStructured Context: " ++ structured_context ++
  "\nRetrieved Clauses: " ++ retrieved_clauses

end PromptTemplates

namespace SOWWorkflowService

def RETRIEVAL_FILTER_FIELDS : List String :=
  ["section", "clause_type", "tags", "risk_level", "industry", "region",
   "deployment_model", "architecture_pattern", "service_family", "compliance_scope"]

/-- `DEFAULT_SECTION_SCHEMAS.get(category, {})`. -/
def DEFAULT_SECTION_SCHEMAS (category : String) : Json :=
  if category = "clause" then
    .obj [("section_summary", .str ""), ("obligations", .arr []),
          ("constraints", .arr []), ("limitations", .arr [])]
  else if category = "technical" then
    .obj [("overview", .str ""), ("architecture_pattern", .str ""),
          ("core_components", .arr []), ("data_flow", .str ""),
          ("security_model", .str ""), ("multi_tenancy_model", .str ""),
          ("limitations", .str "")]
  else if category = "template" then
    .obj [("content", .str "")]
  else .obj []

/-- `_ensure_stage`: raise `StateTransitionError` unless the case is in one
of the allowed stages. -/
def ensure_stage (c : SOWCase) (allowed_stages : List WorkflowStage) :
    Except PyError Unit :=
  if c.stage ∈ allowed_stages then .ok ()
  else .error (.stateTransitionError
    ("Invalid stage transition from " ++ c.stage.value ++ ". Expected one of: " ++
      String.intercalate ", " (allowed_stages.map WorkflowStage.value)))

/-- `case.artifacts.setdefault(stage, []).append(artifact)` on the
association-list dict. -/
def artifactsAppend (arts : List (WorkflowStage × List WorkflowArtifact))
    (s : WorkflowStage) (a : WorkflowArtifact) :
    List (WorkflowStage × List WorkflowArtifact) :=
  match arts with
  | [] => [(s, [a])]
  | (s', l) :: rest =>
      if s' = s then (s', l ++ [a]) :: rest else (s', l) :: artifactsAppend rest s a

/-- `_append_artifact`: a new artifact versioned `len(list) + 1`, appended
to the stage's list. -/
def append_artifact (env : Env) (c : SOWCase) (stage : WorkflowStage)
    (payload : Payload) : SOWCase :=
  let artifact : WorkflowArtifact :=
    { stage := stage, version := (c.artifactsGet stage).length + 1,
      created_at := env.nowIso, payload := payload }
  { c with artifacts := artifactsAppend c.artifacts stage artifact }

/-- `get_latest_artifact` (on an already-fetched case). -/
def get_latest_artifact (c : SOWCase) (stage : WorkflowStage) :
    Except PyError WorkflowArtifact :=
  match (c.artifactsGet stage).getLast? with
  | some a => .ok a
  | none => .error (.validationError ("No artifact found for stage " ++ stage.value))

/-- `_validate_intake`. -/
def validate_intake (intake : Json) : Except PyError Unit := do
  let required := ["client_name", "project_scope", "document_type", "industry", "region"]
  let mut missing : List String := []
  for f in required do
    if ¬ (← intake.attrGet f).truthy then
      missing := missing ++ [f]
  if ¬ missing.isEmpty then
    throw (.validationError ("Missing intake fields: " ++ String.intercalate ", " missing))

/-- `_parse_json_object`: the raw text, then each fenced block, first
strict-JSON dict wins; `{}` otherwise. -/
def parse_json_object (raw : String) : List (String × Json) :=
  if raw = "" then []
  else
    let raw := pyStrip raw
    let candidates := raw :: findFencedBlocks raw
    match candidates.findSome? (fun cand =>
        match JsonUtil.jsonLoads cand with
        | some (.obj kvs) => some kvs
        | _ => none) with
    | some kvs => kvs
    | none => []

/-- Lexicographic code-point `<` on strings (Python's string ordering,
used by `sorted(...)`), written structurally so the kernel can evaluate
it. -/
def strLtList : List Char → List Char → Bool
  | _, [] => false
  | [], _ :: _ => true
  | c :: cs, d :: ds =>
      if c.toNat < d.toNat then true
      else if d.toNat < c.toNat then false
      else strLtList cs ds

def strLtB (a b : String) : Bool := strLtList a.toList b.toList

def insertStr (x : String) : List String → List String
  | [] => [x]
  | y :: ys => if strLtB x y then x :: y :: ys else y :: insertStr x ys

def sortStrings (l : List String) : List String := l.foldl (fun acc x => insertStr x acc) []

/-- `str` values only (where Python would call a `str` method such as
`.lower()` on the value and raise `AttributeError` otherwise). -/
def asPyStr : Json → Except PyError String
  | .str s => .ok s
  | _ => .error .attributeError

/-- `_derive_allowed_services`.  `set(...)` needs hashable elements
(lists/dicts raise `TypeError`) and `sorted` needs comparable ones; the
pipeline only ever reaches it with strings. -/
def derive_allowed_services (ai_services cloud_provider : Json) :
    Except PyError (List String) := do
  let elems ← (Json.pyOr ai_services (.arr [])).pyIter
  let strs ← elems.mapM (fun e =>
    match e with
    | .str s => Except.ok s
    | .arr _ | .obj _ => Except.error .typeError   -- unhashable
    | _ => Except.error .typeError)                 -- non-string sort keys
  let provider := pyLower (← asPyStr (Json.pyOr cloud_provider (.str "")))
  let mapped :=
    if strContains provider "oci" then
      strs ++ ["OCI AI Services", "OCI Data Science", "Object Storage",
        "API Gateway", "Functions"]
    else strs
  return sortStrings mapped.eraseDups

/-- The `response_format` literal built inside `_extract_structured_context`. -/
def contextExtractionResponseFormat : Json :=
  let nullableStr : Json := .obj [("type", .arr [.str "string", .str "null"])]
  let strArray : Json := .obj
    [("type", .str "array"), ("items", .obj [("type", .str "string")])]
  .obj [("type", .str "JSON_SCHEMA"),
        ("json_schema", .obj
          [("name", .str "sow_context_extraction"),
           ("strict", .bool true),
           ("schema", .obj
             [("type", .str "object"),
              ("properties", .obj
                [("deployment_model", nullableStr),
                 ("architecture_pattern", nullableStr),
                 ("data_isolation_model", nullableStr),
                 ("cloud_provider", nullableStr),
                 ("ai_services_used", strArray),
                 ("data_flow_direction", nullableStr),
                 ("regulatory_context", strArray),
                 ("industry", nullableStr),
                 ("region", nullableStr),
                 ("allowed_services", strArray)]),
              ("required", .arr
                [.str "deployment_model", .str "architecture_pattern",
                 .str "data_isolation_model", .str "cloud_provider",
                 .str "ai_services_used", .str "data_flow_direction",
                 .str "regulatory_context", .str "industry", .str "region",
                 .str "allowed_services"]),
              ("additionalProperties", .bool false)])])]

/-- The prompt `_extract_structured_context` sends. -/
def contextExtractionPrompt (intake : List (String × Json)) : String :=
  PromptTemplates.CONTEXT_EXTRACTION_PROMPT (JsonUtil.jsonDumps (.obj intake))

/-- `_extract_structured_context`: one schema-constrained completion call
(failures and non-dict responses collapse to `parsed = {}`), then per-field
fallbacks to same-name intake entries — except `cloud_provider` (which
further defaults to the literal `"OCI"`) and `allowed_services` (which is
derived from the AI-service list and provider, not read from intake). -/
def extractionParsed (env : Env) (intake : List (String × Json)) :
    List (String × Json) :=
  match env.llm (contextExtractionPrompt intake) contextExtractionResponseFormat with
  | none => []
  | some response => parse_json_object response

def extract_structured_context (env : Env) (intake : List (String × Json)) :
    Except PyError Json := do
  let parsed : List (String × Json) := extractionParsed env intake
  let pGet := fun k => (Json.lookupKey parsed k).getD .null
  let iGet := fun k => (Json.lookupKey intake k).getD .null
  let ai_services := Json.pyOr (Json.pyOr (pGet "ai_services_used")
    (iGet "ai_services_used")) (.arr [])
  let cloud_provider := Json.pyOr (Json.pyOr (pGet "cloud_provider")
    (iGet "cloud_provider")) (.str "OCI")
  let allowed_services ←
    match pGet "allowed_services" with
    | v =>
      if v.truthy then pure v
      else do
        let derived ← derive_allowed_services ai_services cloud_provider
        pure (Json.arr (derived.map Json.str))
  return .obj
    [("deployment_model", Json.pyOr (pGet "deployment_model") (iGet "deployment_model")),
     ("architecture_pattern",
        Json.pyOr (pGet "architecture_pattern") (iGet "architecture_pattern")),
     ("data_isolation_model",
        Json.pyOr (pGet "data_isolation_model") (iGet "data_isolation_model")),
     ("cloud_provider", cloud_provider),
     ("ai_services_used", ai_services),
     ("data_flow_direction",
        Json.pyOr (pGet "data_flow_direction") (iGet "data_flow_direction")),
     ("regulatory_context", Json.pyOr (Json.pyOr (pGet "regulatory_context")
        (iGet "regulatory_context")) (.arr [])),
     ("industry", Json.pyOr (pGet "industry") (iGet "industry")),
     ("region", Json.pyOr (pGet "region") (iGet "region")),
     ("allowed_services", allowed_services)]

/-- `_resolve_template_value`. -/
def resolve_template_value (value : String) (intake : List (String × Json))
    (extracted : Json) : Except PyError Json :=
  match templateFullmatch "intake" value with
  | some g => .ok ((Json.lookupKey intake g).getD .null)
  | none =>
    match templateFullmatch "structured" value with
    | some g => extracted.attrGet g
    | none => .ok (.str value)

/-- `_resolve_structured_filters`. -/
def resolve_structured_filters (filters : Json) (intake : List (String × Json))
    (extracted : Json) : Except PyError (List (String × Json)) := do
  let kvs ← (Json.pyOr filters (.obj [])).items
  let resolved ← kvs.mapM (fun (kv : String × Json) => do
    match kv.2 with
    | .str s => pure (kv.1, ← resolve_template_value s intake extracted)
    | v => pure (kv.1, v))
  return resolved.filter fun (kv : String × Json) =>
    RETRIEVAL_FILTER_FIELDS.contains kv.1 ∧
      ¬ (kv.2 = .null ∨ kv.2 = .str "" ∨ kv.2 = .arr [])

/-- `_normalize_section_definition`.  (Section names/intents are strings in
every caller; a non-string name would only fail later inside f-strings, a
corner not modelled.) -/
def normalize_section_definition (raw : Json) (intake : List (String × Json))
    (extracted : Json) : Except PyError SectionDefinition := do
  let category ← raw.attrGetD "category" (.str "clause")
  let categoryStr := match category with | .str s => some s | _ => none
  if categoryStr = some "template" ∨ categoryStr = some "clause" ∨
      categoryStr = some "technical" then
    let categoryS := categoryStr.getD "clause"
    let clause_filters ← resolve_structured_filters
      (Json.pyOr (← raw.attrGet "clause_filters") (.obj [])) intake extracted
    let output_schema := Json.pyOr (← raw.attrGet "output_schema")
      (DEFAULT_SECTION_SCHEMAS categoryS)
    let fallback := Json.pyOr (← raw.attrGet "fallback_policy") (.obj [])
    let min_clauses ← pyInt (← fallback.attrGetD "min_clauses" (.num 3))
    let relaxation_order ← (← fallback.attrGetD "relaxation_order"
      (.arr [.str "tags", .str "industry", .str "region", .str "risk_level"])).pyIter
    let max_retries ← pyInt (← fallback.attrGetD "max_retries" (.num 3))
    let name ← asPyStr
      ((match raw with | .obj kvs => Json.lookupKey kvs "name" | _ => none).getD .null)
    let intent ← asPyStr
      ((match raw with | .obj kvs => Json.lookupKey kvs "intent" | _ => none).getD .null)
    let required_raw := Json.pyOr (← raw.attrGet "required_fields") .null
    let required_fields ←
      if required_raw.truthy then required_raw.pyIter
      else do
        let ks ← output_schema.keys
        pure (ks.map Json.str)
    let min_content := Json.pyOr (← raw.attrGet "min_content") (.obj [])
    return { name := name, intent := intent, category := categoryS,
             clause_filters := clause_filters, required_fields := required_fields,
             min_content := min_content,
             fallback_policy :=
               { min_clauses := min_clauses, relaxation_order := relaxation_order,
                 max_retries := max_retries },
             output_schema := output_schema }
  else
    throw (.validationError ("Invalid section category '" ++ pyStr category ++ "'"))

/-- `SOWWorkflowService.build_retrieval_query`: `set(relaxed_dimensions or
[])` first (raising `TypeError` on an unhashable relaxed dimension), then
the section name, the section's resolved filters (minus relaxed dimensions
and falsy values), then structured-context defaults for any still-missing
dimension. -/
def build_retrieval_query (section_def : SectionDefinition) (extracted_context : Json)
    (relaxed_dimensions : List Json) : Except PyError (List (String × Json)) := do
  let relaxed ← pySet relaxed_dimensions
  let query := section_def.clause_filters.foldl
    (fun (q : List (String × Json)) (kv : String × Json) =>
      if RETRIEVAL_FILTER_FIELDS.contains kv.1 ∧ ¬ relaxed.contains (.str kv.1) ∧
          ¬ (kv.2 = .null ∨ kv.2 = .str "" ∨ kv.2 = .arr []) then
        Json.setKey q kv.1 kv.2
      else q)
    [("section", .str section_def.name)]
  let defaults : List (String × Json) :=
    [("industry", ← extracted_context.attrGet "industry"),
     ("region", ← extracted_context.attrGet "region"),
     ("deployment_model", ← extracted_context.attrGet "deployment_model"),
     ("architecture_pattern", ← extracted_context.attrGet "architecture_pattern")]
  return defaults.foldl
    (fun (q : List (String × Json)) (kv : String × Json) =>
      if ¬ relaxed.contains (.str kv.1) ∧ (Json.lookupKey q kv.1).isNone ∧
          ¬ (kv.2 = .null ∨ kv.2 = .str "" ∨ kv.2 = .arr []) then
        q ++ [kv]
      else q)
    query

/-- The loop body of `_retrieve_with_fallback`
(`for attempt in range(max_retries + 1)`), recursing on the remaining
iteration count.  `clauses` is the value left by the previous iteration
(`[]` before the first). -/
def retrieveFallbackGo (env : Env) (section_def : SectionDefinition)
    (extracted_context : Json) (top_k : Int) :
    Nat → Nat → List Json → List RetrievalAttempt → Json → List Json →
    Except PyError (List Json × RetrievalDiag × Json)
  | 0, _, relaxed, acc, session, clauses =>
      .ok (clauses, ⟨acc, clauses.length, relaxed⟩, session)
  | left + 1, attempt, relaxed, acc, session, _ => do
      let query ← build_retrieval_query section_def extracted_context relaxed
      let (clauses, session') ← KnowledgeAccessService.retrieve_section_clauses env
        section_def.name query (.obj []) top_k false true session
      let acc := acc ++ [⟨attempt + 1, query, clauses.length⟩]
      if (clauses.length : Int) ≥ section_def.fallback_policy.min_clauses then
        .ok (clauses, ⟨acc, clauses.length, relaxed⟩, session')
      else if (attempt : Int) < section_def.fallback_policy.max_retries then do
        let relax_key ← pyIdx section_def.fallback_policy.relaxation_order
          (min (attempt : Int) ((section_def.fallback_policy.relaxation_order.length : Int) - 1))
        let relaxed := if relax_key ≠ .str "section" then relaxed ++ [relax_key] else relaxed
        retrieveFallbackGo env section_def extracted_context top_k
          left (attempt + 1) relaxed acc session' clauses
      else
        retrieveFallbackGo env section_def extracted_context top_k
          left (attempt + 1) relaxed acc session' clauses

/-- `_retrieve_with_fallback`.  The knowledge service's session id is
threaded through (`session` in, final session out). -/
def retrieve_with_fallback (env : Env) (section_def : SectionDefinition)
    (extracted_context : Json) (top_k : Int) (session : Json) :
    Except PyError (List Json × RetrievalDiag × Json) :=
  retrieveFallbackGo env section_def extracted_context top_k
    (section_def.fallback_policy.max_retries + 1).toNat 0 [] [] session []

/-- The sort key of `rerank_clauses.clause_rank`. -/
def clause_rank (query : Json) (item : Json) : Except PyError (Rat × Nat) := do
  let score ← pyFloat (← item.attrGetD "score" (.num 0))
  let text ← asPyStr (Json.pyOr (← item.attrGet "clause_text") (.str ""))
  let qsection ← asPyStr (← query.attrGetD "section" (.str ""))
  let boosts := if strContains (pyLower text) (pyLower qsection) then 1 else 0
  return (score, boosts)

/-- Stable descending insertion (the effect of Python's stable
`sorted(..., reverse=True)`). -/
def insertDesc (x : (Rat × Nat) × Json) : List ((Rat × Nat) × Json) → List ((Rat × Nat) × Json)
  | [] => [x]
  | y :: ys =>
      if x.1.1 > y.1.1 ∨ (x.1.1 = y.1.1 ∧ x.1.2 > y.1.2) then x :: y :: ys
      else y :: insertDesc x ys

/-- `rerank_clauses`: sort descending by (score, section-mention boost),
stable. -/
def rerank_clauses (query : Json) (clauses : List Json) :
    Except PyError (List Json) := do
  let keyed ← clauses.mapM (fun item => do pure (← clause_rank query item, item))
  return (keyed.foldl (fun acc x => insertDesc x acc) []).map Prod.snd

/-- `_json_schema_response_format`. -/
def json_schema_response_format (section_schema : Json) (schema_name : String) :
    Except PyError Json := do
  let kvs ← section_schema.items
  let properties := kvs.map fun (kv : String × Json) =>
    (kv.1,
      if kv.2.isArr then
        Json.obj [("type", .str "array"), ("items", .obj [("type", .str "string")])]
      else Json.obj [("type", .str "string")])
  let required := kvs.map fun kv => Json.str kv.1
  return .obj
    [("type", .str "JSON_SCHEMA"),
     ("json_schema", .obj
       [("name", .str schema_name),
        ("strict", .bool true),
        ("schema", .obj
          [("type", .str "object"),
           ("properties", .obj properties),
           ("required", .arr required),
           ("additionalProperties", .bool false)])])]

/-- `_run_writer_prompt`: call the completion service (failures collapse to
`parsed = {}`), fall back to the schema defaults when nothing parsed, else
fill each schema key from the parsed object. -/
def run_writer_prompt (env : Env) (prompt : String) (section_schema : Json)
    (schema_name : String) : Except PyError Json := do
  let response_format ← json_schema_response_format section_schema schema_name
  let parsed : List (String × Json) :=
    match env.llm prompt response_format with
    | none => []
    | some response => parse_json_object response
  let kvs ← section_schema.items
  if parsed.isEmpty then
    return .obj kvs
  return .obj (kvs.map fun (kv : String × Json) =>
    (kv.1, (Json.lookupKey parsed kv.1).getD kv.2))

/-- `_generate_from_template`. -/
def generate_from_template (section_name section_intent : String)
    (section_schema : Json) (intake : List (String × Json)) : Except PyError Json := do
  let kvs ← section_schema.items
  if (Json.lookupKey kvs "content").isSome then
    return .obj (Json.setKey kvs "content"
      (.str (section_name ++ ": " ++ section_intent ++ ". Client=" ++
        pyStr ((Json.lookupKey intake "client_name").getD .null) ++ " scope=" ++
        pyStr ((Json.lookupKey intake "project_scope").getD .null))))
  return .obj kvs

/-- `_generate_clause_mode`. -/
def generate_clause_mode (env : Env) (section_name section_intent : String)
    (style : Json) (section_schema : Json) (retrieved_clauses : List Json)
    (extracted_context : Json) : Except PyError Json :=
  let prompt := PromptTemplates.CLAUSE_ASSEMBLY_PROMPT section_name section_intent
    (JsonUtil.jsonDumps section_schema) (JsonUtil.jsonDumps extracted_context)
    (JsonUtil.jsonDumps (.arr retrieved_clauses)) ++
    "\nStyle: " ++ pyStr style ++
    "\nRules: Rephrase only for coherence. Do not add obligations/services not in clauses."
  run_writer_prompt env prompt section_schema "clause_writer"

/-- `_generate_technical_mode`. -/
def generate_technical_mode (env : Env) (section_name section_intent : String)
    (style : Json) (section_schema : Json) (retrieved_clauses : List Json)
    (extracted_context : Json) : Except PyError Json := do
  let prompt := PromptTemplates.TECHNICAL_SYNTHESIS_PROMPT section_name section_intent
    (JsonUtil.jsonDumps section_schema) (JsonUtil.jsonDumps extracted_context)
    (JsonUtil.jsonDumps (.arr retrieved_clauses)) ++
    "\nStyle: " ++ pyStr style ++
    "\nMandatory constraints: architecture_pattern must equal " ++
    pyStr (← extracted_context.attrGet "architecture_pattern") ++
    "; allowed_services=" ++
    JsonUtil.jsonDumps (← extracted_context.attrGetD "allowed_services" (.arr [])) ++
    "; do not mention non-allowed services."
  run_writer_prompt env prompt section_schema "technical_writer"

/-- `_json_path_non_empty`: walk the dotted path, then reject
`None` / `""` / `[]`. -/
def json_path_non_empty (doc : Json) (path : String) : Bool :=
  go doc (sSplitOn path ".")
where
  go : Json → List String → Bool
    | current, [] => ¬ (current = .null ∨ current = .str "" ∨ current = .arr [])
    | current, part :: rest =>
        match current with
        | .obj kvs =>
            match Json.lookupKey kvs part with
            | some v => go v rest
            | none => false
        | _ => false

/-- `_extract_services_from_section`: scan every string value (and string
list item) with the service-name pattern; return the sorted, deduplicated,
whitespace-stripped non-empty matches. -/
def extract_services_from_section (section_json : Json) :
    Except PyError (List String) := do
  let vals ← section_json.values
  let found := vals.foldl
    (fun (acc : List String) v =>
      match v with
      | .str s => acc ++ findServiceNames s
      | .arr elems => acc ++ elems.foldl
          (fun (a : List String) item =>
            match item with
            | .str s => a ++ findServiceNames s
            | _ => a) []
      | _ => acc)
    []
  return sortStrings ((found.map pyStrip).filter (· ≠ "")).eraseDups

/-- The required-fields pass of `validate_section_output` (a non-string path
would hit `path.split` and raise `AttributeError`). -/
def requiredReasons (section_json : Json) :
    List Json → List String → Except PyError (List String)
  | [], acc => .ok acc
  | p :: rest, acc =>
      match p with
      | .str s =>
          requiredReasons section_json rest
            (if json_path_non_empty section_json s then acc
             else acc ++ ["required field missing/empty: " ++ s])
      | _ => .error .attributeError

/-- The guard and message for one min-content word rule. -/
def minWordsViolation (value : Json) (min_words : Int) : Bool :=
  decide (min_words ≠ 0) &&
    (match value with
     | .str s => decide (((pySplitWs s).length : Int) < min_words)
     | _ => false)

/-- The guard and message for one min-content item rule. -/
def minItemsViolation (value : Json) (min_items : Int) : Bool :=
  decide (min_items ≠ 0) &&
    (match value with
     | .arr xs => decide (((xs.length : Int) < min_items))
     | _ => false)

/-- The min-content pass of `validate_section_output` (over
`(min_content or {}).items()`). -/
def minContentReasons (section_json : Json) :
    List (String × Json) → List String → Except PyError (List String)
  | [], acc => .ok acc
  | kv :: rest, acc => do
      let value ← section_json.attrGet kv.1
      let min_words ← pyInt (← (Json.pyOr kv.2 (.obj [])).attrGetD "min_words" (.num 0))
      let min_items ← pyInt (← (Json.pyOr kv.2 (.obj [])).attrGetD "min_items" (.num 0))
      let acc :=
        if minWordsViolation value min_words then
          acc ++ ["field '" ++ kv.1 ++ "' below min_words=" ++ toString min_words]
        else acc
      let acc :=
        if minItemsViolation value min_items then
          acc ++ ["field '" ++ kv.1 ++ "' below min_items=" ++ toString min_items]
        else acc
      minContentReasons section_json rest acc

/-- `[s.lower() for s in extracted_context.get("allowed_services", [])]`. -/
def allowedServicesLower (extracted_context : Json) :
    Except PyError (List String) := do
  let allowedElems ← (← extracted_context.attrGetD "allowed_services" (.arr [])).pyIter
  allowedElems.mapM (fun s => do pure (pyLower (← asPyStr s)))

/-- The service half of the technical pass. -/
def serviceReasons (allowed : List String) :
    List String → List String → List String
  | [], acc => acc
  | service :: rest, acc =>
      serviceReasons allowed rest
        (if ¬ allowed.isEmpty ∧ ¬ allowed.contains (pyLower service) then
          acc ++ ["service '" ++ service ++ "' is not in allowed_services"]
        else acc)

/-- The technical-consistency pass of `validate_section_output`, appending
to the accumulated reasons. -/
def technicalReasons (section_json extracted_context : Json) (acc0 : List String) :
    Except PyError (List String) := do
  let expected := pyLower (pyStrip
    (← asPyStr (Json.pyOr (← extracted_context.attrGet "architecture_pattern") (.str ""))))
  let actual := pyLower (pyStrip
    (← asPyStr (Json.pyOr (← section_json.attrGet "architecture_pattern") (.str ""))))
  let acc : List String :=
    if expected ≠ "" ∧ actual ≠ "" ∧ expected ≠ actual then
      acc0 ++ ["technical architecture_pattern mismatch with extractedContext"]
    else acc0
  let allowed ← allowedServicesLower extracted_context
  let services ← extract_services_from_section section_json
  return serviceReasons allowed services acc

/-- `validate_section_output`: accumulate required-field, min-content and
(for `technical` sections) consistency violations; valid iff none. -/
def validate_section_output (section_def : SectionDefinition) (section_json : Json)
    (extracted_context : Json) : Except PyError (Bool × List String) := do
  let r1 ← requiredReasons section_json section_def.required_fields []
  let mcItems ← (Json.pyOr section_def.min_content (.obj [])).items
  let r2 ← minContentReasons section_json mcItems r1
  let reasons ←
    if section_def.category = "technical" then
      technicalReasons section_json extracted_context r2
    else pure r2
  return (reasons.isEmpty, reasons)

/-- `_build_tbd_output`: every schema field becomes `"TBD"` (or `["TBD"]`
for list defaults), plus the fixed `action_items` list. -/
def build_tbd_output (section_def : SectionDefinition) : Except PyError Json := do
  let kvs ← section_def.output_schema.items
  let out := kvs.map fun (kv : String × Json) =>
    (kv.1, if kv.2.isArr then Json.arr [.str "TBD"] else Json.str "TBD")
  return .obj (Json.setKey out "action_items"
    (.arr [.str "Refine clause filters and retry retrieval.",
           .str "Provide additional intake details for missing required fields."]))

/-- `_resolve_writer_mode`. -/
def resolve_writer_mode (category : String) : String :=
  if category = "technical" then "TECHNICAL_SYNTHESIS_MODE"
  else if category = "template" then "TEMPLATE_MODE"
  else "CLAUSE_ASSEMBLY_MODE"

/-- The loop body of `_write_with_validation_retry`
(`for attempt in range(max_retries + 1)`).  After a failed validation the
candidates are replaced via a fresh `_retrieve_with_fallback` + rerank —
also after the final attempt, before the TBD fallback is returned. -/
def writeRetryGo (env : Env) (section_def : SectionDefinition)
    (section_name section_intent : String) (style : Json)
    (intake : List (String × Json)) (extracted_context : Json) :
    Nat → Nat → List Json → List WriteAttempt → Json →
    Except PyError (Json × WriteDiag × Json)
  | 0, _, _, attempts, session => do
      let tbd ← build_tbd_output section_def
      .ok (tbd, ⟨attempts⟩, session)
  | left + 1, attempt, candidates, attempts, session => do
      let writer_mode := resolve_writer_mode section_def.category
      let output ←
        (if section_def.category = "template" then
          generate_from_template section_name section_intent
            section_def.output_schema intake
        else if section_def.category = "technical" then
          generate_technical_mode env section_name section_intent style
            section_def.output_schema candidates extracted_context
        else
          generate_clause_mode env section_name section_intent style
            section_def.output_schema candidates extracted_context)
      let (valid, reasons) ← validate_section_output section_def output extracted_context
      if valid then
        .ok (output, ⟨attempts ++ [⟨attempt + 1, writer_mode, valid, reasons, none⟩]⟩,
          session)
      else do
        let (clauses, retrieval_diag, session') ←
          retrieve_with_fallback env section_def extracted_context 8 session
        let reranked ← rerank_clauses (.obj [("section", .str section_name)]) clauses
        let candidates := reranked.take 4
        let attempts := attempts ++
          [⟨attempt + 1, writer_mode, valid, reasons, some retrieval_diag⟩]
        writeRetryGo env section_def section_name section_intent style intake
          extracted_context left (attempt + 1) candidates attempts session'

/-- `_write_with_validation_retry`. -/
def write_with_validation_retry (env : Env) (section_def : SectionDefinition)
    (section_name section_intent : String) (style : Json) (candidates : List Json)
    (intake : List (String × Json)) (extracted_context : Json) (session : Json) :
    Except PyError (Json × WriteDiag × Json) :=
  writeRetryGo env section_def section_name section_intent style intake
    extracted_context (section_def.fallback_policy.max_retries + 1).toNat 0
    candidates [] session

/-- Values appended verbatim to the markdown line list must be strings for
`"\n".join` (Python raises `TypeError` otherwise). -/
def asJoinStr : Json → Except PyError String
  | .str s => .ok s
  | _ => .error .typeError

/-- `render_architecture_markdown`. -/
def render_architecture_markdown (arch_json : Json) : Except PyError String := do
  let overview ← asJoinStr (← arch_json.attrGetD "overview" (.str ""))
  let core ← (← arch_json.attrGetD "core_components" (.arr [])).pyIter
  let lines := ["### FUTURE STATE ARCHITECTURE", overview, "",
    "**Architecture Pattern:** " ++ pyStr (← arch_json.attrGetD "architecture_pattern" (.str "")),
    "**Core Components:**"] ++
    core.map (fun component => "- " ++ pyStr component) ++
    ["**Data Flow:** " ++ pyStr (← arch_json.attrGetD "data_flow" (.str "")),
     "**Security Model:** " ++ pyStr (← arch_json.attrGetD "security_model" (.str "")),
     "**Multi-Tenancy Model:** " ++ pyStr (← arch_json.attrGetD "multi_tenancy_model" (.str "")),
     "**Limitations:** " ++ pyStr (← arch_json.attrGetD "limitations" (.str ""))]
  let lines ←
    if (← arch_json.attrGet "action_items").truthy then do
      let actions ← (← arch_json.attrGetD "action_items" (.arr [])).pyIter
      pure (lines ++ ["**Action Items:**"] ++ actions.map (fun item => "- " ++ pyStr item))
    else pure lines
  return pyStrip (String.intercalate "\n" lines)

/-- `_structured_section_to_markdown`. -/
def structured_section_to_markdown (section_name : String) (content : Json) :
    Except PyError String := do
  let kvs ← content.items
  let lines := kvs.foldl
    (fun (acc : List String) (kv : String × Json) =>
      let label := pyTitle (sReplace kv.1 "_" " ")
      let acc :=
        match kv.2 with
        | .arr elems =>
            acc ++ ["**" ++ label ++ ":**"] ++ elems.map (fun item => "- " ++ pyStr item)
        | v => acc ++ ["**" ++ label ++ ":** " ++ pyStr v]
      acc ++ [""])
    ["### " ++ section_name]
  return pyStrip (String.intercalate "\n" lines)

/-- `_render_section_markdown`. -/
def render_section_markdown (section_name category : String) (content : Json) :
    Except PyError String :=
  if category = "technical" then render_architecture_markdown content
  else structured_section_to_markdown section_name content

/-- `_build_document_markdown` (runs before the DRAFTED stage is set, so
`case.stage` is still the pre-write stage). -/
def build_document_markdown (c : SOWCase) (structured_sections : List DraftSection) :
    String :=
  let iGet := fun (k : String) (d : String) =>
    pyStr ((Json.lookupKey c.intake k).getD (.str d))
  let head := [
    "# Statement of Work - " ++ iGet "client_name" "Client", "",
    "- **Project Scope:** " ++ iGet "project_scope" "N/A",
    "- **Industry:** " ++ iGet "industry" "N/A",
    "- **Region:** " ++ iGet "region" "N/A",
    "- **Current Stage:** " ++ c.stage.value,
    "", "---", ""]
  let body := structured_sections.foldl
    (fun (acc : List String) s => acc ++ ["## " ++ s.name, "", s.draft_markdown, ""]) []
  String.intercalate "\n" (head ++ body)

/-- Generic dict update used for `{s["name"]: s for s in sections}`
(Python keeps the first-insertion position, later values win). -/
def setAssoc {α : Type} : List (String × α) → String → α → List (String × α)
  | [], key, v => [(key, v)]
  | (k, w) :: rest, key, v =>
      if k = key then (key, v) :: rest else (k, w) :: setAssoc rest key v

/-- `{s["name"]: s for s in plan.get("sections", [])}`. -/
def dictByName (sections : List SectionDefinition) : List (String × SectionDefinition) :=
  sections.foldl (fun acc sd => setAssoc acc sd.name sd) []

/-- `payload["plan"]` on a PLAN_READY artifact (`KeyError` on any other
payload shape, which the handlers never store there). -/
def asPlan : Payload → Except PyError (List SectionDefinition × Json × Json)
  | .plan sections ctx risks => .ok (sections, ctx, risks)
  | _ => .error .keyError

def asRetrievedSet : Payload → Except PyError (List (String × List Json))
  | .retrieved rset _ _ _ _ => .ok rset
  | _ => .error .keyError

def asBlueprint : Payload → Except PyError (List (String × BlueprintEntry))
  | .assembled bp => .ok bp
  | _ => .error .keyError

def asDraftSections : Payload → Except PyError (List DraftSection)
  | .drafted sections _ _ => .ok sections
  | _ => .error .keyError

def asReviewReport : Payload → Except PyError (String × List ReviewFinding)
  | .reviewed status findings => .ok (status, findings)
  | _ => .error .keyError

/-- The allowed-stage list `run_extract` passes to `_ensure_stage`. -/
def extractAllowed : List WorkflowStage := [.INIT, .EXTRACTED]

/-- The allowed-stage list `run_plan` passes to `_ensure_stage`. -/
def planAllowed : List WorkflowStage := [.EXTRACTED, .PLAN_READY]

/-- The allowed-stage list `run_retrieve` passes to `_ensure_stage`. -/
def retrieveAllowed : List WorkflowStage := [.PLAN_READY, .RETRIEVED]

/-- The allowed-stage list `run_assemble` passes to `_ensure_stage`. -/
def assembleAllowed : List WorkflowStage := [.RETRIEVED, .RERANKED, .ASSEMBLED]

/-- The allowed-stage list `run_write` passes to `_ensure_stage`. -/
def writeAllowed : List WorkflowStage := [.ASSEMBLED, .DRAFTED, .VALIDATED]

/-- The allowed-stage list `run_validate` passes to `_ensure_stage`. -/
def validateAllowed : List WorkflowStage := [.DRAFTED, .VALIDATED]

/-- The allowed-stage list `run_review` passes to `_ensure_stage`. -/
def reviewAllowed : List WorkflowStage := [.VALIDATED, .REVIEWED]

/-- The allowed-stage list `approve` passes to `_ensure_stage`. -/
def approveAllowed : List WorkflowStage := [.REVIEWED]

/-- `run_extract`. -/
def run_extract (env : Env) (c : SOWCase) : Except PyError SOWCase := do
  let _ ← ensure_stage c extractAllowed
  let extracted_context ← extract_structured_context env c.intake
  let c := { c with intake := Json.setKey c.intake "structured_context" extracted_context }
  let c := append_artifact env c .EXTRACTED (.extracted extracted_context)
  return { c with stage := .EXTRACTED }

/-- `run_plan`. -/
def run_plan (env : Env) (plan_input : Json) (c : SOWCase) : Except PyError SOWCase := do
  let c ← (if (Json.lookupKey c.intake "structured_context").isSome then pure c
    else run_extract env c)
  let _ ← ensure_stage c planAllowed
  let sectionsJ := Json.pyOr (← plan_input.attrGet "sections") (.arr [])
  let _ ← (if ¬ sectionsJ.truthy then
    throw (.validationError "PLAN requires non-empty sections")
  else pure ())
  let extracted := Json.pyOr ((Json.lookupKey c.intake "structured_context").getD .null)
    (.obj [])
  let rawSections ← sectionsJ.pyIter
  let sections ← rawSections.mapM (fun raw => do
    if ¬ (← raw.attrGet "name").truthy ∨ ¬ (← raw.attrGet "intent").truthy then
      throw (.validationError "Each plan section requires name and intent")
    normalize_section_definition raw c.intake extracted)
  let risk_checks ← plan_input.attrGetD "risk_checks" (.arr [])
  let c := append_artifact env c .PLAN_READY (.plan sections extracted risk_checks)
  return { c with stage := .PLAN_READY }

/-- The per-section retrieval loop of `run_retrieve`: retrieve (with
fallback) each selected planned section, threading the knowledge service's
session, and collect the per-section clause lists and diagnostics. -/
def retrieveSections (env : Env) (section_defs : List (String × SectionDefinition))
    (selected_names : List Json) (extracted : Json) (top_k : Int) :
    Except PyError (List (String × List Json) × List (String × RetrievalDiag) × Json) :=
  section_defs.foldlM
    (fun (acc : List (String × List Json) × List (String × RetrievalDiag) × Json)
        (kv : String × SectionDefinition) => do
      if ¬ selected_names.contains (Json.str kv.1) then pure acc
      else do
        let (clauses, section_diag, session') ←
          retrieve_with_fallback env kv.2 extracted top_k acc.2.2
        pure (acc.1 ++ [(kv.1, clauses)], acc.2.1 ++ [(kv.1, section_diag)], session'))
    ([], [], Json.null)

/-- `run_retrieve`.  The knowledge service's session starts as `None` for
the modelled call (the persisted session only feeds the external chat
call). -/
def run_retrieve (env : Env) (retrieve_input : Json) (c : SOWCase) :
    Except PyError SOWCase := do
  let _ ← ensure_stage c retrieveAllowed
  let planArt ← get_latest_artifact c .PLAN_READY
  let (sections, _, _) ← asPlan planArt.payload
  let section_defs := dictByName sections
  let top_k := max 1 (← pyInt (← retrieve_input.attrGetD "top_k" (.num 8)))
  let allow_partial := (← retrieve_input.attrGetD "allow_partial" (.bool false)).truthy
  let selectedJ := Json.pyOr (← retrieve_input.attrGet "section_names")
    (.arr (section_defs.map fun kv => Json.str kv.1))
  let selected_names := (← selectedJ.pyIter).eraseDups
  let extracted := Json.pyOr ((Json.lookupKey c.intake "structured_context").getD .null)
    (.obj [])
  let (retrieval_set, diagnostics, _) ←
    retrieveSections env section_defs selected_names extracted top_k
  let _ ← (if (retrieval_set.any fun kv => kv.2.isEmpty) ∧ ¬ allow_partial then
    throw (.validationError "RETRIEVE produced insufficient section coverage")
  else pure ())
  let retrieval_set :=
    if allow_partial then retrieval_set.filter (fun kv => ¬ kv.2.isEmpty)
    else retrieval_set
  let c := append_artifact env c .RETRIEVED
    (.retrieved retrieval_set diagnostics selected_names
      (retrieval_set.map Prod.fst) top_k)
  return { c with stage := .RETRIEVED }

/-- `run_assemble` (the combined RERANK + ASSEMBLE handler). -/
def run_assemble (env : Env) (c : SOWCase) : Except PyError SOWCase := do
  let _ ← ensure_stage c assembleAllowed
  let retrArt ← get_latest_artifact c .RETRIEVED
  let retrieval_set ← asRetrievedSet retrArt.payload
  let planArt ← get_latest_artifact c .PLAN_READY
  let (sections, planCtx, _) ← asPlan planArt.payload
  let section_defs := dictByName sections
  let top_m := 4
  let (blueprint, rerank_diagnostics) ← retrieval_set.foldlM
    (fun (acc : List (String × BlueprintEntry) × List (String × RerankDiag))
        (kv : String × List Json) => do
      let section_name := kv.1
      let clauses := kv.2
      let cfg? := alookup section_defs section_name
      let category := (cfg?.map (·.category)).getD "clause"
      let query : Json := .obj
        [("section", .str section_name),
         ("intent", (cfg?.map fun sd => Json.str sd.intent).getD .null),
         ("structured_context", planCtx)]
      let reranked := (← rerank_clauses query clauses).take top_m
      let order ← reranked.mapM (·.attrGet "chunk_id")
      let primary_ids ← (reranked.take 2).mapM (·.attrGet "chunk_id")
      let entry : BlueprintEntry :=
        { section_intent := (cfg?.map (·.intent)).getD "",
          category := category,
          order := order,
          primary_clause_ids := primary_ids,
          primary_clauses := reranked.take 2,
          reranked_clauses := reranked,
          output_schema := Json.pyOr ((cfg?.map (·.output_schema)).getD .null)
            (DEFAULT_SECTION_SCHEMAS category),
          required_fields := (cfg?.map (·.required_fields)).getD [],
          min_content := (cfg?.map (·.min_content)).getD (.obj []),
          fallback_policy := cfg?.map (·.fallback_policy),
          clause_filters := (cfg?.map (·.clause_filters)).getD [] }
      pure (acc.1 ++ [(section_name, entry)],
        acc.2 ++ [(section_name, ⟨clauses.length, reranked.length, top_m⟩)]))
    ([], [])
  let c := append_artifact env c .RERANKED (.reranked retrieval_set rerank_diagnostics)
  let c := append_artifact env c .ASSEMBLED (.assembled blueprint)
  return { c with stage := .ASSEMBLED }

/-- `run_validate`. -/
def run_validate (env : Env) (c : SOWCase) : Except PyError SOWCase := do
  let _ ← ensure_stage c validateAllowed
  let draftArt ← get_latest_artifact c .DRAFTED
  let draft_sections ← asDraftSections draftArt.payload
  let planArt ← get_latest_artifact c .PLAN_READY
  let (sections, _, _) ← asPlan planArt.payload
  let extracted := Json.pyOr ((Json.lookupKey c.intake "structured_context").getD .null)
    (.obj [])
  let section_cfg := dictByName sections
  let findings ← draft_sections.foldlM
    (fun (acc : List ValidationFinding) sec => do
      let cfg : SectionDefinition :=
        (alookup section_cfg sec.name).getD { name := sec.name, intent := "" }
      let (valid, reasons) ← validate_section_output cfg sec.structured_content
        extracted
      pure (if valid then acc else acc ++ [⟨sec.name, reasons⟩]))
    []
  let status := if findings.isEmpty then "pass" else "fail"
  let c := append_artifact env c .VALIDATED (.validated status findings)
  return { c with stage := .VALIDATED }

/-- `run_write` (drafts every plan section, then chains into
`run_validate`). -/
def run_write (env : Env) (write_input : Json) (c : SOWCase) :
    Except PyError SOWCase := do
  let _ ← ensure_stage c writeAllowed
  let bpArt ← get_latest_artifact c .ASSEMBLED
  let blueprint ← asBlueprint bpArt.payload
  let planArt ← get_latest_artifact c .PLAN_READY
  let (sections, _, _) ← asPlan planArt.payload
  let extracted := Json.pyOr ((Json.lookupKey c.intake "structured_context").getD .null)
    (.obj [])
  let style ← write_input.attrGetD "style" (.str "professional")
  let prohibitedJ ← write_input.attrGetD "prohibited_commitments" (.arr [])
  let (structured_sections, diag_sections, writer_calls, prompt_chars, _) ←
    sections.foldlM
      (fun (acc : List DraftSection × List (String × SectionWriteDiag) × Nat × Nat × Json)
          (section_def : SectionDefinition) => do
        let (secAcc, diagAcc, calls, chars, session) := acc
        let section_name := section_def.name
        let assembled? := alookup blueprint section_name
        let candidates :=
          match assembled? with
          | some e =>
              if ¬ e.reranked_clauses.isEmpty then e.reranked_clauses
              else if ¬ e.primary_clauses.isEmpty then e.primary_clauses
              else []
          | none => []
        let writer_mode := resolve_writer_mode section_def.category
        let (output, validation_diag, session') ← write_with_validation_retry env
          section_def section_name section_def.intent style candidates c.intake
          extracted session
        let markdown ← render_section_markdown section_name section_def.category output
        let prohibited ← prohibitedJ.pyIter
        let _ ← prohibited.forM (fun word => do
          if strContains (pyLower markdown) (pyLower (← asPyStr word)) then
            throw (.validationError
              ("WRITE produced prohibited commitment language in section '" ++
                section_name ++ "'"))
          else pure ())
        let clause_ids ← (candidates.take 2).mapM (·.attrGet "chunk_id")
        let draft : DraftSection :=
          { name := section_name, intent := section_def.intent,
            category := section_def.category, writer_mode := writer_mode,
            structured_content := output, draft_markdown := markdown,
            source_mapping := [.obj [("paragraph", .num 1), ("clause_ids", .arr clause_ids)]] }
        pure (secAcc ++ [draft],
          diagAcc ++ [(section_name, ⟨writer_mode, validation_diag⟩)],
          calls + 1, chars + (JsonUtil.jsonDumps output).length, session'))
      ([], [], 0, 0, Json.null)
  let markdown := build_document_markdown c structured_sections
  let run_diag : WriteRunDiag :=
    { extracted_context := extracted, sections := diag_sections,
      token_usage := ⟨writer_calls, prompt_chars⟩ }
  let c := append_artifact env c .DRAFTED (.drafted structured_sections markdown run_diag)
  let c := { c with stage := .DRAFTED }
  run_validate env c

/-- `run_review`. -/
def run_review (env : Env) (review_input : Json) (c : SOWCase) :
    Except PyError SOWCase := do
  let _ ← ensure_stage c reviewAllowed
  let draftArt ← get_latest_artifact c .DRAFTED
  let draft ← asDraftSections draftArt.payload
  let forbiddenJ ← review_input.attrGetD "forbidden_phrases"
    (.arr [.str "guarantee", .str "without exception"])
  let forbidden_phrases ← forbiddenJ.pyIter
  let findings ← draft.foldlM
    (fun (acc : List ReviewFinding) section_data => do
      let text := pyLower section_data.draft_markdown
      let acc ← forbidden_phrases.foldlM
        (fun (acc : List ReviewFinding) phrase => do
          let p ← asPyStr phrase
          pure (if strContains text (pyLower p) then
            acc ++ [⟨"critical", "risk", section_data.name, p,
              "Replace absolute commitments with bounded language"⟩]
          else acc))
        acc
      pure (if section_data.source_mapping.isEmpty then
          acc ++ [⟨"critical", "grounding", section_data.name, "missing source mapping",
            "Add clause mapping for each paragraph"⟩]
        else acc))
    []
  let status := if findings.any (fun f => f.severity = "critical") then "fail" else "pass"
  let c := append_artifact env c .REVIEWED (.reviewed status findings)
  return { c with stage := .REVIEWED }

/-- `approve`: REVIEWED only, and only when the latest review passed.  No
artifact is appended; only the stage advances. -/
def approve (env : Env) (c : SOWCase) : Except PyError SOWCase := do
  let _ ← ensure_stage c approveAllowed
  let reviewArt ← get_latest_artifact c .REVIEWED
  let (status, _) ← asReviewReport reviewArt.payload
  let _ ← (if status ≠ "pass" then
    throw (.stateTransitionError "Cannot APPROVE when review status is fail")
  else pure ())
  let _ := env
  return { c with stage := .APPROVED }

/-- `create_case`: validate the intake, build the case, run EXTRACT. -/
def create_case (env : Env) (intake : Json) : Except PyError SOWCase := do
  let _ ← validate_intake intake
  let kvs ← (match intake with
    | .obj kvs => pure kvs
    | _ => throw PyError.typeError)  -- `dict(intake)` of a non-mapping
  let c : SOWCase :=
    { case_id := env.caseUuid, created_at := env.nowIso, intake := kvs,
      stage := .INIT, artifacts := [] }
  run_extract env c

end SOWWorkflowService

/-! ### The spec's view of the lifecycle

Modelled from the spec: the ordered linear lifecycle
`INIT → EXTRACTED → PLAN_READY → RETRIEVED → RERANKED → ASSEMBLED → DRAFTED
→ VALIDATED → REVIEWED → APPROVED`, and the per-stage allowed set the spec
describes ("exactly the previous stage or itself"). -/

def specStageOrder : List WorkflowStage :=
  [.INIT, .EXTRACTED, .PLAN_READY, .RETRIEVED, .RERANKED, .ASSEMBLED,
   .DRAFTED, .VALIDATED, .REVIEWED, .APPROVED]

/-- Modelled from the spec: the immediate predecessor of a stage in the
ordered lifecycle. -/
def specPredecessor (s : WorkflowStage) : Option WorkflowStage :=
  go specStageOrder
where
  go : List WorkflowStage → Option WorkflowStage
    | a :: b :: rest => if b = s then some a else go (b :: rest)
    | _ => none

/-- Modelled from the spec: the stage set a handler targeting `s` should
accept — "exactly the previous stage or itself, to allow idempotent
re-run". -/
def specAllowed (s : WorkflowStage) : List WorkflowStage :=
  (match specPredecessor s with
   | some p => [p]
   | none => []) ++ [s]

/-! ### The transition system

One step is one successful stage-handler invocation, with arbitrary oracle
environments and caller inputs; a reachable case is one produced by
`create_case` and any number of steps. -/

/-- One successful handler application on a case. -/
inductive Step : SOWCase → SOWCase → Prop where
  | extract (env : Env) {c c' : SOWCase} :
      SOWWorkflowService.run_extract env c = .ok c' → Step c c'
  | plan (env : Env) (input : Json) {c c' : SOWCase} :
      SOWWorkflowService.run_plan env input c = .ok c' → Step c c'
  | retrieve (env : Env) (input : Json) {c c' : SOWCase} :
      SOWWorkflowService.run_retrieve env input c = .ok c' → Step c c'
  | assemble (env : Env) {c c' : SOWCase} :
      SOWWorkflowService.run_assemble env c = .ok c' → Step c c'
  | write (env : Env) (input : Json) {c c' : SOWCase} :
      SOWWorkflowService.run_write env input c = .ok c' → Step c c'
  | validate (env : Env) {c c' : SOWCase} :
      SOWWorkflowService.run_validate env c = .ok c' → Step c c'
  | review (env : Env) (input : Json) {c c' : SOWCase} :
      SOWWorkflowService.run_review env input c = .ok c' → Step c c'
  | approval (env : Env) {c c' : SOWCase} :
      SOWWorkflowService.approve env c = .ok c' → Step c c'

/-- Cases reachable through the public workflow interface. -/
inductive Reachable : SOWCase → Prop where
  | created (env : Env) (intake : Json) {c : SOWCase} :
      SOWWorkflowService.create_case env intake = .ok c → Reachable c
  | step {c c' : SOWCase} : Reachable c → Step c c' → Reachable c'

/-! ### Proof toolkit -/

theorem exceptBind_ok {ε α β : Type} {x : Except ε α} {f : α → Except ε β} {b : β} :
    x >>= f = .ok b ↔ ∃ a, x = .ok a ∧ f a = .ok b := by
  cases x <;> simp [Bind.bind, Except.bind]

theorem exceptBind_error {ε α β : Type} {x : Except ε α} {f : α → Except ε β} {e : ε} :
    x = .error e → x >>= f = .error e := by
  intro h; subst h; rfl

theorem exceptPure_ok {ε α : Type} {a b : α} :
    (pure a : Except ε α) = .ok b ↔ a = b := by
  constructor
  · intro h; cases h; rfl
  · intro h; subst h; rfl

namespace SOWWorkflowService

theorem lookup_artifactsAppend (arts : List (WorkflowStage × List WorkflowArtifact))
    (s : WorkflowStage) (a : WorkflowArtifact) (s' : WorkflowStage) :
    alookup (artifactsAppend arts s a) s' =
      if s' = s then some ((alookup arts s).getD [] ++ [a]) else alookup arts s' := by
  induction arts with
  | nil =>
      by_cases h : s' = s
      · subst h; simp [artifactsAppend, alookup]
      · simp [artifactsAppend, alookup, h, Ne.symm h]
  | cons hd tl ih =>
      obtain ⟨k, l⟩ := hd
      by_cases hk : k = s
      · subst hk
        by_cases h : s' = k
        · subst h; simp [artifactsAppend, alookup]
        · simp [artifactsAppend, alookup, h, Ne.symm h]
      · by_cases h : s' = k
        · subst h
          simp [artifactsAppend, alookup, hk, Ne.symm hk, if_neg hk]
        · have hks' : ¬ k = s' := fun hc => h hc.symm
          simp only [artifactsAppend, if_neg hk, alookup, if_neg hks']
          exact ih

theorem artifactsGet_append_artifact (env : Env) (c : SOWCase) (s : WorkflowStage)
    (p : Payload) (s' : WorkflowStage) :
    (append_artifact env c s p).artifactsGet s' =
      if s' = s then
        c.artifactsGet s ++
          [⟨s, (c.artifactsGet s).length + 1, env.nowIso, p⟩]
      else c.artifactsGet s' := by
  unfold append_artifact SOWCase.artifactsGet
  simp only [lookup_artifactsAppend]
  by_cases h : s' = s <;> simp [h]

/-- The per-stage version invariant: versions run `1, 2, …, n` down the
artifact list. -/
def VersionsOk (l : List WorkflowArtifact) : Prop :=
  l.map WorkflowArtifact.version = List.range' 1 l.length

theorem versionsOk_nil : VersionsOk [] := rfl

theorem versionsOk_append {l : List WorkflowArtifact} (h : VersionsOk l)
    (s : WorkflowStage) (t : String) (p : Payload) :
    VersionsOk (l ++ [⟨s, l.length + 1, t, p⟩]) := by
  unfold VersionsOk at *
  simp only [List.map_append, List.length_append, List.map_cons, List.map_nil,
    List.length_cons, List.length_nil]
  rw [h, List.range'_concat]
  simp [Nat.add_comm]

/-- Append-only evolution of a case's artifact map: every stage's list is
extended (never rewritten), and the version law is preserved. -/
def CaseExtends (c c' : SOWCase) : Prop :=
  ∀ s, c.artifactsGet s <+: c'.artifactsGet s ∧
    (VersionsOk (c.artifactsGet s) → VersionsOk (c'.artifactsGet s))

theorem caseExtends_refl (c : SOWCase) : CaseExtends c c :=
  fun _ => ⟨List.prefix_refl _, id⟩

theorem caseExtends_trans {a b c : SOWCase} (h1 : CaseExtends a b)
    (h2 : CaseExtends b c) : CaseExtends a c := fun s =>
  ⟨(h1 s).1.trans (h2 s).1, fun hv => (h2 s).2 ((h1 s).2 hv)⟩

theorem caseExtends_append (env : Env) (c : SOWCase) (s : WorkflowStage)
    (p : Payload) : CaseExtends c (append_artifact env c s p) := by
  intro s'
  rw [artifactsGet_append_artifact]
  by_cases h : s' = s
  · subst h
    simp only [if_pos rfl]
    exact ⟨List.prefix_append _ _, fun hv => versionsOk_append hv _ _ _⟩
  · simp only [if_neg h]
    exact ⟨List.prefix_refl _, id⟩

theorem caseExtends_of_artifacts_eq {c c' : SOWCase}
    (h : c.artifacts = c'.artifacts) : CaseExtends c c' := by
  intro s
  unfold SOWCase.artifactsGet
  rw [h]
  exact ⟨List.prefix_refl _, id⟩

/-- `_ensure_stage` succeeds exactly on the allowed stages. -/
theorem ensure_stage_ok {c : SOWCase} {allowed : List WorkflowStage} {u : Unit}
    (h : ensure_stage c allowed = .ok u) : c.stage ∈ allowed := by
  unfold ensure_stage at h
  split at h
  · assumption
  · cases h

/-- The `StateTransitionError` message `_ensure_stage` raises. -/
def stMsg (c : SOWCase) (allowed : List WorkflowStage) : String :=
  "Invalid stage transition from " ++ c.stage.value ++ ". Expected one of: " ++
    String.intercalate ", " (allowed.map WorkflowStage.value)

theorem ensure_stage_error {c : SOWCase} {allowed : List WorkflowStage}
    (h : c.stage ∉ allowed) :
    ensure_stage c allowed = .error (.stateTransitionError (stMsg c allowed)) := by
  unfold ensure_stage stMsg
  rw [if_neg h]

/-- The review status recorded in the latest REVIEWED artifact, if any. -/
def latestReviewStatus (c : SOWCase) : Option String :=
  match (c.artifactsGet .REVIEWED).getLast? with
  | some art =>
      match art.payload with
      | .reviewed status _ => some status
      | _ => none
  | none => none

theorem run_extract_ok {env : Env} {c c' : SOWCase}
    (h : run_extract env c = .ok c') :
    c.stage ∈ extractAllowed ∧ c'.stage = .EXTRACTED ∧ CaseExtends c c' := by
  unfold run_extract at h
  rw [exceptBind_ok] at h
  obtain ⟨u, hu, h⟩ := h
  rw [exceptBind_ok] at h
  obtain ⟨ctx, _, h⟩ := h
  rw [exceptPure_ok] at h
  subst h
  refine ⟨ensure_stage_ok hu, rfl, ?_⟩
  exact caseExtends_trans (caseExtends_of_artifacts_eq rfl)
    (caseExtends_trans (caseExtends_append _ _ _ _) (caseExtends_of_artifacts_eq rfl))

theorem run_extract_stage_error {env : Env} {c : SOWCase}
    (h : c.stage ∉ extractAllowed) :
    ∃ m, run_extract env c = .error (.stateTransitionError m) := by
  refine ⟨stMsg c extractAllowed, ?_⟩
  unfold run_extract
  rw [ensure_stage_error h]
  rfl

theorem get_latest_artifact_ok {c : SOWCase} {s : WorkflowStage} {art : WorkflowArtifact}
    (h : get_latest_artifact c s = .ok art) :
    (c.artifactsGet s).getLast? = some art := by
  unfold get_latest_artifact at h
  split at h
  · cases h; assumption
  · cases h

theorem asReviewReport_ok {p : Payload} {r : String × List ReviewFinding}
    (h : asReviewReport p = .ok r) : p = .reviewed r.1 r.2 := by
  obtain ⟨status, findings⟩ := r
  cases p <;> simp_all [asReviewReport]

theorem run_plan_ok {env : Env} {input : Json} {c c' : SOWCase}
    (h : run_plan env input c = .ok c') :
    c'.stage = .PLAN_READY ∧ CaseExtends c c' := by
  unfold run_plan at h
  rw [exceptBind_ok] at h
  obtain ⟨c1, hc1, h⟩ := h
  have hext : CaseExtends c c1 := by
    split at hc1
    · rw [exceptPure_ok] at hc1; subst hc1; exact caseExtends_refl c
    · exact (run_extract_ok hc1).2.2
  rw [exceptBind_ok] at h
  obtain ⟨u, _, h⟩ := h
  rw [exceptBind_ok] at h
  obtain ⟨sj, _, h⟩ := h
  rw [exceptBind_ok] at h
  obtain ⟨u2, _, h⟩ := h
  rw [exceptBind_ok] at h
  obtain ⟨raws, _, h⟩ := h
  rw [exceptBind_ok] at h
  obtain ⟨sections, _, h⟩ := h
  rw [exceptBind_ok] at h
  obtain ⟨risks, _, h⟩ := h
  rw [exceptPure_ok] at h
  subst h
  refine ⟨rfl, caseExtends_trans hext ?_⟩
  exact caseExtends_trans (caseExtends_append _ _ _ _) (caseExtends_of_artifacts_eq rfl)

theorem run_plan_stage_error {env : Env} {input : Json} {c : SOWCase}
    (hctx : (Json.lookupKey c.intake "structured_context").isSome)
    (h : c.stage ∉ planAllowed) :
    ∃ m, run_plan env input c = .error (.stateTransitionError m) := by
  refine ⟨stMsg c planAllowed, ?_⟩
  unfold run_plan
  rw [if_pos hctx]
  show (ensure_stage c planAllowed >>= _) = _
  rw [ensure_stage_error h]
  rfl

theorem run_plan_error_approved {env : Env} {input : Json} {c : SOWCase}
    (h : c.stage = .APPROVED) : ∃ e, run_plan env input c = .error e := by
  unfold run_plan
  by_cases hctx : (Json.lookupKey c.intake "structured_context").isSome
  · refine ⟨.stateTransitionError (stMsg c planAllowed), ?_⟩
    rw [if_pos hctx]
    show (ensure_stage c planAllowed >>= _) = _
    rw [ensure_stage_error (by simp [planAllowed, h])]
    rfl
  · obtain ⟨m, hm⟩ := @run_extract_stage_error env c
      (by simp [extractAllowed, h])
    refine ⟨.stateTransitionError m, ?_⟩
    rw [if_neg hctx]
    exact exceptBind_error hm

theorem run_retrieve_ok {env : Env} {input : Json} {c c' : SOWCase}
    (h : run_retrieve env input c = .ok c') :
    c.stage ∈ retrieveAllowed ∧ c'.stage = .RETRIEVED ∧ CaseExtends c c' := by
  unfold run_retrieve at h
  rw [exceptBind_ok] at h
  obtain ⟨u, hu, h⟩ := h
  rw [exceptBind_ok] at h
  obtain ⟨planArt, _, h⟩ := h
  rw [exceptBind_ok] at h
  obtain ⟨⟨sections, pctx, prisk⟩, _, h⟩ := h
  rw [exceptBind_ok] at h
  obtain ⟨tk, _, h⟩ := h
  rw [exceptBind_ok] at h
  obtain ⟨ap, _, h⟩ := h
  rw [exceptBind_ok] at h
  obtain ⟨sn, _, h⟩ := h
  rw [exceptBind_ok] at h
  obtain ⟨sel, _, h⟩ := h
  rw [exceptBind_ok] at h
  obtain ⟨selList, _, h⟩ := h
  rw [exceptBind_ok] at h
  obtain ⟨⟨rset, diags, sess⟩, _, h⟩ := h
  rw [exceptBind_ok] at h
  obtain ⟨u2, _, h⟩ := h
  rw [exceptPure_ok] at h
  subst h
  exact ⟨ensure_stage_ok hu, rfl,
    caseExtends_trans (caseExtends_append _ _ _ _) (caseExtends_of_artifacts_eq rfl)⟩

theorem run_retrieve_stage_error {env : Env} {input : Json} {c : SOWCase}
    (h : c.stage ∉ retrieveAllowed) :
    ∃ m, run_retrieve env input c = .error (.stateTransitionError m) := by
  refine ⟨stMsg c retrieveAllowed, ?_⟩
  unfold run_retrieve
  rw [ensure_stage_error h]
  rfl

theorem run_assemble_ok {env : Env} {c c' : SOWCase}
    (h : run_assemble env c = .ok c') :
    c.stage ∈ assembleAllowed ∧ c'.stage = .ASSEMBLED ∧ CaseExtends c c' := by
  unfold run_assemble at h
  rw [exceptBind_ok] at h
  obtain ⟨u, hu, h⟩ := h
  rw [exceptBind_ok] at h
  obtain ⟨retrArt, _, h⟩ := h
  rw [exceptBind_ok] at h
  obtain ⟨rset, _, h⟩ := h
  rw [exceptBind_ok] at h
  obtain ⟨planArt, _, h⟩ := h
  rw [exceptBind_ok] at h
  obtain ⟨⟨sections, pctx, prisk⟩, _, h⟩ := h
  rw [exceptBind_ok] at h
  obtain ⟨⟨blueprint, rdiags⟩, _, h⟩ := h
  rw [exceptPure_ok] at h
  subst h
  refine ⟨ensure_stage_ok hu, rfl, ?_⟩
  exact caseExtends_trans (caseExtends_append _ _ _ _)
    (caseExtends_trans (caseExtends_append _ _ _ _) (caseExtends_of_artifacts_eq rfl))

theorem run_assemble_stage_error {env : Env} {c : SOWCase}
    (h : c.stage ∉ assembleAllowed) :
    ∃ m, run_assemble env c = .error (.stateTransitionError m) := by
  refine ⟨stMsg c assembleAllowed, ?_⟩
  unfold run_assemble
  rw [ensure_stage_error h]
  rfl

theorem run_validate_ok {env : Env} {c c' : SOWCase}
    (h : run_validate env c = .ok c') :
    c.stage ∈ validateAllowed ∧ c'.stage = .VALIDATED ∧ CaseExtends c c' := by
  unfold run_validate at h
  rw [exceptBind_ok] at h
  obtain ⟨u, hu, h⟩ := h
  rw [exceptBind_ok] at h
  obtain ⟨draftArt, _, h⟩ := h
  rw [exceptBind_ok] at h
  obtain ⟨dsecs, _, h⟩ := h
  rw [exceptBind_ok] at h
  obtain ⟨planArt, _, h⟩ := h
  rw [exceptBind_ok] at h
  obtain ⟨⟨sections, pctx, prisk⟩, _, h⟩ := h
  rw [exceptBind_ok] at h
  obtain ⟨findings, _, h⟩ := h
  rw [exceptPure_ok] at h
  subst h
  exact ⟨ensure_stage_ok hu, rfl,
    caseExtends_trans (caseExtends_append _ _ _ _) (caseExtends_of_artifacts_eq rfl)⟩

theorem run_validate_stage_error {env : Env} {c : SOWCase}
    (h : c.stage ∉ validateAllowed) :
    ∃ m, run_validate env c = .error (.stateTransitionError m) := by
  refine ⟨stMsg c validateAllowed, ?_⟩
  unfold run_validate
  rw [ensure_stage_error h]
  rfl

theorem run_write_ok {env : Env} {input : Json} {c c' : SOWCase}
    (h : run_write env input c = .ok c') :
    c.stage ∈ writeAllowed ∧ c'.stage = .VALIDATED ∧ CaseExtends c c' := by
  unfold run_write at h
  rw [exceptBind_ok] at h
  obtain ⟨u, hu, h⟩ := h
  rw [exceptBind_ok] at h
  obtain ⟨bpArt, _, h⟩ := h
  rw [exceptBind_ok] at h
  obtain ⟨blueprint, _, h⟩ := h
  rw [exceptBind_ok] at h
  obtain ⟨planArt, _, h⟩ := h
  rw [exceptBind_ok] at h
  obtain ⟨⟨sections, pctx, prisk⟩, _, h⟩ := h
  rw [exceptBind_ok] at h
  obtain ⟨style, _, h⟩ := h
  rw [exceptBind_ok] at h
  obtain ⟨proh, _, h⟩ := h
  rw [exceptBind_ok] at h
  obtain ⟨⟨ssecs, dsecs, wcalls, wchars, sess⟩, _, h⟩ := h
  -- `h : run_validate env (the drafted case) = .ok c'`
  obtain ⟨_, hstage, hext⟩ := run_validate_ok h
  refine ⟨ensure_stage_ok hu, hstage, ?_⟩
  refine caseExtends_trans ?_ hext
  exact caseExtends_trans (caseExtends_append _ _ _ _) (caseExtends_of_artifacts_eq rfl)

theorem run_write_stage_error {env : Env} {input : Json} {c : SOWCase}
    (h : c.stage ∉ writeAllowed) :
    ∃ m, run_write env input c = .error (.stateTransitionError m) := by
  refine ⟨stMsg c writeAllowed, ?_⟩
  unfold run_write
  rw [ensure_stage_error h]
  rfl

theorem run_review_ok {env : Env} {input : Json} {c c' : SOWCase}
    (h : run_review env input c = .ok c') :
    c.stage ∈ reviewAllowed ∧ c'.stage = .REVIEWED ∧ CaseExtends c c' := by
  unfold run_review at h
  rw [exceptBind_ok] at h
  obtain ⟨u, hu, h⟩ := h
  rw [exceptBind_ok] at h
  obtain ⟨draftArt, _, h⟩ := h
  rw [exceptBind_ok] at h
  obtain ⟨draft, _, h⟩ := h
  rw [exceptBind_ok] at h
  obtain ⟨fj, _, h⟩ := h
  rw [exceptBind_ok] at h
  obtain ⟨fps, _, h⟩ := h
  rw [exceptBind_ok] at h
  obtain ⟨findings, _, h⟩ := h
  rw [exceptPure_ok] at h
  subst h
  exact ⟨ensure_stage_ok hu, rfl,
    caseExtends_trans (caseExtends_append _ _ _ _) (caseExtends_of_artifacts_eq rfl)⟩

theorem run_review_stage_error {env : Env} {input : Json} {c : SOWCase}
    (h : c.stage ∉ reviewAllowed) :
    ∃ m, run_review env input c = .error (.stateTransitionError m) := by
  refine ⟨stMsg c reviewAllowed, ?_⟩
  unfold run_review
  rw [ensure_stage_error h]
  rfl

theorem approve_ok {env : Env} {c c' : SOWCase}
    (h : approve env c = .ok c') :
    c.stage = .REVIEWED ∧ latestReviewStatus c = some "pass" ∧
      c' = { c with stage := .APPROVED } := by
  unfold approve at h
  rw [exceptBind_ok] at h
  obtain ⟨u, hu, h⟩ := h
  rw [exceptBind_ok] at h
  obtain ⟨art, hart, h⟩ := h
  rw [exceptBind_ok] at h
  obtain ⟨⟨status, findings⟩, hrep, h⟩ := h
  rw [exceptBind_ok] at h
  obtain ⟨u2, hif, h⟩ := h
  have hpass : status = "pass" := by
    split at hif
    · cases hif
    · rename_i hne
      exact not_not.mp hne
  rw [exceptPure_ok] at h
  subst h
  have hmem := ensure_stage_ok hu
  have hstage : c.stage = .REVIEWED := by
    simpa [approveAllowed] using hmem
  refine ⟨hstage, ?_, rfl⟩
  have hlast := get_latest_artifact_ok hart
  have hpayload := asReviewReport_ok hrep
  unfold latestReviewStatus
  rw [hlast]
  simp [hpayload, hpass]

theorem approve_stage_error {env : Env} {c : SOWCase}
    (h : c.stage ∉ approveAllowed) :
    ∃ m, approve env c = .error (.stateTransitionError m) := by
  refine ⟨stMsg c approveAllowed, ?_⟩
  unfold approve
  rw [ensure_stage_error h]
  rfl

theorem create_case_ok {env : Env} {intake : Json} {c : SOWCase}
    (h : create_case env intake = .ok c) :
    c.stage = .EXTRACTED ∧ ∀ s, VersionsOk (c.artifactsGet s) := by
  unfold create_case at h
  rw [exceptBind_ok] at h
  obtain ⟨u, _, h⟩ := h
  rw [exceptBind_ok] at h
  obtain ⟨kvs, _, h⟩ := h
  obtain ⟨_, hstage, hext⟩ := run_extract_ok h
  refine ⟨hstage, fun s => (hext s).2 ?_⟩
  show VersionsOk ((alookup ([] : List (WorkflowStage × List WorkflowArtifact)) s).getD [])
  exact versionsOk_nil

end SOWWorkflowService

open SOWWorkflowService in
/-- Every step extends the artifact map append-only and preserves the
version law. -/
theorem step_extends {c c' : SOWCase} (h : Step c c') : CaseExtends c c' := by
  cases h with
  | extract env he => exact (run_extract_ok he).2.2
  | plan env input hp => exact (run_plan_ok hp).2
  | retrieve env input hr => exact (run_retrieve_ok hr).2.2
  | assemble env ha => exact (run_assemble_ok ha).2.2
  | write env input hw => exact (run_write_ok hw).2.2
  | validate env hv => exact (run_validate_ok hv).2.2
  | review env input hrv => exact (run_review_ok hrv).2.2
  | approval env hap =>
      obtain ⟨_, _, hc⟩ := approve_ok hap
      subst hc
      exact caseExtends_of_artifacts_eq rfl

open SOWWorkflowService in
/-- No handler accepts an APPROVED case. -/
theorem no_step_from_approved {c c' : SOWCase} (hst : c.stage = .APPROVED)
    (h : Step c c') : False := by
  cases h with
  | extract env he =>
      obtain ⟨m, hm⟩ := @run_extract_stage_error env c (by rw [hst]; decide)
      rw [he] at hm; cases hm
  | plan env input hp =>
      obtain ⟨e, hm⟩ := @run_plan_error_approved env input c hst
      rw [hp] at hm; cases hm
  | retrieve env input hr =>
      obtain ⟨m, hm⟩ := @run_retrieve_stage_error env input c
        (by rw [hst]; decide)
      rw [hr] at hm; cases hm
  | assemble env ha =>
      obtain ⟨m, hm⟩ := @run_assemble_stage_error env c (by rw [hst]; decide)
      rw [ha] at hm; cases hm
  | write env input hw =>
      obtain ⟨m, hm⟩ := @run_write_stage_error env input c
        (by rw [hst]; decide)
      rw [hw] at hm; cases hm
  | validate env hv =>
      obtain ⟨m, hm⟩ := @run_validate_stage_error env c (by rw [hst]; decide)
      rw [hv] at hm; cases hm
  | review env input hrv =>
      obtain ⟨m, hm⟩ := @run_review_stage_error env input c
        (by rw [hst]; decide)
      rw [hrv] at hm; cases hm
  | approval env hap =>
      obtain ⟨m, hm⟩ := @approve_stage_error env c (by rw [hst]; decide)
      rw [hap] at hm; cases hm

open SOWWorkflowService in
/-- A step that lands in APPROVED is an `approve` from a REVIEWED case whose
latest review passed, and it leaves the review history untouched. -/
theorem step_into_approved {c c' : SOWCase} (h : Step c c')
    (ha : c'.stage = .APPROVED) :
    c.stage = .REVIEWED ∧ latestReviewStatus c = some "pass" ∧
      latestReviewStatus c' = latestReviewStatus c := by
  cases h with
  | extract env he => rw [(run_extract_ok he).2.1] at ha; cases ha
  | plan env input hp => rw [(run_plan_ok hp).1] at ha; cases ha
  | retrieve env input hr => rw [(run_retrieve_ok hr).2.1] at ha; cases ha
  | assemble env ha' => rw [(run_assemble_ok ha').2.1] at ha; cases ha
  | write env input hw => rw [(run_write_ok hw).2.1] at ha; cases ha
  | validate env hv => rw [(run_validate_ok hv).2.1] at ha; cases ha
  | review env input hrv => rw [(run_review_ok hrv).2.1] at ha; cases ha
  | approval env hap =>
      obtain ⟨hrev, hpass, hc⟩ := approve_ok hap
      subst hc
      exact ⟨hrev, hpass, rfl⟩

open SOWWorkflowService in
/-- The reachability invariant backing C2 and C9: versions are lawful at
every stage, and an APPROVED case carries a passing latest review. -/
theorem reachable_inv {c : SOWCase} (h : Reachable c) :
    (∀ s, VersionsOk (c.artifactsGet s)) ∧
      (c.stage = .APPROVED → latestReviewStatus c = some "pass") := by
  induction h with
  | created env intake hc =>
      obtain ⟨hstage, hv⟩ := create_case_ok hc
      exact ⟨hv, fun ha => by rw [hstage] at ha; cases ha⟩
  | step hr hs ih =>
      refine ⟨fun s => ((step_extends hs) s).2 (ih.1 s), fun ha => ?_⟩
      obtain ⟨_, hpass, heq⟩ := step_into_approved hs ha
      rw [heq, hpass]

/-! ### A concrete end-to-end run

Used as the witness material: the completion oracle always answers `{}`
(parsed, but empty, so every extraction field falls back), the retrieval
agent always raises (so retrieval returns no candidates and the one planned
section is a `template` one that needs no evidence), and the pipeline runs
`create → plan → retrieve(allow_partial) → assemble → write(+validate) →
review → approve` to an APPROVED case. -/

namespace Demo

open SOWWorkflowService

def demoEnv : Env :=
  { nowIso := "2026-01-01T00:00:00+00:00",
    caseUuid := "11111111-1111-1111-1111-111111111111",
    llm := fun _ _ => some ((String.singleton lbrace) ++ (String.singleton rbrace)),
    ragChat := fun _ _ => none,
    osAvailable := false,
    osFetch := fun _ => none,
    hash := fun s => s }

def demoIntake : Json := .obj
  [("client_name", .str "Acme"), ("project_scope", .str "Modernize platform"),
   ("document_type", .str "SoW"), ("industry", .str "finance"),
   ("region", .str "eu")]

def demoFallbackCase : SOWCase :=
  { case_id := "", created_at := "", intake := [], stage := .INIT, artifacts := [] }

def demoPlanInput : Json := .obj
  [("sections", .arr
     [.obj [("name", .str "Scope"), ("intent", .str "Define scope"),
            ("category", .str "template"),
            ("fallback_policy", .obj
              [("min_clauses", .num 3), ("max_retries", .num 0),
               ("relaxation_order", .arr [.str "tags"])])]])]

def demoCase1 : SOWCase :=
  ((create_case demoEnv demoIntake).toOption).getD demoFallbackCase

def demoCase2 : SOWCase :=
  ((run_plan demoEnv demoPlanInput demoCase1).toOption).getD demoFallbackCase

def demoCase3 : SOWCase :=
  ((run_retrieve demoEnv (.obj [("allow_partial", .bool true)]) demoCase2).toOption).getD
    demoFallbackCase

def demoCase4 : SOWCase :=
  ((run_assemble demoEnv demoCase3).toOption).getD demoFallbackCase

def demoCase5 : SOWCase :=
  ((run_write demoEnv (.obj []) demoCase4).toOption).getD demoFallbackCase

def demoCase6 : SOWCase :=
  ((run_review demoEnv (.obj []) demoCase5).toOption).getD demoFallbackCase

def demoCase7 : SOWCase :=
  ((approve demoEnv demoCase6).toOption).getD demoFallbackCase

theorem demoCase1_ok : create_case demoEnv demoIntake = .ok demoCase1 := by rfl

theorem demoCase2_ok : run_plan demoEnv demoPlanInput demoCase1 = .ok demoCase2 := by rfl

theorem demoCase3_ok :
    run_retrieve demoEnv (.obj [("allow_partial", .bool true)]) demoCase2 =
      .ok demoCase3 := by rfl

theorem demoCase4_ok : run_assemble demoEnv demoCase3 = .ok demoCase4 := by rfl

theorem demoCase5_ok : run_write demoEnv (.obj []) demoCase4 = .ok demoCase5 := by rfl

theorem demoCase6_ok : run_review demoEnv (.obj []) demoCase5 = .ok demoCase6 := by rfl

theorem demoCase7_ok : approve demoEnv demoCase6 = .ok demoCase7 := by rfl

theorem demoCase7_reachable : Reachable demoCase7 :=
  .step (.step (.step (.step (.step (.step
    (.created demoEnv demoIntake demoCase1_ok)
    (.plan demoEnv demoPlanInput demoCase2_ok))
    (.retrieve demoEnv (.obj [("allow_partial", .bool true)]) demoCase3_ok))
    (.assemble demoEnv demoCase4_ok))
    (.write demoEnv (.obj []) demoCase5_ok))
    (.review demoEnv (.obj []) demoCase6_ok))
    (.approval demoEnv demoCase7_ok)

theorem demoCase7_stage : demoCase7.stage = .APPROVED := by rfl

/-- Idempotent re-run of WRITE on the post-write case (which is in stage
VALIDATED, because `run_write` chains into `run_validate`). -/
def demoCase5b : SOWCase :=
  ((run_write demoEnv (.obj []) demoCase5).toOption).getD demoFallbackCase

theorem demoCase5b_ok : run_write demoEnv (.obj []) demoCase5 = .ok demoCase5b := by rfl

theorem demoCase5_stage : demoCase5.stage = .VALIDATED := by rfl

end Demo

/-! ### The relaxation-loop invariants (for C3 and C8) -/

namespace SOWWorkflowService

/-- The relaxed-dimension list after `k` relaxation steps of
`_retrieve_with_fallback`: step `i` (0-based) reads
`relaxation_order[min(i, len(relaxation_order) - 1)]` and appends it unless
it is the literal `"section"`. -/
def relaxedUpTo (order : List Json) : Nat → List Json
  | 0 => []
  | k + 1 =>
      relaxedUpTo order k ++
        (match pyIdx order (min (k : Int) ((order.length : Int) - 1)) with
         | .ok key => if key ≠ .str "section" then [key] else []
         | .error _ => [])

theorem section_not_mem_relaxedUpTo (order : List Json) (k : Nat) :
    Json.str "section" ∉ relaxedUpTo order k := by
  induction k with
  | zero => simp [relaxedUpTo]
  | succ k ih =>
      simp only [relaxedUpTo, List.mem_append]
      rintro (h | h)
      · exact ih h
      · split at h
        · rename_i key hkey
          split at h
          · rename_i hne
            simp at h
            exact hne h.symm
          · cases h
        · cases h

theorem exceptOk_triple {α β γ : Type} {a1 a2 : α} {b1 b2 : β} {c1 c2 : γ}
    (h : (Except.ok (a1, b1, c1) : Except PyError (α × β × γ)) = .ok (a2, b2, c2)) :
    a1 = a2 ∧ b1 = b2 ∧ c1 = c2 := by
  injection h with h'
  exact ⟨congrArg (fun x => x.1) h', congrArg (fun x => x.2.1) h',
    congrArg (fun x => x.2.2) h'⟩

/-- The full characterization of the `_retrieve_with_fallback` loop,
established by induction over the remaining iteration budget. -/
theorem retrieveFallbackGo_spec (env : Env) (sd : SectionDefinition) (ctx : Json)
    (top_k : Int) :
    ∀ (left attempt : Nat) (relaxed : List Json) (acc : List RetrievalAttempt)
      (session prev : _) (clauses : List Json) (diag : RetrievalDiag) (sess' : Json),
      retrieveFallbackGo env sd ctx top_k left attempt relaxed acc session prev =
        .ok (clauses, diag, sess') →
      attempt + left = (sd.fallback_policy.max_retries + 1).toNat →
      acc.length = attempt →
      acc.map RetrievalAttempt.attempt = List.range' 1 attempt →
      relaxed = relaxedUpTo sd.fallback_policy.relaxation_order
        (min attempt sd.fallback_policy.max_retries.toNat) →
      (∀ a ∈ acc, (a.returned_count : Int) < sd.fallback_policy.min_clauses) →
      (∀ a, acc.getLast? = some a → a.returned_count = prev.length) →
      (∀ i a, acc[i]? = some a →
        build_retrieval_query sd ctx (relaxedUpTo sd.fallback_policy.relaxation_order
          (min i sd.fallback_policy.max_retries.toNat)) = .ok a.filters_used) →
      (diag.final_count = clauses.length ∧
       diag.attempts.length ≤ (sd.fallback_policy.max_retries + 1).toNat ∧
       diag.attempts.map RetrievalAttempt.attempt =
         List.range' 1 diag.attempts.length ∧
       (∀ a ∈ diag.attempts.dropLast,
         (a.returned_count : Int) < sd.fallback_policy.min_clauses) ∧
       (∀ a, diag.attempts.getLast? = some a →
         a.returned_count = clauses.length ∧
           ((a.returned_count : Int) ≥ sd.fallback_policy.min_clauses ∨
             diag.attempts.length = (sd.fallback_policy.max_retries + 1).toNat)) ∧
       diag.relaxed_dimensions = relaxedUpTo sd.fallback_policy.relaxation_order
         (diag.attempts.length - 1) ∧
       (∀ i a, diag.attempts[i]? = some a →
         build_retrieval_query sd ctx (relaxedUpTo sd.fallback_policy.relaxation_order
           (min i sd.fallback_policy.max_retries.toNat)) = .ok a.filters_used)) := by
  intro left
  induction left with
  | zero =>
      intro attempt relaxed acc session prev clauses diag sess' h hT hlen hnum hrel
        hbelow hlast hfilters
      unfold retrieveFallbackGo at h
      obtain ⟨h1, h2, h3⟩ := exceptOk_triple h
      subst h1
      subst h2
      have hTT : attempt = (sd.fallback_policy.max_retries + 1).toNat := by omega
      have hminTM : min attempt sd.fallback_policy.max_retries.toNat = attempt - 1 := by
        omega
      refine ⟨rfl, ?_, ?_, ?_, ?_, ?_, ?_⟩
      · simpa [hlen] using le_of_eq (hlen.trans hTT)
      · simpa [hlen] using hnum
      · intro a ha
        exact hbelow a ((List.dropLast_sublist acc).subset ha)
      · intro a ha
        exact ⟨hlast a ha, Or.inr (hlen.trans hTT)⟩
      · simpa [hlen, hminTM] using hrel
      · exact hfilters
  | succ left ih =>
      intro attempt relaxed acc session prev clauses diag sess' h hT hlen hnum hrel
        hbelow hlast hfilters
      unfold retrieveFallbackGo at h
      rw [exceptBind_ok] at h
      obtain ⟨query, hquery, h⟩ := h
      rw [exceptBind_ok] at h
      obtain ⟨⟨cls, session1⟩, hcls, h⟩ := h
      dsimp only at h
      have hattM : attempt ≤ sd.fallback_policy.max_retries.toNat := by omega
      have hminEq : min attempt sd.fallback_policy.max_retries.toNat = attempt := by
        omega
      have hnum' : (acc ++ [(⟨attempt + 1, query, cls.length⟩ :
            RetrievalAttempt)]).map
          RetrievalAttempt.attempt = List.range' 1 (attempt + 1) := by
        rw [List.map_append, hnum, List.range'_concat]
        simp [Nat.add_comm]
      have hfilters' : ∀ i a,
          (acc ++ [(⟨attempt + 1, query, cls.length⟩ :
            RetrievalAttempt)])[i]? = some a →
          build_retrieval_query sd ctx (relaxedUpTo
            sd.fallback_policy.relaxation_order
            (min i sd.fallback_policy.max_retries.toNat)) = .ok a.filters_used := by
        intro i a ha
        by_cases hi : i < acc.length
        · rw [List.getElem?_append, if_pos hi] at ha
          exact hfilters i a ha
        · have hieq : i = acc.length := by
            by_contra hne
            have : acc.length + 1 ≤ i := by omega
            rw [List.getElem?_eq_none (by simp; omega)] at ha
            cases ha
          subst hieq
          rw [List.getElem?_concat_length] at ha
          cases ha
          rw [hlen, hminEq]
          rw [hrel, hminEq] at hquery
          exact hquery
      split at h
      · -- min met: break with the freshly appended attempt
        obtain ⟨h1, h2, h3⟩ := exceptOk_triple h
        subst h1
        subst h2
        rename_i hge
        refine ⟨rfl, ?_, ?_, ?_, ?_, ?_, hfilters'⟩
        · simp only [List.length_append, List.length_cons, List.length_nil, hlen]
          omega
        · simpa [hlen] using hnum'
        · intro a ha
          rw [List.dropLast_concat] at ha
          exact hbelow a ha
        · intro a ha
          rw [List.getLast?_concat] at ha
          cases ha
          exact ⟨rfl, Or.inl hge⟩
        · simp only [List.length_append, List.length_cons, List.length_nil, hlen]
          rw [hrel, hminEq]
          congr 1
      · split at h
        · -- below the minimum with retries left: relax one dimension and loop
          rw [exceptBind_ok] at h
          obtain ⟨relax_key, hkey, h⟩ := h
          rename_i hlt hltmax
          have hattLt : attempt < sd.fallback_policy.max_retries.toNat := by
            omega
          have hrel' :
              (if relax_key ≠ Json.str "section" then relaxed ++ [relax_key]
               else relaxed) =
              relaxedUpTo sd.fallback_policy.relaxation_order
                (min (attempt + 1) sd.fallback_policy.max_retries.toNat) := by
            have hm1 : min (attempt + 1) sd.fallback_policy.max_retries.toNat =
                attempt + 1 := by omega
            rw [hm1]
            show _ = relaxedUpTo sd.fallback_policy.relaxation_order (attempt + 1)
            rw [relaxedUpTo, hkey]
            dsimp only
            rw [hminEq] at hrel
            rw [hrel.symm]
            by_cases hsec : relax_key ≠ Json.str "section"
            · rw [if_pos hsec, if_pos hsec]
            · rw [if_neg hsec, if_neg hsec]
              simp
          exact ih (attempt + 1) _ _ session1 cls clauses diag sess' h
            (by omega)
            (by simp [hlen])
            hnum'
            hrel'
            (by
              intro a ha
              rcases List.mem_append.mp ha with hmem | hmem
              · exact hbelow a hmem
              · simp at hmem
                subst hmem
                simpa using hlt)
            (by
              intro a ha
              rw [List.getLast?_concat] at ha
              cases ha
              rfl)
            hfilters'
        · -- below the minimum with the budget spent on relaxing: plain loop
          rename_i hlt hgemax
          have hattGe : sd.fallback_policy.max_retries.toNat ≤ attempt := by
            omega
          exact ih (attempt + 1) _ _ session1 cls clauses diag sess' h
            (by omega)
            (by simp [hlen])
            hnum'
            (by rw [hrel]; congr 1; omega)
            (by
              intro a ha
              rcases List.mem_append.mp ha with hmem | hmem
              · exact hbelow a hmem
              · simp at hmem
                subst hmem
                simpa using hlt)
            (by
              intro a ha
              rw [List.getLast?_concat] at ha
              cases ha
              rfl)
            hfilters'

/-- The loop invariants, projected to the entry point
`_retrieve_with_fallback` (all accumulators start empty). -/
theorem retrieve_with_fallback_spec (env : Env) (sd : SectionDefinition)
    (ctx : Json) (top_k : Int) (session : Json) (clauses : List Json)
    (diag : RetrievalDiag) (sess' : Json)
    (h : retrieve_with_fallback env sd ctx top_k session =
      .ok (clauses, diag, sess')) :
    diag.final_count = clauses.length ∧
    diag.attempts.length ≤ (sd.fallback_policy.max_retries + 1).toNat ∧
    diag.attempts.map RetrievalAttempt.attempt =
      List.range' 1 diag.attempts.length ∧
    (∀ a ∈ diag.attempts.dropLast,
      (a.returned_count : Int) < sd.fallback_policy.min_clauses) ∧
    (∀ a, diag.attempts.getLast? = some a →
      a.returned_count = clauses.length ∧
        ((a.returned_count : Int) ≥ sd.fallback_policy.min_clauses ∨
          diag.attempts.length = (sd.fallback_policy.max_retries + 1).toNat)) ∧
    diag.relaxed_dimensions = relaxedUpTo sd.fallback_policy.relaxation_order
      (diag.attempts.length - 1) ∧
    (∀ i a, diag.attempts[i]? = some a →
      build_retrieval_query sd ctx (relaxedUpTo sd.fallback_policy.relaxation_order
        (min i sd.fallback_policy.max_retries.toNat)) = .ok a.filters_used) := by
  refine retrieveFallbackGo_spec env sd ctx top_k
    (sd.fallback_policy.max_retries + 1).toNat 0 [] [] session [] clauses diag
    sess' h (by omega) rfl rfl ?_ ?_ ?_ ?_
  · simp [relaxedUpTo]
  · intro a ha
    cases ha
  · intro a ha
    cases ha
  · intro i a ha
    cases ha

theorem okBind {ε α β : Type} (a : α) (f : α → Except ε β) :
    (Except.ok a : Except ε α) >>= f = f a := rfl

/-- `x.get(...)` never raises on a dict, so `_build_retrieval_query` with a
dict context raises only from `set(relaxed_dimensions or [])` — never when
every relaxed dimension is hashable. -/
theorem build_retrieval_query_obj_ok (sd : SectionDefinition)
    (kvs : List (String × Json)) (relaxed : List Json)
    (hhash : relaxed.all pyHashable = true) :
    ∃ q, build_retrieval_query sd (.obj kvs) relaxed = .ok q := by
  unfold build_retrieval_query
  rw [show pySet relaxed = .ok relaxed from by unfold pySet; rw [if_pos hhash]]
  rw [okBind]
  exact ⟨_, rfl⟩

/-- An in-range index returns an element of the list. -/
theorem pyIdx_mem {l : List Json} {i : Int} {k : Json}
    (h : pyIdx l i = .ok k) : k ∈ l := by
  unfold pyIdx at h
  dsimp only at h
  split at h <;> split at h
  · cases h
    exact List.get_mem _ _ _
  · cases h
  · cases h
    exact List.get_mem _ _ _
  · cases h

/-- A list index that is in range never raises. -/
theorem pyIdx_ok (l : List Json) (i : Int) (h0 : 0 ≤ i)
    (hl : i.toNat < l.length) : ∃ k, pyIdx l i = .ok k := by
  simp [pyIdx, h0, hl]

/-- No-raise induction for the fallback loop: when the extracted context is
a dict, the relaxation list is non-empty and every knowledge-service call
returns, every iteration returns. -/
theorem retrieveFallbackGo_isOk (env : Env) (sd : SectionDefinition)
    (kvs : List (String × Json)) (top_k : Int)
    (hr : ∀ q s, ∃ r, KnowledgeAccessService.retrieve_section_clauses env
      sd.name q (.obj []) top_k false true s = .ok r)
    (horder : sd.fallback_policy.relaxation_order ≠ [])
    (horderH : ∀ x ∈ sd.fallback_policy.relaxation_order,
      pyHashable x = true) :
    ∀ (left attempt : Nat) (relaxed : List Json) (acc : List RetrievalAttempt)
      (session : Json) (prev : List Json),
      (∀ x ∈ relaxed, pyHashable x = true) →
      ∃ out, retrieveFallbackGo env sd (.obj kvs) top_k left attempt relaxed
        acc session prev = .ok out := by
  intro left
  induction left with
  | zero =>
      intro attempt relaxed acc session prev hrelH
      exact ⟨_, rfl⟩
  | succ left ih =>
      intro attempt relaxed acc session prev hrelH
      obtain ⟨q, hq⟩ := build_retrieval_query_obj_ok sd kvs relaxed
        (List.all_eq_true.mpr hrelH)
      obtain ⟨⟨cls, session1⟩, hcls⟩ := hr q session
      unfold retrieveFallbackGo
      rw [hq, okBind, hcls, okBind]
      dsimp only
      by_cases hge : (cls.length : Int) ≥ sd.fallback_policy.min_clauses
      · rw [if_pos hge]
        exact ⟨_, rfl⟩
      · rw [if_neg hge]
        by_cases hlt : (attempt : Int) < sd.fallback_policy.max_retries
        · rw [if_pos hlt]
          have hlen1 : 1 ≤ sd.fallback_policy.relaxation_order.length := by
            cases hord : sd.fallback_policy.relaxation_order with
            | nil => exact absurd hord horder
            | cons x xs => simp [hord]
          obtain ⟨key, hkey⟩ := pyIdx_ok sd.fallback_policy.relaxation_order
            (min (attempt : Int)
              ((sd.fallback_policy.relaxation_order.length : Int) - 1))
            (by omega) (by omega)
          rw [hkey, okBind]
          refine ih (attempt + 1) _ _ session1 cls ?_
          intro x hx
          split at hx
          · rcases List.mem_append.mp hx with hm | hm
            · exact hrelH x hm
            · rw [List.mem_singleton.mp hm]
              exact horderH key (pyIdx_mem hkey)
          · exact hrelH x hx
        · rw [if_neg hlt]
          exact ih (attempt + 1) relaxed _ session1 cls hrelH

/-- No-raise corollary for the entry point. -/
theorem retrieve_with_fallback_isOk (env : Env) (sd : SectionDefinition)
    (kvs : List (String × Json)) (top_k : Int) (session : Json)
    (hr : ∀ q s, ∃ r, KnowledgeAccessService.retrieve_section_clauses env
      sd.name q (.obj []) top_k false true s = .ok r)
    (horder : sd.fallback_policy.relaxation_order ≠ [])
    (horderH : ∀ x ∈ sd.fallback_policy.relaxation_order,
      pyHashable x = true) :
    ∃ out, retrieve_with_fallback env sd (.obj kvs) top_k session = .ok out :=
  retrieveFallbackGo_isOk env sd kvs top_k hr horder horderH
    (sd.fallback_policy.max_retries + 1).toNat 0 [] [] session []
    (fun x hx => absurd hx (List.not_mem_nil x))

/-! Dict-update lemmas for the TBD fallback payload. -/

theorem lookupKey_setKey_self (l : List (String × Json)) (k : String) (v : Json) :
    Json.lookupKey (Json.setKey l k v) k = some v := by
  induction l with
  | nil => simp [Json.setKey, Json.lookupKey]
  | cons kv rest ih =>
      obtain ⟨k1, v1⟩ := kv
      by_cases hk : k1 = k
      · subst hk
        simp [Json.setKey, Json.lookupKey]
      · simp [Json.setKey, Json.lookupKey, hk, ih]

theorem lookupKey_setKey_other (l : List (String × Json)) (k k' : String)
    (v : Json) (hne : k' ≠ k) :
    Json.lookupKey (Json.setKey l k v) k' = Json.lookupKey l k' := by
  induction l with
  | nil => simp [Json.setKey, Json.lookupKey, Ne.symm hne]
  | cons kv rest ih =>
      obtain ⟨k1, v1⟩ := kv
      by_cases hk : k1 = k
      · subst hk
        simp [Json.setKey, Json.lookupKey, Ne.symm hne]
      · simp [Json.setKey, Json.lookupKey, hk, ih]

theorem lookupKey_map_tbd (kvs : List (String × Json)) (k : String) (v : Json)
    (h : Json.lookupKey kvs k = some v) :
    Json.lookupKey (kvs.map fun kv => (kv.1,
      if kv.2.isArr then Json.arr [.str "TBD"] else Json.str "TBD")) k =
      some (if v.isArr then Json.arr [.str "TBD"] else Json.str "TBD") := by
  induction kvs with
  | nil => cases h
  | cons kv rest ih =>
      obtain ⟨k1, v1⟩ := kv
      by_cases hk : k1 = k
      · subst hk
        simp [Json.lookupKey] at h
        simp [Json.lookupKey, h]
      · simp [Json.lookupKey, hk] at h ⊢
        exact ih h

/-- Field-level reading of `_build_tbd_output`: `action_items` carries the
two next-step strings, and every schema field maps to `"TBD"`
(`["TBD"]` when the schema default is a list). -/
theorem build_tbd_output_fields (sd : SectionDefinition)
    (kvs : List (String × Json)) (out : Json)
    (hschema : sd.output_schema = .obj kvs)
    (h : build_tbd_output sd = .ok out) :
    out.attrGet "action_items" = .ok (.arr
      [.str "Refine clause filters and retry retrieval.",
       .str "Provide additional intake details for missing required fields."]) ∧
    (∀ k v, k ≠ "action_items" → Json.lookupKey kvs k = some v →
      out.attrGet k =
        .ok (if v.isArr then Json.arr [.str "TBD"] else Json.str "TBD")) := by
  unfold build_tbd_output at h
  rw [hschema] at h
  rw [exceptBind_ok] at h
  obtain ⟨kvs2, hkvs, h⟩ := h
  have hk2 : kvs2 = kvs := by
    have : (Json.obj kvs).items = .ok kvs := rfl
    rw [this] at hkvs
    cases hkvs
    rfl
  subst hk2
  dsimp only at h
  rw [exceptPure_ok] at h
  subst h
  constructor
  · simp [Json.attrGet, lookupKey_setKey_self]
  · intro k v hk hv
    show Except.ok ((Json.lookupKey (Json.setKey _ "action_items" _) k).getD .null) = _
    rw [lookupKey_setKey_other _ _ _ _ hk]
    rw [lookupKey_map_tbd kvs2 k v hv]
    rfl

/-- The loop invariants of `_write_with_validation_retry`: attempts are
numbered `1, 2, ...`, the loop continues exactly while validation fails and
the budget lasts, and an all-fail run ends with the TBD fallback. -/
theorem writeRetryGo_spec (env : Env) (sd : SectionDefinition)
    (section_name section_intent : String) (style : Json)
    (intake : List (String × Json)) (ctx : Json) :
    ∀ (left attempt : Nat) (candidates : List Json)
      (attempts : List WriteAttempt) (session : Json) (out : Json)
      (diag : WriteDiag) (sess' : Json),
      writeRetryGo env sd section_name section_intent style intake ctx left
        attempt candidates attempts session = .ok (out, diag, sess') →
      attempt + left = (sd.fallback_policy.max_retries + 1).toNat →
      attempts.length = attempt →
      attempts.map WriteAttempt.attempt = List.range' 1 attempt →
      (∀ a ∈ attempts, a.passed = false) →
      (diag.attempts.length ≤ (sd.fallback_policy.max_retries + 1).toNat ∧
       diag.attempts.map WriteAttempt.attempt =
         List.range' 1 diag.attempts.length ∧
       (∀ a ∈ diag.attempts.dropLast, a.passed = false) ∧
       (∀ a, diag.attempts.getLast? = some a →
         a.passed = true ∨
           diag.attempts.length = (sd.fallback_policy.max_retries + 1).toNat) ∧
       ((∀ a ∈ diag.attempts, a.passed = false) →
         diag.attempts.length = (sd.fallback_policy.max_retries + 1).toNat ∧
         build_tbd_output sd = .ok out)) := by
  intro left
  induction left with
  | zero =>
      intro attempt candidates attempts session out diag sess' h hT hlen hnum hfail
      unfold writeRetryGo at h
      rw [exceptBind_ok] at h
      obtain ⟨tbd, htbd, h⟩ := h
      obtain ⟨h1, h2, h3⟩ := exceptOk_triple h
      subst h1
      subst h2
      refine ⟨?_, ?_, ?_, ?_, ?_⟩
      · exact le_of_eq (hlen.trans (by omega))
      · simpa [hlen] using hnum
      · intro a ha
        exact hfail a ((List.dropLast_sublist attempts).subset ha)
      · intro a ha
        exact Or.inr (hlen.trans (by omega))
      · intro hall
        exact ⟨hlen.trans (by omega), htbd⟩
  | succ left ih =>
      intro attempt candidates attempts session out diag sess' h hT hlen hnum hfail
      unfold writeRetryGo at h
      dsimp only at h
      rw [exceptBind_ok] at h
      obtain ⟨output, hout, h⟩ := h
      rw [exceptBind_ok] at h
      obtain ⟨⟨valid, reasons⟩, hval, h⟩ := h
      dsimp only at h
      have hnum' : ∀ (rr : Option RetrievalDiag) (b : Bool),
          (attempts ++ [(⟨attempt + 1, resolve_writer_mode sd.category, b,
            reasons, rr⟩ : WriteAttempt)]).map WriteAttempt.attempt =
            List.range' 1 (attempt + 1) := by
        intro rr b
        rw [List.map_append, hnum, List.range'_concat]
        simp [Nat.add_comm]
      split at h
      · rename_i hvalid
        obtain ⟨h1, h2, h3⟩ := exceptOk_triple h
        subst h1
        subst h2
        refine ⟨?_, ?_, ?_, ?_, ?_⟩
        · simp only [List.length_append, List.length_cons, List.length_nil, hlen]
          omega
        · simpa [hlen] using hnum' none valid
        · intro a ha
          rw [List.dropLast_concat] at ha
          exact hfail a ha
        · intro a ha
          rw [List.getLast?_concat] at ha
          cases ha
          exact Or.inl hvalid
        · intro hall
          exfalso
          have hx := hall _ (List.mem_append_right _ (List.mem_singleton_self _))
          rw [show (⟨attempt + 1, resolve_writer_mode sd.category, valid,
            reasons, none⟩ : WriteAttempt).passed = valid from rfl] at hx
          rw [hvalid] at hx
          cases hx
      · rename_i hvalid
        rw [exceptBind_ok] at h
        obtain ⟨⟨clauses, rdiag, session1⟩, hret, h⟩ := h
        rw [exceptBind_ok] at h
        obtain ⟨reranked, hrr, h⟩ := h
        have hvf : valid = false := by
          cases valid
          · rfl
          · exact absurd rfl hvalid
        exact ih (attempt + 1) _ _ session1 out diag sess' h
          (by omega)
          (by simp [hlen])
          (hnum' (some rdiag) valid)
          (by
            intro a ha
            rcases List.mem_append.mp ha with hmem | hmem
            · exact hfail a hmem
            · simp at hmem
              subst hmem
              exact hvf)

/-! Accumulation lemmas for `validate_section_output` (C7): each pass keeps
what is already in the accumulator and appends a message for each violated
rule it checks. -/

theorem requiredReasons_spec (out : Json) :
    ∀ (fields : List Json) (acc res : List String),
      requiredReasons out fields acc = .ok res →
      (∀ x ∈ acc, x ∈ res) ∧
      (∀ s, .str s ∈ fields → json_path_non_empty out s = false →
        ("required field missing/empty: " ++ s) ∈ res) := by
  intro fields
  induction fields with
  | nil =>
      intro acc res h
      cases h
      exact ⟨fun x hx => hx, fun s hs => absurd hs (by simp)⟩
  | cons p rest ih =>
      intro acc res h
      cases p with
      | str s =>
          unfold requiredReasons at h
          obtain ⟨ihmono, ihcomp⟩ := ih _ res h
          constructor
          · intro x hx
            apply ihmono
            split
            · exact hx
            · exact List.mem_append_left _ hx
          · intro t ht hviol
            rcases List.mem_cons.mp ht with heq | hmem
            · cases heq
              apply ihmono
              rw [hviol]
              simp
            · exact ihcomp t hmem hviol
      | null => cases h
      | bool b => cases h
      | num q => cases h
      | arr xs => cases h
      | obj kvs => cases h

theorem minContentReasons_spec (out : Json) :
    ∀ (items : List (String × Json)) (acc res : List String),
      minContentReasons out items acc = .ok res →
      (∀ x ∈ acc, x ∈ res) ∧
      (∀ k v, (k, v) ∈ items →
        ∀ value mwJ mw miJ mi,
          out.attrGet k = .ok value →
          (Json.pyOr v (.obj [])).attrGetD "min_words" (.num 0) = .ok mwJ →
          pyInt mwJ = .ok mw →
          (Json.pyOr v (.obj [])).attrGetD "min_items" (.num 0) = .ok miJ →
          pyInt miJ = .ok mi →
          (minWordsViolation value mw = true →
            ("field '" ++ k ++ "' below min_words=" ++ toString mw) ∈ res) ∧
          (minItemsViolation value mi = true →
            ("field '" ++ k ++ "' below min_items=" ++ toString mi) ∈ res)) := by
  intro items
  induction items with
  | nil =>
      intro acc res h
      cases h
      exact ⟨fun x hx => hx, fun k v hkv => absurd hkv (by simp)⟩
  | cons kv rest ih =>
      intro acc res h
      unfold minContentReasons at h
      rw [exceptBind_ok] at h
      obtain ⟨value1, hval1, h⟩ := h
      rw [exceptBind_ok] at h
      obtain ⟨mwJ1, hmwJ1, h⟩ := h
      rw [exceptBind_ok] at h
      obtain ⟨mw1, hmw1, h⟩ := h
      rw [exceptBind_ok] at h
      obtain ⟨miJ1, hmiJ1, h⟩ := h
      rw [exceptBind_ok] at h
      obtain ⟨mi1, hmi1, h⟩ := h
      dsimp only at h
      obtain ⟨ihmono, ihcomp⟩ := ih _ res h
      have hmono : ∀ x ∈ acc, x ∈ res := by
        intro x hx
        apply ihmono
        split
        · split
          · exact List.mem_append_left _ (List.mem_append_left _ hx)
          · exact List.mem_append_left _ hx
        · split
          · exact List.mem_append_left _ hx
          · exact hx
      refine ⟨hmono, ?_⟩
      intro k v hkvmem value mwJ mw miJ mi hvalue hmwJ hmw hmiJ hmi
      rcases List.mem_cons.mp hkvmem with heq | hmem
      · cases heq
        rw [hval1] at hvalue
        cases hvalue
        rw [hmwJ1] at hmwJ
        cases hmwJ
        rw [hmw1] at hmw
        cases hmw
        rw [hmiJ1] at hmiJ
        cases hmiJ
        rw [hmi1] at hmi
        cases hmi
        constructor
        · intro hviol
          apply ihmono
          rw [hviol]
          split
          · simp
          · simp
        · intro hviol
          apply ihmono
          rw [hviol]
          simp
      · exact ihcomp k v hmem value mwJ mw miJ mi hvalue hmwJ hmw hmiJ hmi

theorem serviceReasons_spec (allowed : List String) :
    ∀ (services acc : List String),
      (∀ x ∈ acc, x ∈ serviceReasons allowed services acc) ∧
      (∀ s ∈ services, allowed.isEmpty = false →
        allowed.contains (pyLower s) = false →
        ("service '" ++ s ++ "' is not in allowed_services") ∈
          serviceReasons allowed services acc) := by
  intro services
  induction services with
  | nil =>
      intro acc
      exact ⟨fun x hx => hx, fun s hs => absurd hs (by simp)⟩
  | cons sv rest ih =>
      intro acc
      unfold serviceReasons
      obtain ⟨ihmono, ihcomp⟩ := ih
        (if ¬ allowed.isEmpty ∧ ¬ allowed.contains (pyLower sv) then
          acc ++ ["service '" ++ sv ++ "' is not in allowed_services"]
        else acc)
      constructor
      · intro x hx
        apply ihmono
        split
        · exact List.mem_append_left _ hx
        · exact hx
      · intro s hs hne hcon
        rcases List.mem_cons.mp hs with heq | hmem
        · subst heq
          apply ihmono
          rw [if_pos ⟨by rw [hne]; simp, by rw [hcon]; simp⟩]
          simp
        · exact ihcomp s hmem hne hcon

theorem technicalReasons_spec (out ctx : Json) (acc0 res : List String)
    (h : technicalReasons out ctx acc0 = .ok res) :
    (∀ x ∈ acc0, x ∈ res) ∧
    (∀ ctxAp e1 outAp a1,
      ctx.attrGet "architecture_pattern" = .ok ctxAp →
      asPyStr (Json.pyOr ctxAp (.str "")) = .ok e1 →
      out.attrGet "architecture_pattern" = .ok outAp →
      asPyStr (Json.pyOr outAp (.str "")) = .ok a1 →
      pyLower (pyStrip e1) ≠ "" →
      pyLower (pyStrip a1) ≠ "" →
      pyLower (pyStrip e1) ≠ pyLower (pyStrip a1) →
      "technical architecture_pattern mismatch with extractedContext" ∈ res) ∧
    (∀ allowed services,
      allowedServicesLower ctx = .ok allowed →
      extract_services_from_section out = .ok services →
      ∀ s ∈ services, allowed.isEmpty = false →
        allowed.contains (pyLower s) = false →
        ("service '" ++ s ++ "' is not in allowed_services") ∈ res) := by
  unfold technicalReasons at h
  rw [exceptBind_ok] at h
  obtain ⟨ctxAp1, hctxAp1, h⟩ := h
  rw [exceptBind_ok] at h
  obtain ⟨e11, he11, h⟩ := h
  rw [exceptBind_ok] at h
  obtain ⟨outAp1, houtAp1, h⟩ := h
  rw [exceptBind_ok] at h
  obtain ⟨a11, ha11, h⟩ := h
  dsimp only at h
  rw [exceptBind_ok] at h
  obtain ⟨allowed1, hallowed1, h⟩ := h
  rw [exceptBind_ok] at h
  obtain ⟨services1, hservices1, h⟩ := h
  rw [exceptPure_ok] at h
  subst h
  have hmono : ∀ x, x ∈ (if pyLower (pyStrip e11) ≠ "" ∧
      pyLower (pyStrip a11) ≠ "" ∧
      pyLower (pyStrip e11) ≠ pyLower (pyStrip a11) then
        acc0 ++ ["technical architecture_pattern mismatch with extractedContext"]
      else acc0) →
      x ∈ serviceReasons allowed1 services1 _ :=
    fun x hx => (serviceReasons_spec allowed1 services1 _).1 x hx
  refine ⟨?_, ?_, ?_⟩
  · intro x hx
    apply hmono
    split
    · exact List.mem_append_left _ hx
    · exact hx
  · intro ctxAp e1 outAp a1 hctxAp he1 houtAp ha1 hne1 hne2 hnem
    rw [hctxAp1] at hctxAp
    cases hctxAp
    rw [he11] at he1
    cases he1
    rw [houtAp1] at houtAp
    cases houtAp
    rw [ha11] at ha1
    cases ha1
    apply hmono
    rw [if_pos ⟨hne1, hne2, hnem⟩]
    simp
  · intro allowed services hallowed hservices s hs hne hcon
    rw [hallowed1] at hallowed
    cases hallowed
    rw [hservices1] at hservices
    cases hservices
    exact (serviceReasons_spec allowed1 services1 _).2 s hs hne hcon

/-- `validate_section_output` decomposed into its three passes. -/
theorem validate_spec (sd : SectionDefinition) (out ctx : Json)
    (ok : Bool) (reasons : List String)
    (h : validate_section_output sd out ctx = .ok (ok, reasons)) :
    ok = reasons.isEmpty ∧
    ∃ r1 mcItems r2,
      requiredReasons out sd.required_fields [] = .ok r1 ∧
      (Json.pyOr sd.min_content (.obj [])).items = .ok mcItems ∧
      minContentReasons out mcItems r1 = .ok r2 ∧
      ((sd.category = "technical" ∧
          technicalReasons out ctx r2 = .ok reasons) ∨
       (¬ sd.category = "technical" ∧ reasons = r2)) := by
  unfold validate_section_output at h
  rw [exceptBind_ok] at h
  obtain ⟨v1, hr1, h⟩ := h
  rw [exceptBind_ok] at h
  obtain ⟨vmc, hmc, h⟩ := h
  rw [exceptBind_ok] at h
  obtain ⟨v2, hr2, h⟩ := h
  split at h
  · rename_i hcat
    rw [exceptBind_ok] at h
    obtain ⟨rs, hrs, h⟩ := h
    rw [exceptPure_ok] at h
    cases h
    exact ⟨rfl, v1, vmc, v2, hr1, hmc, hr2, Or.inl ⟨hcat, hrs⟩⟩
  · rename_i hcat
    have h' : (Except.ok (v2.isEmpty, v2) :
        Except PyError (Bool × List String)) = .ok (ok, reasons) := h
    cases h'
    exact ⟨rfl, v1, vmc, reasons, hr1, hmc, hr2, Or.inr ⟨hcat, rfl⟩⟩

end SOWWorkflowService

/-! ### The extraction pipeline (for C4) -/

theorem Json_isObj_exists (j : Json) (h : j.isObj = true) :
    ∃ kvs, j = .obj kvs := by
  cases j with
  | obj kvs => exact ⟨kvs, rfl⟩
  | null => simp [Json.isObj] at h
  | bool b => simp [Json.isObj] at h
  | num q => simp [Json.isObj] at h
  | str s => simp [Json.isObj] at h
  | arr xs => simp [Json.isObj] at h

namespace KnowledgeAccessService

/-- A citation on which `processCitation` cannot raise: its
`source_location` value (after `or {}`) is a dict.  Non-dict citations are
wrapped into `{"raw": ...}` and are always safe. -/
def citationSafe : Json → Bool
  | .obj kvs => (Json.pyOr ((Json.lookupKey kvs "source_location").getD .null)
      (.obj [])).isObj
  | _ => true

/-- `processCitation` only looks at the dict form of the citation. -/
theorem processCitation_eq (env : Env) (min_text_len idx : Nat)
    (seen : List String) (c : Json) :
    processCitation env min_text_len idx seen c =
      processCitation env min_text_len idx seen (.obj
        (match c with
         | .obj kvs => kvs
         | _ => [("raw", .str (pyStr c))])) := by
  cases c <;> rfl

set_option maxHeartbeats 2000000 in
theorem processCitation_obj_ok (env : Env) (min_text_len idx : Nat)
    (seen : List String) (kvs : List (String × Json))
    (hsafe : (Json.pyOr ((Json.lookupKey kvs "source_location").getD .null)
      (.obj [])).isObj = true) :
    ∃ r, processCitation env min_text_len idx seen (.obj kvs) = .ok r := by
  obtain ⟨skvs, hskvs⟩ := Json_isObj_exists _ hsafe
  unfold processCitation
  dsimp only
  rw [hskvs]
  dsimp only [Json.attrGet]
  rw [SOWWorkflowService.okBind]
  repeat' split
  all_goals exact ⟨_, rfl⟩

theorem processCitation_ok (env : Env) (min_text_len idx : Nat)
    (seen : List String) (c : Json) (hc : citationSafe c = true) :
    ∃ r, processCitation env min_text_len idx seen c = .ok r := by
  rw [processCitation_eq]
  cases c with
  | obj kvs => exact processCitation_obj_ok env min_text_len idx seen kvs hc
  | null => exact processCitation_obj_ok env min_text_len idx seen _ rfl
  | bool b => exact processCitation_obj_ok env min_text_len idx seen _ rfl
  | num q => exact processCitation_obj_ok env min_text_len idx seen _ rfl
  | str s => exact processCitation_obj_ok env min_text_len idx seen _ rfl
  | arr xs => exact processCitation_obj_ok env min_text_len idx seen _ rfl

theorem citationLoop_ok (env : Env) (min_text_len : Nat) :
    ∀ (cites : List Json) (idx : Nat) (seen : List String),
      (∀ c ∈ cites, citationSafe c = true) →
      ∃ r, citationLoop env min_text_len cites idx seen = .ok r := by
  intro cites
  induction cites with
  | nil =>
      intro idx seen h
      exact ⟨[], rfl⟩
  | cons c rest ih =>
      intro idx seen h
      obtain ⟨⟨seen1, cand?⟩, hpc⟩ :=
        processCitation_ok env min_text_len idx seen c (h c (List.mem_cons_self c rest))
      obtain ⟨tail, htail⟩ :=
        ih (idx + 1) seen1 (fun x hx => h x (List.mem_cons_of_mem c hx))
      refine ⟨(match cand? with | some c => c :: tail | none => tail), ?_⟩
      unfold citationLoop
      simp only [hpc, SOWWorkflowService.okBind]
      simp only [htail, SOWWorkflowService.okBind]
      cases cand? <;> rfl

/-- `extract_candidates_from_agent_response` reads only the normalized
`citations` value of the response. -/
theorem extract_obj (env : Env) (kvs : List (String × Json))
    (min_text_len : Nat) :
    extract_candidates_from_agent_response env (.obj kvs) min_text_len =
      (Json.pyOr ((Json.lookupKey kvs "citations").getD (.arr []))
        (.arr [])).pyIter >>= fun cites =>
          citationLoop env min_text_len cites 1 [] := by
  cases kvs with
  | nil => rfl
  | cons kv rest => rfl

/-- Two responses with the same `citations` value extract identically: the
answer text plays no part. -/
theorem extract_eq_citations (env : Env) (kvs : List (String × Json))
    (min_text_len : Nat) :
    extract_candidates_from_agent_response env (.obj kvs) min_text_len =
      extract_candidates_from_agent_response env
        (.obj [("citations", (Json.lookupKey kvs "citations").getD .null)])
        min_text_len := by
  rw [extract_obj, extract_obj]
  cases h : Json.lookupKey kvs "citations" with
  | none => rfl
  | some w => rfl

/-- No-raise: a response whose `citations` value normalizes to a list of
safe citations extracts without raising. -/
theorem extract_candidates_ok (env : Env) (kvs : List (String × Json))
    (min_text_len : Nat) (cites : List Json)
    (hcit : Json.pyOr ((Json.lookupKey kvs "citations").getD (.arr []))
      (.arr []) = .arr cites)
    (hsafe : ∀ c ∈ cites, citationSafe c = true) :
    ∃ cands, extract_candidates_from_agent_response env (.obj kvs)
      min_text_len = .ok cands := by
  obtain ⟨r, hr⟩ := citationLoop_ok env min_text_len cites 1 [] hsafe
  refine ⟨r, ?_⟩
  rw [extract_obj, hcit]
  rw [show (Json.arr cites).pyIter = .ok cites from rfl,
    SOWWorkflowService.okBind, hr]

end KnowledgeAccessService

/-! ### The claims -/

open SOWWorkflowService

/-- **C1** (amended).  Every stage handler guards with `_ensure_stage`
against a fixed allowed-stage set and raises `StateTransitionError` whenever
the case's current stage is outside that set (for `run_plan`, once the
structured context has been extracted; with it missing, the handler first
re-runs EXTRACT).  The sets are exactly {immediate predecessor, itself} for
`run_extract`, `run_plan`, `run_retrieve`, `run_validate` and `run_review` —
but not for the other three: `run_assemble` also accepts RETRIEVED,
`run_write` also accepts VALIDATED, and `approve` accepts only REVIEWED
(never APPROVED itself). -/
theorem claim_C1 :
    (∀ (env : Env) (c : SOWCase), c.stage ∉ extractAllowed →
      ∃ m, run_extract env c = .error (.stateTransitionError m)) ∧
    (∀ (env : Env) (input : Json) (c : SOWCase),
      (Json.lookupKey c.intake "structured_context").isSome →
      c.stage ∉ planAllowed →
      ∃ m, run_plan env input c = .error (.stateTransitionError m)) ∧
    (∀ (env : Env) (input : Json) (c : SOWCase), c.stage ∉ retrieveAllowed →
      ∃ m, run_retrieve env input c = .error (.stateTransitionError m)) ∧
    (∀ (env : Env) (c : SOWCase), c.stage ∉ assembleAllowed →
      ∃ m, run_assemble env c = .error (.stateTransitionError m)) ∧
    (∀ (env : Env) (input : Json) (c : SOWCase), c.stage ∉ writeAllowed →
      ∃ m, run_write env input c = .error (.stateTransitionError m)) ∧
    (∀ (env : Env) (c : SOWCase), c.stage ∉ validateAllowed →
      ∃ m, run_validate env c = .error (.stateTransitionError m)) ∧
    (∀ (env : Env) (input : Json) (c : SOWCase), c.stage ∉ reviewAllowed →
      ∃ m, run_review env input c = .error (.stateTransitionError m)) ∧
    (∀ (env : Env) (c : SOWCase), c.stage ∉ approveAllowed →
      ∃ m, approve env c = .error (.stateTransitionError m)) ∧
    extractAllowed = specAllowed .EXTRACTED ∧
    planAllowed = specAllowed .PLAN_READY ∧
    retrieveAllowed = specAllowed .RETRIEVED ∧
    validateAllowed = specAllowed .VALIDATED ∧
    reviewAllowed = specAllowed .REVIEWED ∧
    assembleAllowed ≠ specAllowed .ASSEMBLED ∧
    writeAllowed ≠ specAllowed .DRAFTED ∧
    approveAllowed ≠ specAllowed .APPROVED := by
  refine ⟨fun env c h => run_extract_stage_error h,
    fun env input c hctx h => run_plan_stage_error hctx h,
    fun env input c h => run_retrieve_stage_error h,
    fun env c h => run_assemble_stage_error h,
    fun env input c h => run_write_stage_error h,
    fun env c h => run_validate_stage_error h,
    fun env input c h => run_review_stage_error h,
    fun env c h => approve_stage_error h,
    by decide, by decide, by decide, by decide, by decide, by decide, by decide,
    by decide⟩

/-- Witness for C1: the handlers do raise on out-of-set stages — EXTRACT on
the APPROVED demo case is rejected with a `StateTransitionError`. -/
theorem claim_C1_witness :
    Demo.demoCase7.stage ∉ extractAllowed ∧
      (run_extract Demo.demoEnv Demo.demoCase7).isOk = false := by
  have hstage : Demo.demoCase7.stage = .APPROVED := Demo.demoCase7_stage
  have hnot : Demo.demoCase7.stage ∉ extractAllowed := by rw [hstage]; decide
  refine ⟨hnot, ?_⟩
  obtain ⟨m, hm⟩ := claim_C1.1 Demo.demoEnv Demo.demoCase7 hnot
  rw [hm]
  rfl

/-- **C1 counterexample.**  The claim says each handler accepts exactly the
target stage's immediate predecessor or the target stage itself.  But
`run_write` (target stage DRAFTED, immediately followed by its chained
VALIDATED) succeeds on a case whose current stage is VALIDATED, which is
outside the spec set {ASSEMBLED, DRAFTED}; and `approve` (target APPROVED)
rejects a case already in APPROVED even though APPROVED is in the spec set
{REVIEWED, APPROVED}. -/
theorem claim_C1_counterexample :
    Demo.demoCase5.stage = .VALIDATED ∧
    (WorkflowStage.VALIDATED ∈ writeAllowed) ∧
    (WorkflowStage.VALIDATED ∉ specAllowed .DRAFTED) ∧
    run_write Demo.demoEnv (.obj []) Demo.demoCase5 = .ok Demo.demoCase5b ∧
    Demo.demoCase7.stage = .APPROVED ∧
    (WorkflowStage.APPROVED ∈ specAllowed .APPROVED) ∧
    approve Demo.demoEnv Demo.demoCase7 =
      .error (.stateTransitionError (stMsg Demo.demoCase7 approveAllowed)) := by
  refine ⟨Demo.demoCase5_stage, by decide, by decide, Demo.demoCase5b_ok,
    Demo.demoCase7_stage, by decide, ?_⟩
  have h : Demo.demoCase7.stage ∉ approveAllowed := by
    rw [Demo.demoCase7_stage]; decide
  unfold approve
  rw [ensure_stage_error h]
  rfl

/-- **C2.**  APPROVED is terminal (no handler accepts an APPROVED case);
it is reached only by `approve` on a REVIEWED case whose latest REVIEWED
artifact's review_report status is `"pass"`; and consequently every
reachable APPROVED case carries a passing latest review status. -/
theorem claim_C2 :
    (∀ c : SOWCase, Reachable c → c.stage = .APPROVED →
      latestReviewStatus c = some "pass") ∧
    (∀ c c' : SOWCase, c.stage = .APPROVED → ¬ Step c c') ∧
    (∀ (env : Env) (c c' : SOWCase), approve env c = .ok c' →
      c.stage = .REVIEWED ∧ latestReviewStatus c = some "pass" ∧
        c'.stage = .APPROVED) := by
  refine ⟨fun c hr ha => (reachable_inv hr).2 ha,
    fun c c' ha hs => no_step_from_approved ha hs,
    fun env c c' h => ?_⟩
  obtain ⟨h1, h2, h3⟩ := approve_ok h
  subst h3
  exact ⟨h1, h2, rfl⟩

/-- Witness for C2 on the concrete demo run: the approved demo case is
reachable and its latest review status is `"pass"`. -/
theorem claim_C2_witness :
    latestReviewStatus Demo.demoCase7 = some "pass" ∧
      Demo.demoCase6.stage = .REVIEWED := by
  refine ⟨claim_C2.1 Demo.demoCase7 Demo.demoCase7_reachable Demo.demoCase7_stage, ?_⟩
  exact (claim_C2.2.2 Demo.demoEnv Demo.demoCase6 Demo.demoCase7 Demo.demoCase7_ok).1

/-- **C9.**  On every reachable case, each stage's artifact versions run
`1, 2, …, n` in order (first version 1, each append exactly +1), and every
step only appends: the previous artifact list of every stage is a prefix —
element for element, version, timestamp and payload included — of the new
one. -/
theorem claim_C9 :
    ∀ c : SOWCase, Reachable c →
      (∀ s, VersionsOk (c.artifactsGet s)) ∧
      (∀ c' : SOWCase, Step c c' → ∀ s, c.artifactsGet s <+: c'.artifactsGet s) := by
  intro c hr
  exact ⟨(reachable_inv hr).1, fun c' hs s => ((step_extends hs) s).1⟩

/-- Witness for C9: on the demo run the DRAFTED and VALIDATED artifact lists
of the re-written case obey the version law (the re-run created version 2). -/
theorem claim_C9_witness :
    VersionsOk (Demo.demoCase5b.artifactsGet .DRAFTED) ∧
      (Demo.demoCase5b.artifactsGet .DRAFTED).length = 2 ∧
      (Demo.demoCase5b.artifactsGet .DRAFTED).map WorkflowArtifact.version = [1, 2] := by
  have hreach : Reachable Demo.demoCase5b :=
    .step (.step (.step (.step (.step
      (.created Demo.demoEnv Demo.demoIntake Demo.demoCase1_ok)
      (.plan Demo.demoEnv Demo.demoPlanInput Demo.demoCase2_ok))
      (.retrieve Demo.demoEnv (.obj [("allow_partial", .bool true)]) Demo.demoCase3_ok))
      (.assemble Demo.demoEnv Demo.demoCase4_ok))
      (.write Demo.demoEnv (.obj []) Demo.demoCase5_ok))
      (.write Demo.demoEnv (.obj []) Demo.demoCase5b_ok)
  refine ⟨(claim_C9 Demo.demoCase5b hreach).1 .DRAFTED, by rfl, by rfl⟩

/-- A section whose relaxation list (`["tags"]`) is shorter than its retry
budget (`max_retries = 2`), used to exercise the relaxation loop. -/
def c3sd : SectionDefinition :=
  { name := "Scope", intent := "Define scope",
    fallback_policy := { min_clauses := 1, relaxation_order := [.str "tags"],
                         max_retries := 2 } }

/-- The diagnostics `_retrieve_with_fallback` produces for `c3sd` against a
knowledge service whose every call fails: three attempts, each with the same
filters and a zero count, and `"tags"` relaxed twice. -/
def c3diag : RetrievalDiag :=
  { attempts := [⟨1, [("section", .str "Scope")], 0⟩,
                 ⟨2, [("section", .str "Scope")], 0⟩,
                 ⟨3, [("section", .str "Scope")], 0⟩],
    final_count := 0,
    relaxed_dimensions := [.str "tags", .str "tags"] }

/-- A section whose relaxation list is empty while retries remain, the input
on which `_retrieve_with_fallback` raises `IndexError`. -/
def c8sd : SectionDefinition :=
  { name := "Scope", intent := "Define scope",
    fallback_policy := { min_clauses := 1, relaxation_order := [],
                         max_retries := 2 } }

/-- **C3** (amended).  Relaxation in `_retrieve_with_fallback`: before retry
`k+1` the loop appends dimension `relaxation_order[min(k, len-1)]` unless it
equals `"section"` (so `section` is never relaxed) — once the list is
exhausted this *repeats its final dimension* instead of stopping.  On every
successful run, `relaxed_dimensions` is exactly this accumulation
(`relaxedUpTo`), each attempt's `filters_used` is `_build_retrieval_query`
applied to the dimensions relaxed before that attempt, every non-final
attempt returned fewer than `min_clauses` candidates, and the final attempt
either met the minimum or used up the whole budget of `max_retries + 1`
attempts — exhaustion of the relaxation list is not a stopping condition. -/
theorem claim_C3 (env : Env) (sd : SectionDefinition) (ctx : Json)
    (top_k : Int) (session : Json) (clauses : List Json) (diag : RetrievalDiag)
    (sess' : Json)
    (h : retrieve_with_fallback env sd ctx top_k session =
      .ok (clauses, diag, sess')) :
    Json.str "section" ∉ diag.relaxed_dimensions ∧
    diag.relaxed_dimensions = relaxedUpTo sd.fallback_policy.relaxation_order
      (diag.attempts.length - 1) ∧
    (∀ i a, diag.attempts[i]? = some a →
      build_retrieval_query sd ctx (relaxedUpTo sd.fallback_policy.relaxation_order
        (min i sd.fallback_policy.max_retries.toNat)) = .ok a.filters_used) ∧
    (∀ a ∈ diag.attempts.dropLast,
      (a.returned_count : Int) < sd.fallback_policy.min_clauses) ∧
    (∀ a, diag.attempts.getLast? = some a →
      a.returned_count = clauses.length ∧
        ((a.returned_count : Int) ≥ sd.fallback_policy.min_clauses ∨
          diag.attempts.length = (sd.fallback_policy.max_retries + 1).toNat)) := by
  obtain ⟨h1, h2, h3, h4, h5, h6, h7⟩ :=
    retrieve_with_fallback_spec env sd ctx top_k session clauses diag sess' h
  refine ⟨?_, h6, h7, h4, h5⟩
  rw [h6]
  exact section_not_mem_relaxedUpTo _ _

theorem claim_C3_witness :
    Json.str "section" ∉ c3diag.relaxed_dimensions ∧
    c3diag.relaxed_dimensions = relaxedUpTo c3sd.fallback_policy.relaxation_order
      (c3diag.attempts.length - 1) ∧
    (∀ i a, c3diag.attempts[i]? = some a →
      build_retrieval_query c3sd (.obj [])
        (relaxedUpTo c3sd.fallback_policy.relaxation_order
          (min i c3sd.fallback_policy.max_retries.toNat)) = .ok a.filters_used) ∧
    (∀ a ∈ c3diag.attempts.dropLast,
      (a.returned_count : Int) < c3sd.fallback_policy.min_clauses) ∧
    (∀ a, c3diag.attempts.getLast? = some a →
      a.returned_count = ([] : List Json).length ∧
        ((a.returned_count : Int) ≥ c3sd.fallback_policy.min_clauses ∨
          c3diag.attempts.length = (c3sd.fallback_policy.max_retries + 1).toNat)) :=
  claim_C3 Demo.demoEnv c3sd (.obj []) 5 .null [] c3diag .null (by rfl)

/-- **C3** counterexample to the frozen wording: with a one-element
relaxation list `["tags"]` and `max_retries = 2`, the loop does not stop when
the list is exhausted — it runs all three attempts and relaxes `"tags"` a
second time, so dimensions are not "taken in order, one additional per
retry" and list exhaustion is not a stopping condition. -/
theorem claim_C3_counterexample :
    c3sd.fallback_policy.relaxation_order.length = 1 ∧
    retrieve_with_fallback Demo.demoEnv c3sd (.obj []) 5 .null =
      .ok ([], c3diag, .null) ∧
    c3diag.attempts.length = 3 ∧
    c3diag.relaxed_dimensions = [.str "tags", .str "tags"] :=
  ⟨rfl, rfl, rfl, rfl⟩

/-- **C8** (amended).  When the extracted context is a dict, the relaxation
list is non-empty and holds only hashable dimensions (so neither the
`[][-1]` IndexError nor the `set(relaxed_dimensions)` TypeError can fire),
and every knowledge-service call returns, `_retrieve_with_fallback` returns
(never raises) the final attempt's candidate list together with diagnostics
holding one entry per attempt made (at most `max_retries + 1`, numbered
`1, 2, ...`), each recording the exact filter set used
(`_build_retrieval_query` of the dimensions relaxed before that attempt)
and the count returned; `final_count` is the returned list's length. -/
theorem claim_C8 (env : Env) (sd : SectionDefinition)
    (kvs : List (String × Json)) (top_k : Int) (session : Json)
    (hr : ∀ q s, ∃ r, KnowledgeAccessService.retrieve_section_clauses env
      sd.name q (.obj []) top_k false true s = .ok r)
    (horder : sd.fallback_policy.relaxation_order ≠ [])
    (horderH : ∀ x ∈ sd.fallback_policy.relaxation_order,
      pyHashable x = true) :
    ∃ clauses diag sess',
      retrieve_with_fallback env sd (.obj kvs) top_k session =
        .ok (clauses, diag, sess') ∧
      diag.final_count = clauses.length ∧
      diag.attempts.length ≤ (sd.fallback_policy.max_retries + 1).toNat ∧
      diag.attempts.map RetrievalAttempt.attempt =
        List.range' 1 diag.attempts.length ∧
      (∀ i a, diag.attempts[i]? = some a →
        build_retrieval_query sd (.obj kvs)
          (relaxedUpTo sd.fallback_policy.relaxation_order
            (min i sd.fallback_policy.max_retries.toNat)) = .ok a.filters_used) := by
  obtain ⟨⟨clauses, diag, sess'⟩, hout⟩ :=
    retrieve_with_fallback_isOk env sd kvs top_k session hr horder horderH
  obtain ⟨h1, h2, h3, h4, h5, h6, h7⟩ :=
    retrieve_with_fallback_spec env sd (.obj kvs) top_k session clauses diag
      sess' hout
  exact ⟨clauses, diag, sess', hout, h1, h2, h3, h7⟩

theorem claim_C8_witness :
    ∃ clauses diag sess',
      retrieve_with_fallback Demo.demoEnv c3sd (.obj []) 5 .null =
        .ok (clauses, diag, sess') ∧
      diag.final_count = clauses.length ∧
      diag.attempts.length ≤ (c3sd.fallback_policy.max_retries + 1).toNat ∧
      diag.attempts.map RetrievalAttempt.attempt =
        List.range' 1 diag.attempts.length ∧
      (∀ i a, diag.attempts[i]? = some a →
        build_retrieval_query c3sd (.obj [])
          (relaxedUpTo c3sd.fallback_policy.relaxation_order
            (min i c3sd.fallback_policy.max_retries.toNat)) = .ok a.filters_used) :=
  claim_C8 Demo.demoEnv c3sd [] 5 .null (fun q s => ⟨([], s), rfl⟩)
    (by decide) (by decide)

/-- A section whose *non-empty* relaxation list holds an unhashable
dimension (`[[]]`), on which attempt 2's `set(relaxed_dimensions or [])`
inside `build_retrieval_query` raises `TypeError`. -/
def c8bsd : SectionDefinition :=
  { name := "Scope", intent := "Define scope",
    fallback_policy := { min_clauses := 1, relaxation_order := [.arr []],
                         max_retries := 2 } }

/-- **C8** counterexample to the frozen wording: `_retrieve_with_fallback`
*can* raise, in two distinct ways — in both runs every per-section
knowledge-service call itself returns normally (an empty candidate list).
(1) With an empty relaxation list and retries remaining, the relax step
evaluates `relaxation_order[min(attempt, -1)]`, i.e. `[][-1]`, raising
`IndexError`.  (2) With the non-empty relaxation list `[[]]`, the first
retry relaxes the unhashable dimension `[]` and attempt 2's
`set(relaxed_dimensions or [])` in `build_retrieval_query` raises
`TypeError`. -/
theorem claim_C8_counterexample :
    (∀ q s, KnowledgeAccessService.retrieve_section_clauses Demo.demoEnv
      c8sd.name q (.obj []) 5 false true s = .ok ([], s)) ∧
    retrieve_with_fallback Demo.demoEnv c8sd (.obj []) 5 .null =
      .error .indexError ∧
    c8bsd.fallback_policy.relaxation_order ≠ [] ∧
    (∀ q s, KnowledgeAccessService.retrieve_section_clauses Demo.demoEnv
      c8bsd.name q (.obj []) 5 false true s = .ok ([], s)) ∧
    retrieve_with_fallback Demo.demoEnv c8bsd (.obj []) 5 .null =
      .error .typeError :=
  ⟨fun _ _ => rfl, rfl, by decide, fun _ _ => rfl, rfl⟩

/-- A clause section whose required field `must_have` is never produced, so
every write→validate attempt fails; its relaxation list is non-empty, so the
inter-attempt re-retrieval never raises. -/
def c5wsd : SectionDefinition :=
  { name := "Scope", intent := "Define scope", category := "clause",
    required_fields := [.str "must_have"],
    output_schema := .obj [("summary", .str ""), ("items", .arr [])],
    fallback_policy := { min_clauses := 1, relaxation_order := [.str "tags"],
                         max_retries := 1 } }

/-- Same failing section but with an empty relaxation list, on which the
inter-attempt re-retrieval raises `IndexError`. -/
def c5sd : SectionDefinition :=
  { name := "Scope", intent := "Define scope", category := "clause",
    required_fields := [.str "must_have"],
    output_schema := .obj [("summary", .str ""), ("items", .arr [])],
    fallback_policy := { min_clauses := 1, relaxation_order := [],
                         max_retries := 1 } }

def c5wRes : Json × WriteDiag × Json :=
  ((write_with_validation_retry Demo.demoEnv c5wsd "Scope" "Define scope"
    (.obj []) [] [] (.obj []) .null).toOption).getD (.null, ⟨[]⟩, .null)

def c5wOut : Json := c5wRes.1

def c5wDiag : WriteDiag := c5wRes.2.1

def c5wSess : Json := c5wRes.2.2

theorem c5w_ok :
    write_with_validation_retry Demo.demoEnv c5wsd "Scope" "Define scope"
      (.obj []) [] [] (.obj []) .null = .ok (c5wOut, c5wDiag, c5wSess) := by rfl

/-- **C5** (amended).  On every run of `_write_with_validation_retry` that
returns, the recorded attempts are numbered `1, 2, ...`, number at most
`max_retries + 1`, every attempt before the last failed validation, and the
last either passed or used up the whole budget; when every recorded attempt
failed, exactly `max_retries + 1` attempts were made and the returned output
is `_build_tbd_output`: `action_items` holds the two next-step strings and
every schema field is `"TBD"` (`["TBD"]` for list-valued schema defaults).
The run may however *raise* instead of returning the fallback — see the
counterexample. -/
theorem claim_C5 (env : Env) (sd : SectionDefinition)
    (section_name section_intent : String) (style : Json)
    (candidates : List Json) (intake : List (String × Json)) (ctx : Json)
    (session : Json) (out : Json) (diag : WriteDiag) (sess' : Json)
    (h : write_with_validation_retry env sd section_name section_intent style
      candidates intake ctx session = .ok (out, diag, sess')) :
    diag.attempts.length ≤ (sd.fallback_policy.max_retries + 1).toNat ∧
    diag.attempts.map WriteAttempt.attempt =
      List.range' 1 diag.attempts.length ∧
    (∀ a ∈ diag.attempts.dropLast, a.passed = false) ∧
    (∀ a, diag.attempts.getLast? = some a →
      a.passed = true ∨
        diag.attempts.length = (sd.fallback_policy.max_retries + 1).toNat) ∧
    ((∀ a ∈ diag.attempts, a.passed = false) →
      diag.attempts.length = (sd.fallback_policy.max_retries + 1).toNat ∧
      build_tbd_output sd = .ok out ∧
      ∀ kvs, sd.output_schema = .obj kvs →
        out.attrGet "action_items" = .ok (.arr
          [.str "Refine clause filters and retry retrieval.",
           .str "Provide additional intake details for missing required fields."]) ∧
        (∀ k v, k ≠ "action_items" → Json.lookupKey kvs k = some v →
          out.attrGet k =
            .ok (if v.isArr then Json.arr [.str "TBD"] else Json.str "TBD"))) := by
  obtain ⟨h1, h2, h3, h4, h5⟩ := writeRetryGo_spec env sd section_name
    section_intent style intake ctx (sd.fallback_policy.max_retries + 1).toNat 0
    candidates [] session out diag sess' h (by omega) rfl rfl
    (by intro a ha; cases ha)
  refine ⟨h1, h2, h3, h4, ?_⟩
  intro hall
  obtain ⟨hT, htbd⟩ := h5 hall
  refine ⟨hT, htbd, ?_⟩
  intro kvs hschema
  exact build_tbd_output_fields sd kvs out hschema htbd

theorem claim_C5_witness :
    c5wDiag.attempts.length ≤ (c5wsd.fallback_policy.max_retries + 1).toNat ∧
    c5wDiag.attempts.map WriteAttempt.attempt =
      List.range' 1 c5wDiag.attempts.length ∧
    (∀ a ∈ c5wDiag.attempts.dropLast, a.passed = false) ∧
    (∀ a, c5wDiag.attempts.getLast? = some a →
      a.passed = true ∨
        c5wDiag.attempts.length = (c5wsd.fallback_policy.max_retries + 1).toNat) ∧
    ((∀ a ∈ c5wDiag.attempts, a.passed = false) →
      c5wDiag.attempts.length = (c5wsd.fallback_policy.max_retries + 1).toNat ∧
      build_tbd_output c5wsd = .ok c5wOut ∧
      ∀ kvs, c5wsd.output_schema = .obj kvs →
        c5wOut.attrGet "action_items" = .ok (.arr
          [.str "Refine clause filters and retry retrieval.",
           .str "Provide additional intake details for missing required fields."]) ∧
        (∀ k v, k ≠ "action_items" → Json.lookupKey kvs k = some v →
          c5wOut.attrGet k =
            .ok (if v.isArr then Json.arr [.str "TBD"] else Json.str "TBD"))) :=
  claim_C5 Demo.demoEnv c5wsd "Scope" "Define scope" (.obj []) [] [] (.obj [])
    .null c5wOut c5wDiag c5wSess (by rfl)

/-- **C5** counterexample to the frozen wording: an all-fail run need not
perform `max_retries + 1` attempts and return the TBD fallback — with an
empty relaxation list the post-failure re-retrieval raises `IndexError`, so
the loop dies after the first failed attempt.  The first two conjuncts show
the presupposition holds: the sole generated output fails validation. -/
theorem claim_C5_counterexample :
    generate_clause_mode Demo.demoEnv "Scope" "Define scope" (.obj [])
      c5sd.output_schema [] (.obj []) =
      .ok (.obj [("summary", .str ""), ("items", .arr [])]) ∧
    validate_section_output c5sd (.obj [("summary", .str ""), ("items", .arr [])])
      (.obj []) = .ok (false, ["required field missing/empty: must_have"]) ∧
    write_with_validation_retry Demo.demoEnv c5sd "Scope" "Define scope"
      (.obj []) [] [] (.obj []) .null = .error .indexError :=
  ⟨rfl, rfl, rfl⟩

/-- An answer text carrying a well-formed JSON candidates object,
`\x7b"candidates": [\x7b"clause_id": "c1"\x7d]\x7d`. -/
def c4answer : String :=
  "\x7b\x22candidates\x22: [\x7b\x22clause_id\x22: \x22c1\x22\x7d]\x7d"

/-- The response whose answer would parse but whose citation list is
empty. -/
def c4kvs : List (String × Json) :=
  [("answer", .str c4answer), ("citations", .arr [])]

/-- **C4** (amended).  Candidate extraction
(`extract_candidates_from_agent_response`, the function
`_extract_candidates` delegates to) reads *only* the response's `citations`
value: responses with the same citations extract identically, whatever
their answer text; and it returns without raising whenever the citations
value normalizes to a list whose entries each carry a dict (or absent/falsy)
`source_location`.  The answer-text strategy chain
(`_parse_candidates_from_answer`) never feeds extraction — it only sets a
diagnostics flag — and malformed input *can* raise (see the
counterexample). -/
theorem claim_C4 :
    (∀ (env : Env) (kvs : List (String × Json)) (min_text_len : Nat),
      KnowledgeAccessService.extract_candidates_from_agent_response env
        (.obj kvs) min_text_len =
      KnowledgeAccessService.extract_candidates_from_agent_response env
        (.obj [("citations", (Json.lookupKey kvs "citations").getD .null)])
        min_text_len) ∧
    (∀ (env : Env) (kvs : List (String × Json)) (min_text_len : Nat)
      (cites : List Json),
      Json.pyOr ((Json.lookupKey kvs "citations").getD (.arr [])) (.arr []) =
        .arr cites →
      (∀ c ∈ cites, KnowledgeAccessService.citationSafe c = true) →
      ∃ cands, KnowledgeAccessService.extract_candidates_from_agent_response
        env (.obj kvs) min_text_len = .ok cands) :=
  ⟨fun env kvs m => KnowledgeAccessService.extract_eq_citations env kvs m,
   fun env kvs m cites hcit hsafe =>
     KnowledgeAccessService.extract_candidates_ok env kvs m cites hcit hsafe⟩

theorem claim_C4_witness :
    (KnowledgeAccessService.extract_candidates_from_agent_response Demo.demoEnv
      (.obj c4kvs) KnowledgeAccessService.MIN_CANDIDATE_TEXT_LEN =
     KnowledgeAccessService.extract_candidates_from_agent_response Demo.demoEnv
      (.obj [("citations", (Json.lookupKey c4kvs "citations").getD .null)])
      KnowledgeAccessService.MIN_CANDIDATE_TEXT_LEN) ∧
    (∃ cands, KnowledgeAccessService.extract_candidates_from_agent_response
      Demo.demoEnv (.obj c4kvs) KnowledgeAccessService.MIN_CANDIDATE_TEXT_LEN =
      .ok cands) :=
  ⟨claim_C4.1 Demo.demoEnv c4kvs KnowledgeAccessService.MIN_CANDIDATE_TEXT_LEN,
   claim_C4.2 Demo.demoEnv c4kvs KnowledgeAccessService.MIN_CANDIDATE_TEXT_LEN
     [] (by rfl) (by intro c hc; cases hc)⟩

/-- **C4** counterexample to the frozen wording: (1) the answer text holds a
JSON object with candidates — the described strategy chain
(`_parse_candidates_from_answer`) finds them — yet extraction returns `[]`
because the citation list is empty; (2) extraction raises `TypeError` when
the citations value is a number (malformed input *does* raise); (3) a
citation carrying only a long title yields nothing — there is no title
fallback in live extraction. -/
theorem claim_C4_counterexample :
    KnowledgeAccessService.parse_candidates_from_answer c4answer =
      some (.arr [.obj [("clause_id", .str "c1")]]) ∧
    KnowledgeAccessService.extract_candidates_from_agent_response Demo.demoEnv
      (.obj c4kvs) KnowledgeAccessService.MIN_CANDIDATE_TEXT_LEN = .ok [] ∧
    KnowledgeAccessService.extract_candidates_from_agent_response Demo.demoEnv
      (.obj [("citations", .num 5)])
      KnowledgeAccessService.MIN_CANDIDATE_TEXT_LEN = .error .typeError ∧
    KnowledgeAccessService.extract_candidates_from_agent_response Demo.demoEnv
      (.obj [("citations", .arr [.obj
        [("title", .str "A very long and descriptive clause title exceeding forty characters"),
         ("source_uri", .str "oci://objectstorage/n/ns/b/bkt/o/obj.json")]])])
      KnowledgeAccessService.MIN_CANDIDATE_TEXT_LEN = .ok [] :=
  ⟨rfl, rfl, rfl, rfl⟩

theorem lookupKey_nil (k : String) : Json.lookupKey [] k = none := rfl

theorem pyOr_null (x : Json) : Json.pyOr .null x = x := rfl

theorem truthy_null : Json.truthy .null = false := rfl

/-- An environment whose completion service always fails. -/
def c6env : Env := { Demo.demoEnv with llm := fun _ _ => none }

/-- An intake that carries its own `allowed_services` value and no
`cloud_provider`. -/
def c6intake : List (String × Json) :=
  [("client_name", .str "Acme"), ("allowed_services", .arr [.str "X"])]

def c6derived : List String :=
  ["API Gateway", "Functions", "OCI AI Services", "OCI Data Science",
   "Object Storage"]

/-- **C6** (amended).  When the completion call fails or its response is
unparseable (`parsed = {}`), `_extract_structured_context` falls back to
same-name intake fields for `deployment_model`, `architecture_pattern`,
`data_isolation_model`, `data_flow_direction`, `industry` and `region`
(defaulting to null), and to intake-or-empty-list for `ai_services_used`
and `regulatory_context` — but `cloud_provider` further defaults to the
literal `"OCI"`, and `allowed_services` is *derived* from the AI-service
list and provider, never read from the intake's own `allowed_services`
field. -/
theorem claim_C6 (env : Env) (intake : List (String × Json))
    (derived : List String)
    (hparsed : SOWWorkflowService.extractionParsed env intake = [])
    (hd : SOWWorkflowService.derive_allowed_services
      (Json.pyOr ((Json.lookupKey intake "ai_services_used").getD .null)
        (.arr []))
      (Json.pyOr ((Json.lookupKey intake "cloud_provider").getD .null)
        (.str "OCI")) = .ok derived) :
    SOWWorkflowService.extract_structured_context env intake = .ok (.obj
      [("deployment_model", (Json.lookupKey intake "deployment_model").getD .null),
       ("architecture_pattern",
          (Json.lookupKey intake "architecture_pattern").getD .null),
       ("data_isolation_model",
          (Json.lookupKey intake "data_isolation_model").getD .null),
       ("cloud_provider",
          Json.pyOr ((Json.lookupKey intake "cloud_provider").getD .null)
            (.str "OCI")),
       ("ai_services_used",
          Json.pyOr ((Json.lookupKey intake "ai_services_used").getD .null)
            (.arr [])),
       ("data_flow_direction",
          (Json.lookupKey intake "data_flow_direction").getD .null),
       ("regulatory_context",
          Json.pyOr ((Json.lookupKey intake "regulatory_context").getD .null)
            (.arr [])),
       ("industry", (Json.lookupKey intake "industry").getD .null),
       ("region", (Json.lookupKey intake "region").getD .null),
       ("allowed_services", .arr (derived.map Json.str))]) := by
  unfold SOWWorkflowService.extract_structured_context
  rw [hparsed]
  dsimp only
  simp only [lookupKey_nil, Option.getD_none, pyOr_null, truthy_null,
    Bool.false_eq_true, if_false]
  rw [hd, SOWWorkflowService.okBind]
  rfl

theorem claim_C6_witness :
    SOWWorkflowService.extract_structured_context c6env c6intake = .ok (.obj
      [("deployment_model", .null),
       ("architecture_pattern", .null),
       ("data_isolation_model", .null),
       ("cloud_provider", .str "OCI"),
       ("ai_services_used", .arr []),
       ("data_flow_direction", .null),
       ("regulatory_context", .arr []),
       ("industry", .null),
       ("region", .null),
       ("allowed_services", .arr (c6derived.map Json.str))]) :=
  claim_C6 c6env c6intake c6derived (by rfl) (by rfl)

/-- **C6** counterexample to the frozen wording: with the completion call
failing, the returned context's `allowed_services` is the derived OCI
service list, not the intake's own `allowed_services` (`["X"]`), and
`cloud_provider` becomes `"OCI"` although the intake has no such field —
so not every field "falls back to the intake field of the same name,
defaulting to empty lists or null". -/
def c6ctx : Json := .obj
  [("deployment_model", .null), ("architecture_pattern", .null),
   ("data_isolation_model", .null), ("cloud_provider", .str "OCI"),
   ("ai_services_used", .arr []), ("data_flow_direction", .null),
   ("regulatory_context", .arr []), ("industry", .null), ("region", .null),
   ("allowed_services", .arr (c6derived.map Json.str))]

theorem claim_C6_counterexample :
    SOWWorkflowService.extract_structured_context c6env c6intake = .ok c6ctx ∧
    c6ctx.attrGet "allowed_services" = .ok (.arr (c6derived.map Json.str)) ∧
    c6ctx.attrGet "cloud_provider" = .ok (.str "OCI") ∧
    Json.lookupKey c6intake "allowed_services" = some (.arr [.str "X"]) ∧
    Json.lookupKey c6intake "cloud_provider" = none ∧
    Json.arr (c6derived.map Json.str) ≠ .arr [.str "X"] :=
  ⟨rfl, rfl, rfl, rfl, rfl, by decide⟩

theorem ensure_stage_of_mem {c : SOWCase} {allowed : List WorkflowStage}
    (h : c.stage ∈ allowed) : ensure_stage c allowed = .ok () := by
  unfold ensure_stage
  rw [if_pos h]

/-- A plan whose single section has an empty relaxation list and a retry
budget, so its retrieval raises `IndexError` inside `run_retrieve`. -/
def c10PlanInput : Json := .obj
  [("sections", .arr
     [.obj [("name", .str "Scope"), ("intent", .str "Define scope"),
            ("category", .str "clause"),
            ("fallback_policy", .obj
              [("min_clauses", .num 3), ("max_retries", .num 3),
               ("relaxation_order", .arr [])])]])]

def c10Case2 : SOWCase :=
  ((run_plan Demo.demoEnv c10PlanInput Demo.demoCase1).toOption).getD
    Demo.demoFallbackCase

theorem c10Case2_ok :
    run_plan Demo.demoEnv c10PlanInput Demo.demoCase1 = .ok c10Case2 := by rfl

/-- **C10** (amended).  (1) On every successful `run_retrieve`, the
persisted retrieval set — the latest RETRIEVED artifact's payload — has no
empty section: with `allow_partial` truthy the empty sections were filtered
out, without it their presence would have raised.  (2) With `allow_partial`
absent or falsy, when the per-section retrieval succeeds but leaves at
least one selected section empty, `run_retrieve` raises
`ValidationError("RETRIEVE produced insufficient section coverage")` (the
case value is returned unchanged only in the sense that no new case is
produced).  Per-section retrieval itself *can* raise — see the
counterexample. -/
theorem claim_C10 :
    (∀ (env : Env) (input : Json) (c c' : SOWCase),
      run_retrieve env input c = .ok c' →
      ∃ rs diags sel names tk,
        ((c'.artifactsGet .RETRIEVED).getLast?).map WorkflowArtifact.payload =
          some (.retrieved rs diags sel names tk) ∧
        (∀ kv ∈ rs, kv.2 ≠ ([] : List Json)) ∧
        c'.stage = .RETRIEVED) ∧
    (∀ (env : Env) (input : Json) (c : SOWCase) (planArt : WorkflowArtifact)
      (sections : List SectionDefinition) (pctx prisk tkJ : Json) (tkv : Int)
      (apJ snJ : Json) (selList : List Json)
      (rs : List (String × List Json)) (diags : List (String × RetrievalDiag))
      (sess : Json),
      c.stage ∈ retrieveAllowed →
      get_latest_artifact c .PLAN_READY = .ok planArt →
      asPlan planArt.payload = .ok (sections, pctx, prisk) →
      input.attrGetD "top_k" (.num 8) = .ok tkJ →
      pyInt tkJ = .ok tkv →
      input.attrGetD "allow_partial" (.bool false) = .ok apJ →
      apJ.truthy = false →
      input.attrGet "section_names" = .ok snJ →
      (Json.pyOr snJ (.arr ((dictByName sections).map fun kv =>
        Json.str kv.1))).pyIter = .ok selList →
      retrieveSections env (dictByName sections) selList.eraseDups
        (Json.pyOr ((Json.lookupKey c.intake "structured_context").getD .null)
          (.obj []))
        (max 1 tkv) = .ok (rs, diags, sess) →
      rs.any (fun kv => kv.2.isEmpty) = true →
      run_retrieve env input c = .error (.validationError
        "RETRIEVE produced insufficient section coverage")) := by
  constructor
  · intro env input c c' h
    unfold run_retrieve at h
    rw [exceptBind_ok] at h
    obtain ⟨u, hu, h⟩ := h
    rw [exceptBind_ok] at h
    obtain ⟨planArt, _, h⟩ := h
    rw [exceptBind_ok] at h
    obtain ⟨⟨sections, pctx, prisk⟩, _, h⟩ := h
    rw [exceptBind_ok] at h
    obtain ⟨tkJ, _, h⟩ := h
    rw [exceptBind_ok] at h
    obtain ⟨tkv, _, h⟩ := h
    rw [exceptBind_ok] at h
    obtain ⟨apJ, _, h⟩ := h
    rw [exceptBind_ok] at h
    obtain ⟨snJ, _, h⟩ := h
    rw [exceptBind_ok] at h
    obtain ⟨selList, _, h⟩ := h
    rw [exceptBind_ok] at h
    obtain ⟨⟨rset, diags, sess⟩, _, h⟩ := h
    rw [exceptBind_ok] at h
    obtain ⟨u2, hguard, h⟩ := h
    rw [exceptPure_ok] at h
    subst h
    have hnoraise :
        ¬ ((rset.any fun kv => kv.2.isEmpty) = true ∧ ¬ apJ.truthy = true) := by
      intro hcond
      rw [if_pos hcond] at hguard
      cases hguard
    refine ⟨(if apJ.truthy then rset.filter (fun kv => ¬ kv.2.isEmpty)
        else rset), diags, selList.eraseDups,
      ((if apJ.truthy then rset.filter (fun kv => ¬ kv.2.isEmpty)
        else rset).map Prod.fst), max 1 tkv, ?_, ?_, rfl⟩
    · show ((SOWCase.artifactsGet _ .RETRIEVED).getLast?).map
        WorkflowArtifact.payload = _
      rw [show ∀ (x : SOWCase) (st : WorkflowStage),
          SOWCase.artifactsGet { x with stage := .RETRIEVED } st =
            SOWCase.artifactsGet x st from fun x st => rfl]
      rw [artifactsGet_append_artifact]
      rw [if_pos rfl, List.getLast?_concat]
      rfl
    · intro kv hkv
      by_cases hap : apJ.truthy = true
      · rw [if_pos hap] at hkv
        have := List.of_mem_filter hkv
        simp only [decide_eq_true_eq] at this
        intro hnil
        exact this (by rw [hnil]; rfl)
      · rw [if_neg hap] at hkv
        have hany : (rset.any fun kv => kv.2.isEmpty) = false := by
          cases hb : rset.any fun kv => kv.2.isEmpty
          · rfl
          · exact absurd ⟨hb, hap⟩ hnoraise
        rw [List.any_eq_false] at hany
        have := hany kv hkv
        simp only [decide_eq_true_eq] at this
        intro hnil
        exact this (by rw [hnil]; rfl)
  · intro env input c planArt sections pctx prisk tkJ tkv apJ snJ selList rs
      diags sess hstage hplan hasplan htkJ htkv hapJ hap hsnJ hsel hrs hempty
    unfold run_retrieve
    rw [ensure_stage_of_mem hstage, okBind, hplan, okBind, hasplan, okBind]
    try dsimp only
    rw [htkJ, okBind, htkv, okBind, hapJ, okBind, hsnJ, okBind]
    try dsimp only
    rw [hsel, okBind]
    try dsimp only
    rw [hrs, okBind]
    try dsimp only
    rw [if_pos ⟨hempty, by simp [hap]⟩]
    rfl

def c10wPlanArt : WorkflowArtifact :=
  ((get_latest_artifact Demo.demoCase2 .PLAN_READY).toOption).getD
    ⟨.INIT, 0, "", .extracted .null⟩

def c10wPlan : List SectionDefinition × Json × Json :=
  ((asPlan c10wPlanArt.payload).toOption).getD ([], .null, .null)

def c10wSel : List Json :=
  (dictByName c10wPlan.1).map fun kv => Json.str kv.1

def c10wRS :
    List (String × List Json) × List (String × RetrievalDiag) × Json :=
  ((retrieveSections Demo.demoEnv (dictByName c10wPlan.1) c10wSel.eraseDups
    (Json.pyOr ((Json.lookupKey Demo.demoCase2.intake
      "structured_context").getD .null) (.obj []))
    (max 1 8)).toOption).getD ([], [], .null)

theorem claim_C10_witness :
    (∃ rs diags sel names tk,
      ((Demo.demoCase3.artifactsGet .RETRIEVED).getLast?).map
        WorkflowArtifact.payload = some (.retrieved rs diags sel names tk) ∧
      (∀ kv ∈ rs, kv.2 ≠ ([] : List Json)) ∧
      Demo.demoCase3.stage = .RETRIEVED) ∧
    run_retrieve Demo.demoEnv (.obj []) Demo.demoCase2 =
      .error (.validationError
        "RETRIEVE produced insufficient section coverage") := by
  constructor
  · exact claim_C10.1 Demo.demoEnv (.obj [("allow_partial", .bool true)])
      Demo.demoCase2 Demo.demoCase3 Demo.demoCase3_ok
  · exact claim_C10.2 Demo.demoEnv (.obj []) Demo.demoCase2
      c10wPlanArt c10wPlan.1 c10wPlan.2.1 c10wPlan.2.2 (.num 8) 8
      (.bool false) .null c10wSel c10wRS.1 c10wRS.2.1 c10wRS.2.2
      (by decide) (by rfl) (by rfl) (by rfl) (by rfl) (by rfl) (by rfl)
      (by rfl) (by rfl) (by rfl) (by rfl)

/-- **C10** counterexample to the frozen wording: per-section retrieval is
*not* raise-free — on a plan whose section has an empty relaxation list,
`run_retrieve` (even with `allow_partial` true) dies with `IndexError`
coming from `_retrieve_with_fallback`. -/
theorem claim_C10_counterexample :
    run_plan Demo.demoEnv c10PlanInput Demo.demoCase1 = .ok c10Case2 ∧
    run_retrieve Demo.demoEnv (.obj [("allow_partial", .bool true)]) c10Case2 =
      .error .indexError :=
  ⟨rfl, rfl⟩

/-- A technical section definition with a required field, a min-words rule
and (through the context) an allowed-service list — everything the
validator checks. -/
def c7sd : SectionDefinition :=
  { name := "Arch", intent := "Define arch", category := "technical",
    required_fields := [.str "must_have"],
    min_content := .obj [("summary", .obj [("min_words", .num 10)])],
    output_schema := .obj [] }

/-- An output violating all four rules at once: `must_have` missing, a
4-word summary, a mismatched architecture pattern, and a non-allowed
service mention. -/
def c7out : Json := .obj
  [("summary", .str "Uses Object Storage heavily"),
   ("architecture_pattern", .str "monolith")]

def c7ctx : Json := .obj
  [("architecture_pattern", .str "microservices"),
   ("allowed_services", .arr [.str "Functions"])]

/-- **C7** (confirmed).  `validate_section_output` is deterministic (the
same triple always yields the same pair), `ok` holds exactly when `reasons`
is empty, and `reasons` accumulates — never short-circuits — one message
per violated rule: every missing/empty required field, every min-words and
min-items violation of the min-content rules, and for technical sections
the architecture-pattern mismatch and every non-allowed service. -/
theorem claim_C7 :
    (∀ (sd : SectionDefinition) (out ctx : Json) (r1 r2 : Bool × List String),
      validate_section_output sd out ctx = .ok r1 →
      validate_section_output sd out ctx = .ok r2 → r1 = r2) ∧
    (∀ (sd : SectionDefinition) (out ctx : Json) (ok : Bool)
      (reasons : List String),
      validate_section_output sd out ctx = .ok (ok, reasons) →
      (ok = true ↔ reasons = [])) ∧
    (∀ (sd : SectionDefinition) (out ctx : Json) (ok : Bool)
      (reasons : List String) (s : String),
      validate_section_output sd out ctx = .ok (ok, reasons) →
      .str s ∈ sd.required_fields →
      json_path_non_empty out s = false →
      ("required field missing/empty: " ++ s) ∈ reasons) ∧
    (∀ (sd : SectionDefinition) (out ctx : Json) (ok : Bool)
      (reasons : List String) (mcItems : List (String × Json)) (k : String)
      (v value mwJ miJ : Json) (mw mi : Int),
      validate_section_output sd out ctx = .ok (ok, reasons) →
      (Json.pyOr sd.min_content (.obj [])).items = .ok mcItems →
      (k, v) ∈ mcItems →
      out.attrGet k = .ok value →
      (Json.pyOr v (.obj [])).attrGetD "min_words" (.num 0) = .ok mwJ →
      pyInt mwJ = .ok mw →
      (Json.pyOr v (.obj [])).attrGetD "min_items" (.num 0) = .ok miJ →
      pyInt miJ = .ok mi →
      (minWordsViolation value mw = true →
        ("field '" ++ k ++ "' below min_words=" ++ toString mw) ∈ reasons) ∧
      (minItemsViolation value mi = true →
        ("field '" ++ k ++ "' below min_items=" ++ toString mi) ∈ reasons)) ∧
    (∀ (sd : SectionDefinition) (out ctx : Json) (ok : Bool)
      (reasons : List String) (ctxAp : Json) (e1 : String) (outAp : Json)
      (a1 : String),
      validate_section_output sd out ctx = .ok (ok, reasons) →
      sd.category = "technical" →
      ctx.attrGet "architecture_pattern" = .ok ctxAp →
      asPyStr (Json.pyOr ctxAp (.str "")) = .ok e1 →
      out.attrGet "architecture_pattern" = .ok outAp →
      asPyStr (Json.pyOr outAp (.str "")) = .ok a1 →
      pyLower (pyStrip e1) ≠ "" →
      pyLower (pyStrip a1) ≠ "" →
      pyLower (pyStrip e1) ≠ pyLower (pyStrip a1) →
      "technical architecture_pattern mismatch with extractedContext" ∈
        reasons) ∧
    (∀ (sd : SectionDefinition) (out ctx : Json) (ok : Bool)
      (reasons allowed services : List String) (s : String),
      validate_section_output sd out ctx = .ok (ok, reasons) →
      sd.category = "technical" →
      allowedServicesLower ctx = .ok allowed →
      extract_services_from_section out = .ok services →
      s ∈ services → allowed.isEmpty = false →
      allowed.contains (pyLower s) = false →
      ("service '" ++ s ++ "' is not in allowed_services") ∈ reasons) := by
  refine ⟨?_, ?_, ?_, ?_, ?_, ?_⟩
  · intro sd out ctx r1 r2 h1 h2
    rw [h1] at h2
    exact Except.ok.inj h2
  · intro sd out ctx ok reasons h
    obtain ⟨hok, _⟩ := validate_spec sd out ctx ok reasons h
    constructor
    · intro h'
      cases hr : reasons with
      | nil => rfl
      | cons a as =>
          rw [h', hr] at hok
          simp at hok
    · intro h'
      subst h'
      exact hok
  · intro sd out ctx ok reasons s h hmem hviol
    obtain ⟨_, r1, mc, r2, hr1, hmc, hr2, hdisj⟩ :=
      validate_spec sd out ctx ok reasons h
    have h1 : ("required field missing/empty: " ++ s) ∈ r1 :=
      (requiredReasons_spec out sd.required_fields [] r1 hr1).2 s hmem hviol
    have h2 : ("required field missing/empty: " ++ s) ∈ r2 :=
      (minContentReasons_spec out mc r1 r2 hr2).1 _ h1
    rcases hdisj with ⟨_, htech⟩ | ⟨_, hre⟩
    · exact (technicalReasons_spec out ctx r2 reasons htech).1 _ h2
    · rw [hre]
      exact h2
  · intro sd out ctx ok reasons mcItems k v value mwJ miJ mw mi h hmc hkv
      hvalue hmwJ hmw hmiJ hmi
    obtain ⟨_, r1, mc, r2, hr1, hmc', hr2, hdisj⟩ :=
      validate_spec sd out ctx ok reasons h
    rw [hmc'] at hmc
    cases hmc
    have hlift : ∀ x ∈ r2, x ∈ reasons := by
      intro x hx
      rcases hdisj with ⟨_, htech⟩ | ⟨_, hre⟩
      · exact (technicalReasons_spec out ctx r2 reasons htech).1 _ hx
      · rw [hre]
        exact hx
    obtain ⟨hw, hi⟩ := (minContentReasons_spec out mcItems r1 r2 hr2).2 k v
      hkv value mwJ mw miJ mi hvalue hmwJ hmw hmiJ hmi
    exact ⟨fun hv => hlift _ (hw hv), fun hv => hlift _ (hi hv)⟩
  · intro sd out ctx ok reasons ctxAp e1 outAp a1 h hcat hctxAp he1 houtAp
      ha1 hne1 hne2 hnem
    obtain ⟨_, r1, mc, r2, hr1, hmc, hr2, hdisj⟩ :=
      validate_spec sd out ctx ok reasons h
    rcases hdisj with ⟨_, htech⟩ | ⟨hnc, _⟩
    · exact (technicalReasons_spec out ctx r2 reasons htech).2.1 ctxAp e1
        outAp a1 hctxAp he1 houtAp ha1 hne1 hne2 hnem
    · exact absurd hcat hnc
  · intro sd out ctx ok reasons allowed services s h hcat hallowed hservices
      hs hne hcon
    obtain ⟨_, r1, mc, r2, hr1, hmc, hr2, hdisj⟩ :=
      validate_spec sd out ctx ok reasons h
    rcases hdisj with ⟨_, htech⟩ | ⟨hnc, _⟩
    · exact (technicalReasons_spec out ctx r2 reasons htech).2.2 allowed
        services hallowed hservices s hs hne hcon
    · exact absurd hcat hnc

theorem claim_C7_witness :
    ((false, ["required field missing/empty: must_have",
        "field 'summary' below min_words=10",
        "technical architecture_pattern mismatch with extractedContext",
        "service 'Object Storage' is not in allowed_services"]) =
      ((false : Bool), ["required field missing/empty: must_have",
        "field 'summary' below min_words=10",
        "technical architecture_pattern mismatch with extractedContext",
        "service 'Object Storage' is not in allowed_services"])) ∧
    ((false : Bool) = true ↔
      (["required field missing/empty: must_have",
        "field 'summary' below min_words=10",
        "technical architecture_pattern mismatch with extractedContext",
        "service 'Object Storage' is not in allowed_services"] :
        List String) = []) ∧
    ("required field missing/empty: must_have" ∈
      (["required field missing/empty: must_have",
        "field 'summary' below min_words=10",
        "technical architecture_pattern mismatch with extractedContext",
        "service 'Object Storage' is not in allowed_services"] :
        List String)) ∧
    ("field 'summary' below min_words=" ++ toString (10 : Int) ∈
      (["required field missing/empty: must_have",
        "field 'summary' below min_words=10",
        "technical architecture_pattern mismatch with extractedContext",
        "service 'Object Storage' is not in allowed_services"] :
        List String)) ∧
    ("technical architecture_pattern mismatch with extractedContext" ∈
      (["required field missing/empty: must_have",
        "field 'summary' below min_words=10",
        "technical architecture_pattern mismatch with extractedContext",
        "service 'Object Storage' is not in allowed_services"] :
        List String)) ∧
    ("service 'Object Storage' is not in allowed_services" ∈
      (["required field missing/empty: must_have",
        "field 'summary' below min_words=10",
        "technical architecture_pattern mismatch with extractedContext",
        "service 'Object Storage' is not in allowed_services"] :
        List String)) := by
  refine ⟨?_, ?_, ?_, ?_, ?_, ?_⟩
  · exact claim_C7.1 c7sd c7out c7ctx _ _ (by rfl) (by rfl)
  · exact claim_C7.2.1 c7sd c7out c7ctx _ _ (by rfl)
  · exact claim_C7.2.2.1 c7sd c7out c7ctx _ _ "must_have" (by rfl) (by decide)
      (by rfl)
  · exact (claim_C7.2.2.2.1 c7sd c7out c7ctx false _
      [("summary", .obj [("min_words", .num 10)])] "summary"
      (.obj [("min_words", .num 10)]) (.str "Uses Object Storage heavily")
      (.num 10) (.num 0) 10 0 (by rfl) (by rfl) (by decide) (by rfl) (by rfl)
      (by rfl) (by rfl) (by rfl)).1 (by rfl)
  · exact claim_C7.2.2.2.2.1 c7sd c7out c7ctx false _ (.str "microservices")
      "microservices" (.str "monolith") "monolith" (by rfl) (by rfl) (by rfl)
      (by rfl) (by rfl) (by rfl) (by decide) (by decide) (by decide)
  · exact claim_C7.2.2.2.2.2 c7sd c7out c7ctx false _ ["functions"]
      ["Object Storage"] "Object Storage" (by rfl) (by rfl) (by rfl) (by rfl)
      (by decide) (by rfl) (by rfl)

end SowSpec
